import Mathlib

/-!
# Cascaded motor control loop (Chapter 11, code example 48)

A shallow embedding of `code_example_48.c`: the PID controller, the space
vector modulator, the safety monitor and the 10 kHz control tick.

Conventions of the embedding.

* C `float` values are elements of an arbitrary linearly ordered field `α`
  (exact arithmetic: rounding, infinities and NaN are not modelled).  All
  definitions are computable; they can be run at `α := ℚ`.  Statements that
  need the real cosine instantiate `α := ℝ`, `cosf := Real.cos`.
* `int32_t` values are `Int`, `uint32_t` values are `Nat`; where the source
  subtracts machine integers the wrap-around is written out.
* Function-local `static` variables of the source are explicit state.
* Library functions and macros used by the source (`cosf`, `M_PI`,
  `MAX_MOTOR_TEMPERATURE`) are parameters.
-/

namespace MotorControl

/-! ## Constants -/

/-- `#define CONTROL_FREQUENCY 10000`. -/
def CONTROL_FREQUENCY : Nat := 10000

/-- `#define PWM_FREQUENCY 20000`. -/
def PWM_FREQUENCY : Nat := 20000

/-- `#define ENCODER_PPR 4096`. -/
def ENCODER_PPR : Nat := 4096

/-! ## Data model -/

/-- Modelled from the spec: the enumeration `motor_state_t` is used by the
source but its declaration is missing; the constructors are the ones the
source names (`MOTOR_STATE_READY`, `MOTOR_STATE_POSITION_CONTROL`,
`MOTOR_STATE_FAULT`) and the two further modes of the spec's `MotorState`. -/
inductive motor_state_t where
  | MOTOR_STATE_READY
  | MOTOR_STATE_POSITION_CONTROL
  | MOTOR_STATE_VELOCITY_CONTROL
  | MOTOR_STATE_CURRENT_CONTROL
  | MOTOR_STATE_FAULT
  deriving DecidableEq, Repr

open motor_state_t

/-- Modelled from the spec: `fault_flags_t` is used by the source but its
declaration is missing; the four flags are the ones `check_safety_limits`
writes. -/
structure fault_flags_t where
  overcurrent : Bool
  overspeed : Bool
  position_limit : Bool
  overtemperature : Bool
  deriving DecidableEq, Repr

/-- Modelled from the spec: `pid_controller_t` is used by the source but its
declaration is missing; the fields are the ones `pid_compute` reads and
writes. -/
structure pid_controller_t (α : Type) where
  kp : α
  ki : α
  kd : α
  integral : α
  integral_min : α
  integral_max : α
  last_error : α
  derivative_filtered : α
  deriving DecidableEq, Repr

/-- The struct `motor_control_t` (lines 31-62); `pwm_duty` is `float[3]`. -/
structure motor_control_t (α : Type) where
  position_setpoint : α
  velocity_setpoint : α
  current_setpoint : α
  encoder_count : Int
  position : α
  velocity : α
  current : α
  position_output : α
  velocity_output : α
  pwm_duty : α × α × α
  position_pid : pid_controller_t α
  velocity_pid : pid_controller_t α
  current_pid : pid_controller_t α
  max_velocity : α
  max_current : α
  position_limit_min : α
  position_limit_max : α
  state : motor_state_t
  faults : fault_flags_t
  deriving DecidableEq, Repr

/-- A call of one of the two PWM output collaborators, as made by the tick. -/
inductive hw_call (α : Type) where
  | update_3phase_pwm (duties : α × α × α)
  | disable_motor_outputs
  deriving DecidableEq, Repr

/-- The whole mutable state of the translation unit: the file-scope statics
`motor` and `control_update_flag`, the function-local statics
`last_encoder_count`, `velocity_filter_state` (of the tick) and `last_time`
(of `pid_compute`), and the trace of calls made to the PWM output
collaborators (most recent first). -/
structure system_t (α : Type) where
  motor : motor_control_t α
  control_update_flag : Bool
  last_encoder_count : Int
  velocity_filter_state : α
  last_time : Nat
  hw_calls : List (hw_call α)
  deriving DecidableEq, Repr

/-- What the source takes from its surroundings without defining it: the
library cosine, the macros `M_PI` and `MAX_MOTOR_TEMPERATURE`, the
feedforward collaborator and the integral clamp bounds that
`init_pid_controller` installs. -/
structure platform_t (α : Type) where
  cosf : α → α
  M_PI : α
  MAX_MOTOR_TEMPERATURE : α
  get_velocity_feedforward : α → α
  PID_INTEGRAL_MIN : α
  PID_INTEGRAL_MAX : α

/-- What one invocation of the timer callback reads from its collaborators:
whether the interrupt comes from the control timer
(`htim->Instance == TIM_CONTROL`), the encoder counter, the current and
temperature samples, and the values `HAL_GetTick()` returns to the
`pid_compute` calls of the position, velocity and current stage. -/
structure tick_input (α : Type) where
  is_control_timer : Bool
  encoder_raw : Int
  motor_current : α
  motor_temperature : α
  hal_tick_position : Nat
  hal_tick_velocity : Nat
  hal_tick_current : Nat

variable {α : Type} [LinearOrderedField α]

/-! ## PID controller (lines 170-201) -/

/-- Result of `pid_compute`: the returned output, the updated controller and
the updated function-local static `last_time`. -/
structure pid_result (α : Type) where
  output : α
  pid : pid_controller_t α
  last_time : Nat

/-- The interval `dt` of `pid_compute` (lines 173-175): the unsigned 32-bit
difference of the tick counters in seconds, replaced by the nominal period
`1 / CONTROL_FREQUENCY` when it is not positive. -/
def pid_dt (last_time current_time : Nat) : α :=
  let dt : α := ((((current_time : Int) - (last_time : Int)) % 4294967296 : Int) : α) / 1000
  if dt ≤ 0 then 1 / (CONTROL_FREQUENCY : α) else dt

/-- The function `pid_compute` (lines 170-201); `last_time` is the static of the
source and `current_time` the value returned by `HAL_GetTick()`. -/
def pid_compute (pid : pid_controller_t α) (error : α) (last_time current_time : Nat) :
    pid_result α :=
  let dt : α := pid_dt last_time current_time
  -- Proportional term
  let output := pid.kp * error
  -- Integral term with anti-windup
  let pid := { pid with integral := pid.integral + error * dt }
  let pid :=
    if pid.integral > pid.integral_max then { pid with integral := pid.integral_max }
    else if pid.integral < pid.integral_min then { pid with integral := pid.integral_min }
    else pid
  let output := output + pid.ki * pid.integral
  -- Derivative term with filtering
  let derivative := (error - pid.last_error) / dt
  let pid := { pid with
    derivative_filtered := 4 / 5 * pid.derivative_filtered + 1 / 5 * derivative }
  let output := output + pid.kd * pid.derivative_filtered
  let pid := { pid with last_error := error }
  { output := output, pid := pid, last_time := current_time }

/-- A sequence of `pid_compute` calls on one controller: each call is given
its error and the value of `HAL_GetTick()`; the controller and the static
`last_time` are threaded through. -/
def pid_run (pid : pid_controller_t α) (last_time : Nat) :
    List (α × Nat) → pid_controller_t α × Nat
  | [] => (pid, last_time)
  | (error, current_time) :: calls =>
      let r := pid_compute pid error last_time current_time
      pid_run r.pid r.last_time calls

/-! ## Space vector modulation (lines 206-227) -/

/-- One iteration of the clamp loop (lines 223-226). -/
def clamp_duty (d : α) : α :=
  let d := if d < 0 then 0 else d
  if d > 1 then 1 else d

/-- The common-mode voltage `vcom` (lines 213-215). -/
def svm_vcom (va vb vc : α) : α :=
  let vmin := min (min va vb) vc
  let vmax := max (max va vb) vc
  (vmin + vmax) / 2

/-- The three phase voltages (lines 208-210). -/
def svm_phases (cosf : α → α) (M_PI : α) (voltage_magnitude angle : α) : α × α × α :=
  (voltage_magnitude * cosf angle,
   voltage_magnitude * cosf (angle - 2 * M_PI / 3),
   voltage_magnitude * cosf (angle + 2 * M_PI / 3))

/-- The centred duties before the clamp loop (lines 218-220). -/
def svm_unclamped (cosf : α → α) (M_PI : α) (voltage_magnitude angle : α) : α × α × α :=
  let v := svm_phases cosf M_PI voltage_magnitude angle
  let vcom := svm_vcom v.1 v.2.1 v.2.2
  ((v.1 - vcom + 1) / 2, (v.2.1 - vcom + 1) / 2, (v.2.2 - vcom + 1) / 2)

/-- The function `space_vector_modulation` (lines 206-227); the result is the
array `duties` it writes. -/
def space_vector_modulation (cosf : α → α) (M_PI : α) (voltage_magnitude angle : α) :
    α × α × α :=
  let d := svm_unclamped cosf M_PI voltage_magnitude angle
  (clamp_duty d.1, clamp_duty d.2.1, clamp_duty d.2.2)

/-! ## Safety monitor (lines 232-262) -/

/-- The function `check_safety_limits` (lines 232-262): the returned `safe` and
the updated `*ctrl`; `temperature` is the value of `read_motor_temperature()`. -/
def check_safety_limits (MAX_MOTOR_TEMPERATURE temperature : α) (ctrl : motor_control_t α) :
    Bool × motor_control_t α :=
  let r : Bool × motor_control_t α := (true, ctrl)
  -- Current limit check
  let r := if |r.2.current| > r.2.max_current then
      (false, { r.2 with faults := { r.2.faults with overcurrent := true } })
    else r
  -- Velocity limit check
  let r := if |r.2.velocity| > r.2.max_velocity then
      (false, { r.2 with faults := { r.2.faults with overspeed := true } })
    else r
  -- Position limit check
  let r := if r.2.position < r.2.position_limit_min ∨ r.2.position > r.2.position_limit_max then
      (false, { r.2 with faults := { r.2.faults with position_limit := true } })
    else r
  -- Temperature monitoring
  let r := if temperature > MAX_MOTOR_TEMPERATURE then
      (false, { r.2 with faults := { r.2.faults with overtemperature := true } })
    else r
  r

/-! ## Cascaded control (lines 145-165) -/

/-- The function `execute_cascaded_control` (lines 145-165) on `*ctrl` and the
static `last_time` of `pid_compute`. -/
def execute_cascaded_control (env : platform_t α) (inp : tick_input α)
    (ctrl : motor_control_t α) (last_time : Nat) : motor_control_t α × Nat :=
  -- Position loop (outer loop)
  let st : motor_control_t α × Nat :=
    if ctrl.state = MOTOR_STATE_POSITION_CONTROL then
      let position_error := ctrl.position_setpoint - ctrl.position
      let r := pid_compute ctrl.position_pid position_error last_time inp.hal_tick_position
      let ctrl := { ctrl with position_pid := r.pid, velocity_setpoint := r.output }
      ({ ctrl with velocity_setpoint :=
          ctrl.velocity_setpoint + env.get_velocity_feedforward ctrl.position_setpoint },
        r.last_time)
    else (ctrl, last_time)
  let ctrl := st.1
  let last_time := st.2
  -- Velocity loop (middle loop)
  let velocity_error := ctrl.velocity_setpoint - ctrl.velocity
  let r := pid_compute ctrl.velocity_pid velocity_error last_time inp.hal_tick_velocity
  let ctrl := { ctrl with velocity_pid := r.pid, current_setpoint := r.output }
  let last_time := r.last_time
  -- Current loop (inner loop)
  let current_error := ctrl.current_setpoint - ctrl.current
  let r := pid_compute ctrl.current_pid current_error last_time inp.hal_tick_current
  let ctrl := { ctrl with current_pid := r.pid }
  let voltage_command := r.output
  -- Space vector modulation
  ({ ctrl with pwm_duty :=
      space_vector_modulation env.cosf env.M_PI voltage_command ctrl.position },
    r.last_time)

/-! ## Output collaborators and initialisation -/

/-- Modelled from the spec: `update_3phase_pwm` is called by the tick but not
defined in the sources; it is the PWM sink that "accepts three duty fractions"
(spec §6).  The model records the call with the duties it was given. -/
def update_3phase_pwm (duties : α × α × α) (s : system_t α) : system_t α :=
  { s with hw_calls := hw_call.update_3phase_pwm duties :: s.hw_calls }

/-- Modelled from the spec: `disable_motor_outputs` is called by the tick but not
defined in the sources; spec §4.5 step 3: "force all duties to 0".  The model
sets the three duty fractions of the motor state to zero and records the
call. -/
def disable_motor_outputs (s : system_t α) : system_t α :=
  { s with
    motor := { s.motor with pwm_duty := (0, 0, 0) }
    hw_calls := hw_call.disable_motor_outputs :: s.hw_calls }

/-- Modelled from the spec: `init_pid_controller` is called by
`init_motor_control_system` but not defined in the sources; spec §3: a
`PidState` is "created once per control stage at system init with fixed gains
and clamp bounds".  The model installs the gains and the platform's clamp
bounds and clears the running state. -/
def init_pid_controller (env : platform_t α) (kp ki kd : α) : pid_controller_t α :=
  { kp := kp, ki := ki, kd := kd
    integral := 0
    integral_min := env.PID_INTEGRAL_MIN
    integral_max := env.PID_INTEGRAL_MAX
    last_error := 0
    derivative_filtered := 0 }

/-- The function `init_motor_control_system` (lines 70-96) on the state it finds;
the peripheral configuration calls have no effect on the modelled state. -/
def init_motor_control_system (env : platform_t α) (s : system_t α) : system_t α :=
  { s with motor := { s.motor with
      position_pid := init_pid_controller env 10 (1 / 10) (1 / 20)
      velocity_pid := init_pid_controller env (1 / 2) (1 / 20) (1 / 100)
      current_pid := init_pid_controller env 2 20 0
      max_velocity := 1000
      max_current := 5
      position_limit_min := -180
      position_limit_max := 180
      state := MOTOR_STATE_READY } }

/-- The zero-initialised static storage the program starts from; the value of
`state` in it is immaterial, `init_motor_control_system` overwrites it. -/
def system_zero : system_t α :=
  let pid0 : pid_controller_t α := ⟨0, 0, 0, 0, 0, 0, 0, 0⟩
  { motor :=
      { position_setpoint := 0, velocity_setpoint := 0, current_setpoint := 0
        encoder_count := 0, position := 0, velocity := 0, current := 0
        position_output := 0, velocity_output := 0, pwm_duty := (0, 0, 0)
        position_pid := pid0, velocity_pid := pid0, current_pid := pid0
        max_velocity := 0, max_current := 0
        position_limit_min := 0, position_limit_max := 0
        state := MOTOR_STATE_READY
        faults := ⟨false, false, false, false⟩ }
    control_update_flag := false
    last_encoder_count := 0
    velocity_filter_state := 0
    last_time := 0
    hw_calls := [] }

/-- The state after start-up: `init_motor_control_system` run on the
zero-initialised statics. -/
def system_init (env : platform_t α) : system_t α :=
  init_motor_control_system env system_zero

/-! ## The control tick (lines 101-140) -/

/-- Wrap-around of an `int32_t` result. -/
def wrap_int32 (x : Int) : Int :=
  (x + 2147483648) % 4294967296 - 2147483648

/-- Lines 103-123 of `HAL_TIM_PeriodElapsedCallback`: encoder position, velocity
estimate and current feedback. -/
def acquire_feedback (inp : tick_input α) (s : system_t α) : system_t α :=
  -- Read encoder position
  let encoder_raw := inp.encoder_raw
  let motor := { s.motor with
    encoder_count := encoder_raw
    position := (encoder_raw : α) * 360 / ((4 * ENCODER_PPR : Nat) : α) }
  -- Estimate velocity
  let velocity_raw : α :=
    ((wrap_int32 (encoder_raw - s.last_encoder_count) : Int) : α) *
      (CONTROL_FREQUENCY : α) * 60 / ((4 * ENCODER_PPR : Nat) : α)
  -- Apply low-pass filter to velocity estimate
  let velocity_filter_alpha : α := 1 / 10
  let velocity_filter_state :=
    velocity_filter_alpha * velocity_raw + (1 - velocity_filter_alpha) * s.velocity_filter_state
  let motor := { motor with velocity := velocity_filter_state }
  -- Read current feedback
  let motor := { motor with current := inp.motor_current }
  { s with
    motor := motor
    velocity_filter_state := velocity_filter_state
    last_encoder_count := encoder_raw }

/-- The function `HAL_TIM_PeriodElapsedCallback` (lines 101-140). -/
def HAL_TIM_PeriodElapsedCallback (env : platform_t α) (inp : tick_input α)
    (s : system_t α) : system_t α :=
  if inp.is_control_timer then
    let s := acquire_feedback inp s
    -- Safety checks
    let chk := check_safety_limits env.MAX_MOTOR_TEMPERATURE inp.motor_temperature s.motor
    let s := { s with motor := chk.2 }
    let s :=
      if chk.1 then
        -- Execute control loops
        let r := execute_cascaded_control env inp s.motor s.last_time
        let s := { s with motor := r.1, last_time := r.2 }
        -- Update PWM outputs
        update_3phase_pwm s.motor.pwm_duty s
      else
        -- Safety violation - disable outputs
        let s := disable_motor_outputs s
        { s with motor := { s.motor with state := MOTOR_STATE_FAULT } }
    { s with control_update_flag := true }
  else s

/-- A run of the callback over a sequence of invocations, oldest first. -/
def run_ticks (env : platform_t α) (inps : List (tick_input α)) (s : system_t α) :
    system_t α :=
  inps.foldl (fun s inp => HAL_TIM_PeriodElapsedCallback env inp s) s

/-- The state after the first `n` invocations of the callback on a stream of
inputs. -/
def run_stream (env : platform_t α) (f : Nat → tick_input α) (n : Nat) (s : system_t α) :
    system_t α :=
  run_ticks env ((List.range n).map f) s

/-! ## Concrete inputs -/

/-- A platform with a 100 degree temperature limit, no feedforward and
integral clamp bounds `[-10, 10]`, over a given cosine and `M_PI`. -/
def demo_platform (cosf : α → α) (M_PI : α) : platform_t α :=
  { cosf := cosf, M_PI := M_PI, MAX_MOTOR_TEMPERATURE := 100
    get_velocity_feedforward := fun _ => 0
    PID_INTEGRAL_MIN := -10, PID_INTEGRAL_MAX := 10 }

/-- A control tick with the encoder at 0, no current and 25 degrees. -/
def input_idle : tick_input α := ⟨true, 0, 0, 25, 0, 0, 0⟩

/-- A control tick with the encoder at 0, a current of 1 A and 25 degrees. -/
def input_nominal : tick_input α := ⟨true, 0, 1, 25, 0, 0, 0⟩

/-- A control tick with the encoder at 0, a current of 6 A (limit 5 A) and 25
degrees. -/
def input_overcurrent : tick_input α := ⟨true, 0, 6, 25, 0, 0, 0⟩

/-- A motor state with the start-up limits in which current (6 A), velocity
(2000 RPM) and position (200 degrees) all exceed their limits. -/
def motor_all_violated : motor_control_t α :=
  { (system_zero : system_t α).motor with
    max_velocity := 1000, max_current := 5
    position_limit_min := -180, position_limit_max := 180
    current := 6, velocity := 2000, position := 200 }

/-- A motor state with the start-up limits in which current (5 A), velocity
(1000 RPM) and position (180 degrees) are exactly at their limits. -/
def motor_at_limits : motor_control_t α :=
  { (system_zero : system_t α).motor with
    max_velocity := 1000, max_current := 5
    position_limit_min := -180, position_limit_max := 180
    current := 5, velocity := 1000, position := 180 }

/-- The state after start-up and one tick with an overcurrent reading. -/
def demo_fault_state (cosf : α → α) (M_PI : α) : system_t α :=
  HAL_TIM_PeriodElapsedCallback (demo_platform cosf M_PI) input_overcurrent
    (system_init (demo_platform cosf M_PI))

/-- A motor state with the start-up limits, a current of 6 A against the 5 A
limit, velocity and position at 0, and the overspeed flag already set. -/
def motor_overcurrent_only : motor_control_t α :=
  { (system_zero : system_t α).motor with
    max_velocity := 1000, max_current := 5
    position_limit_min := -180, position_limit_max := 180
    current := 6
    faults := ⟨false, true, false, false⟩ }

/-- The start-up motor state with a measured velocity of -1 RPM, in a given
mode. -/
def demo_cascade_motor (env : platform_t α) (st : motor_state_t) : motor_control_t α :=
  { (system_init env).motor with velocity := -1, state := st }

/-- A control tick with the encoder at 0, no current, 25 degrees, on which
`HAL_GetTick()` returns 1000 to every `pid_compute` call. -/
def input_at_1000 : tick_input α := ⟨true, 0, 0, 25, 1000, 1000, 1000⟩

/-- A stream of control ticks on which the encoder starts at `d` and advances by
`d` counts per tick, with no current and 25 degrees. -/
def ramp_stream (d : Int) (k : Nat) : tick_input α :=
  ⟨true, ((k : Int) + 1) * d, 0, 25, 0, 0, 0⟩

/-- The demo platform with a constant feedforward term `ff`. -/
def feedforward_platform (cosf : α → α) (M_PI ff : α) : platform_t α :=
  { demo_platform cosf M_PI with get_velocity_feedforward := fun _ => ff }

/-- The start-up state after a mode-select command for position control with a
setpoint of 90 degrees. -/
def demo_position_state (env : platform_t α) : system_t α :=
  { system_init env with
    motor := { (system_init env).motor with
      position_setpoint := 90
      state := MOTOR_STATE_POSITION_CONTROL } }

/-- The start-up state with the rotor at rest a quarter turn from the origin: the
encoder counter was 4096 on the previous tick. -/
def demo_quarter_turn_state (env : platform_t α) : system_t α :=
  { system_init env with last_encoder_count := 4096 }

/-- A control tick with the encoder at 4096 counts (90 degrees), a current of
0.1 A and 25 degrees. -/
def input_quarter_turn : tick_input α := ⟨true, 4096, 1 / 10, 25, 0, 0, 0⟩

/-! ## State predicates -/

/-- The relation between `motor.state`, `motor.pwm_duty` and the most recent
output call that every state reachable from start-up satisfies. -/
def fault_duty_inv (s : system_t α) : Prop :=
  s.motor.state = MOTOR_STATE_FAULT →
    (s.hw_calls.head? = some hw_call.disable_motor_outputs ∧ s.motor.pwm_duty = (0, 0, 0)) ∨
    s.hw_calls.head? = some (hw_call.update_3phase_pwm s.motor.pwm_duty)

/-- Every fault flag that is set in `before` is set in `after`. -/
def flags_kept (before after : fault_flags_t) : Prop :=
  (before.overcurrent = true → after.overcurrent = true) ∧
  (before.overspeed = true → after.overspeed = true) ∧
  (before.position_limit = true → after.position_limit = true) ∧
  (before.overtemperature = true → after.overtemperature = true)

/-! ## Reference definitions (from the spec's words) -/

/-- Reference, from the spec's words (§4.1, "anti-windup by hard clamping",
"clamp bounds are inclusive"): the value of `[lo, hi]` nearest to `x`. -/
def clamp_reference (x lo hi : α) : α :=
  max lo (min x hi)

/-- Reference, from the spec's words (§4.1): the PID law
`integral' = clamp (integral + error * dt, integral_min, integral_max)`,
`raw_derivative = (error - last_error) / dt`,
`derivative_filtered' = 0.2 * raw_derivative + 0.8 * derivative_filtered`,
`output = kp * error + ki * integral' + kd * derivative_filtered'`; the result
is the output and the controller with its three running values replaced. -/
def pid_reference (pid : pid_controller_t α) (error dt : α) : α × pid_controller_t α :=
  let integral := clamp_reference (pid.integral + error * dt) pid.integral_min pid.integral_max
  let raw_derivative := (error - pid.last_error) / dt
  let derivative_filtered := 1 / 5 * raw_derivative + 4 / 5 * pid.derivative_filtered
  (pid.kp * error + pid.ki * integral + pid.kd * derivative_filtered,
   { pid with
     integral := integral
     last_error := error
     derivative_filtered := derivative_filtered })

/-- Reference, from the spec's words (§4.2): `raw_velocity = (raw_position -
last_raw_position) * loop_frequency_hz * 60 / counts_per_revolution` with the
loop at 10000 Hz and `4 * 4096` counts per revolution. -/
def velocity_raw_reference (raw_position last_raw_position : Int) : α :=
  ((raw_position - last_raw_position : Int) : α) * 10000 * 60 / (4 * 4096)

/-- Reference, from the spec's words (§4.2): `filtered_velocity = 0.1 *
raw_velocity + 0.9 * filtered_velocity_prev`. -/
def velocity_filter_reference (filtered_velocity_prev raw_velocity : α) : α :=
  1 / 10 * raw_velocity + 9 / 10 * filtered_velocity_prev

/-- The velocity in RPM that corresponds to an advance of `d` encoder counts
per tick: `d * 10000 * 60 / 16384`. -/
def steady_velocity (d : Int) : α :=
  (d : α) * 10000 * 60 / 16384

/-! ## Lemmas on the safety monitor -/

/-- Closed form of `check_safety_limits`: the result is the conjunction of the
negated conditions and every flag is or-ed with its condition. -/
theorem check_safety_limits_closed (M t : α) (c : motor_control_t α) :
    check_safety_limits M t c =
      (decide (¬ |c.current| > c.max_current ∧ ¬ |c.velocity| > c.max_velocity ∧
          ¬ (c.position < c.position_limit_min ∨ c.position > c.position_limit_max) ∧
          ¬ t > M),
       { c with faults :=
          { overcurrent := c.faults.overcurrent || decide (|c.current| > c.max_current)
            overspeed := c.faults.overspeed || decide (|c.velocity| > c.max_velocity)
            position_limit := c.faults.position_limit ||
              decide (c.position < c.position_limit_min ∨ c.position > c.position_limit_max)
            overtemperature := c.faults.overtemperature || decide (t > M) } }) := by
  unfold check_safety_limits
  by_cases h1 : |c.current| > c.max_current <;>
  by_cases h2 : |c.velocity| > c.max_velocity <;>
  by_cases h3 : (c.position < c.position_limit_min ∨ c.position > c.position_limit_max) <;>
  by_cases h4 : t > M <;>
  simp [h1, h2, h3, h4]

/-- The safety monitor writes nothing but the fault flags. -/
theorem check_safety_limits_frame (M t : α) (c : motor_control_t α) :
    (check_safety_limits M t c).2 = { c with faults := (check_safety_limits M t c).2.faults } := by
  rw [check_safety_limits_closed]

theorem check_safety_limits_state (M t : α) (c : motor_control_t α) :
    (check_safety_limits M t c).2.state = c.state := by
  rw [check_safety_limits_closed]

/-! ## Lemmas on the cascade and the tick -/

theorem execute_cascaded_control_state (env : platform_t α) (inp : tick_input α)
    (ctrl : motor_control_t α) (lt : Nat) :
    (execute_cascaded_control env inp ctrl lt).1.state = ctrl.state := by
  unfold execute_cascaded_control
  by_cases h : ctrl.state = MOTOR_STATE_POSITION_CONTROL <;> simp [h]

theorem acquire_feedback_state (inp : tick_input α) (s : system_t α) :
    (acquire_feedback inp s).motor.state = s.motor.state := rfl

/-- The tick on a violation: feedback is acquired, flags are written, the
outputs are disabled and the state becomes `MOTOR_STATE_FAULT`. -/
theorem tick_on_violation (env : platform_t α) (inp : tick_input α) (s : system_t α)
    (hctl : inp.is_control_timer = true)
    (hviol : (check_safety_limits env.MAX_MOTOR_TEMPERATURE inp.motor_temperature
      (acquire_feedback inp s).motor).1 = false) :
    HAL_TIM_PeriodElapsedCallback env inp s =
      { acquire_feedback inp s with
        motor := { (check_safety_limits env.MAX_MOTOR_TEMPERATURE inp.motor_temperature
            (acquire_feedback inp s).motor).2 with
          pwm_duty := (0, 0, 0), state := MOTOR_STATE_FAULT }
        hw_calls := hw_call.disable_motor_outputs :: s.hw_calls
        control_update_flag := true } := by
  simp only [HAL_TIM_PeriodElapsedCallback, hctl, hviol, disable_motor_outputs, if_true, if_false,
    Bool.false_eq_true]
  rfl

/-- The tick without a violation: the cascade runs on the checked state and its
duties are passed to `update_3phase_pwm`. -/
theorem tick_safe (env : platform_t α) (inp : tick_input α) (s : system_t α)
    (hctl : inp.is_control_timer = true)
    (hsafe : (check_safety_limits env.MAX_MOTOR_TEMPERATURE inp.motor_temperature
      (acquire_feedback inp s).motor).1 = true) :
    HAL_TIM_PeriodElapsedCallback env inp s =
      { acquire_feedback inp s with
        motor := (execute_cascaded_control env inp
          (check_safety_limits env.MAX_MOTOR_TEMPERATURE inp.motor_temperature
            (acquire_feedback inp s).motor).2 s.last_time).1
        last_time := (execute_cascaded_control env inp
          (check_safety_limits env.MAX_MOTOR_TEMPERATURE inp.motor_temperature
            (acquire_feedback inp s).motor).2 s.last_time).2
        hw_calls := hw_call.update_3phase_pwm (execute_cascaded_control env inp
          (check_safety_limits env.MAX_MOTOR_TEMPERATURE inp.motor_temperature
            (acquire_feedback inp s).motor).2 s.last_time).1.pwm_duty :: s.hw_calls
        control_update_flag := true } := by
  simp only [HAL_TIM_PeriodElapsedCallback, hctl, hsafe, update_3phase_pwm, if_true]
  rfl

/-- An invocation for another timer changes nothing. -/
theorem tick_other_timer (env : platform_t α) (inp : tick_input α) (s : system_t α)
    (hctl : inp.is_control_timer = false) :
    HAL_TIM_PeriodElapsedCallback env inp s = s := by
  simp [HAL_TIM_PeriodElapsedCallback, hctl]

/-- A property that holds initially and is preserved by every invocation of the
callback holds after every run. -/
theorem run_ticks_induction (env : platform_t α) (P : system_t α → Prop)
    (hstep : ∀ s inp, P s → P (HAL_TIM_PeriodElapsedCallback env inp s))
    (inps : List (tick_input α)) (s : system_t α) (h0 : P s) :
    P (run_ticks env inps s) := by
  induction inps generalizing s with
  | nil => exact h0
  | cons inp rest ih => exact ih _ (hstep s inp h0)

/-- The overcurrent reading of `input_overcurrent` fails the safety check in the
start-up state. -/
theorem demo_overcurrent_violation (cosf : α → α) (M_PI : α) :
    (check_safety_limits (demo_platform cosf M_PI).MAX_MOTOR_TEMPERATURE
      (input_overcurrent : tick_input α).motor_temperature
      (acquire_feedback input_overcurrent (system_init (demo_platform cosf M_PI))).motor).1
      = false := by
  rw [check_safety_limits_closed]
  norm_num [acquire_feedback, input_overcurrent, system_init, init_motor_control_system,
    system_zero, demo_platform]

/-! ## The control tick: safety shutdown and the Fault state -/

/-- C1: if `check_safety_limits` reports a violation during a control tick, then
after the tick `motor.pwm_duty` is `(0, 0, 0)` and `motor.state` is
`MOTOR_STATE_FAULT`, for every platform, state and reading; the only output
call of the tick is `disable_motor_outputs`. -/
theorem C1_violation_zeroes_duties_and_faults (env : platform_t α) (inp : tick_input α)
    (s : system_t α) (hctl : inp.is_control_timer = true)
    (hviol : (check_safety_limits env.MAX_MOTOR_TEMPERATURE inp.motor_temperature
      (acquire_feedback inp s).motor).1 = false) :
    (HAL_TIM_PeriodElapsedCallback env inp s).motor.pwm_duty = (0, 0, 0) ∧
    (HAL_TIM_PeriodElapsedCallback env inp s).motor.state = MOTOR_STATE_FAULT ∧
    (HAL_TIM_PeriodElapsedCallback env inp s).hw_calls =
      hw_call.disable_motor_outputs :: s.hw_calls := by
  rw [tick_on_violation env inp s hctl hviol]
  exact ⟨rfl, rfl, rfl⟩

/-- C1 at a concrete input: start-up state, current 6 A against the 5 A limit. -/
theorem C1_violation_zeroes_duties_and_faults_witness :
    (HAL_TIM_PeriodElapsedCallback (demo_platform Real.cos Real.pi) input_overcurrent
      (system_init (demo_platform Real.cos Real.pi))).motor.pwm_duty = (0, 0, 0) ∧
    (HAL_TIM_PeriodElapsedCallback (demo_platform Real.cos Real.pi) input_overcurrent
      (system_init (demo_platform Real.cos Real.pi))).motor.state = MOTOR_STATE_FAULT ∧
    (HAL_TIM_PeriodElapsedCallback (demo_platform Real.cos Real.pi) input_overcurrent
      (system_init (demo_platform Real.cos Real.pi))).hw_calls =
      hw_call.disable_motor_outputs :: (system_init (demo_platform Real.cos Real.pi)).hw_calls :=
  C1_violation_zeroes_duties_and_faults (demo_platform Real.cos Real.pi) input_overcurrent
    (system_init (demo_platform Real.cos Real.pi)) rfl
    (demo_overcurrent_violation Real.cos Real.pi)

/-- The state reached by the overcurrent tick after start-up, written out. -/
theorem demo_fault_state_eq (cosf : α → α) (M_PI : α) :
    demo_fault_state cosf M_PI =
      { acquire_feedback input_overcurrent (system_init (demo_platform cosf M_PI)) with
        motor := { (check_safety_limits (demo_platform cosf M_PI).MAX_MOTOR_TEMPERATURE
            (input_overcurrent : tick_input α).motor_temperature
            (acquire_feedback input_overcurrent
              (system_init (demo_platform cosf M_PI))).motor).2 with
          pwm_duty := (0, 0, 0), state := MOTOR_STATE_FAULT }
        hw_calls := [hw_call.disable_motor_outputs]
        control_update_flag := true } := by
  unfold demo_fault_state
  rw [tick_on_violation _ _ _ rfl (demo_overcurrent_violation cosf M_PI)]
  rfl

/-- In the state after the overcurrent tick, readings within all limits pass the
safety check. -/
theorem demo_fault_state_safe (cosf : α → α) (M_PI : α) (inp : tick_input α)
    (henc : inp.encoder_raw = 0) (hcur : |inp.motor_current| ≤ 5)
    (htemp : inp.motor_temperature ≤ 100) :
    (check_safety_limits (demo_platform cosf M_PI).MAX_MOTOR_TEMPERATURE inp.motor_temperature
      (acquire_feedback inp (demo_fault_state cosf M_PI)).motor).1 = true := by
  rw [check_safety_limits_closed, demo_fault_state_eq, check_safety_limits_closed]
  simp only [acquire_feedback, henc, input_overcurrent, system_init, init_motor_control_system,
    system_zero, demo_platform, wrap_int32]
  norm_num [not_lt.mpr hcur, not_lt.mpr htemp]

/-- C2 (as stated) fails: after start-up, a tick with an overcurrent reading
followed by a tick with all readings within limits leaves `motor.state` at
`MOTOR_STATE_FAULT` with `motor.pwm_duty = (1/2, 1/2, 1/2)`. -/
theorem C2_fault_with_nonzero_duty :
    (run_ticks (demo_platform Real.cos Real.pi) [input_overcurrent, input_idle]
      (system_init (demo_platform Real.cos Real.pi))).motor.state = MOTOR_STATE_FAULT ∧
    (run_ticks (demo_platform Real.cos Real.pi) [input_overcurrent, input_idle]
      (system_init (demo_platform Real.cos Real.pi))).motor.pwm_duty = (1 / 2, 1 / 2, 1 / 2) ∧
    (run_ticks (demo_platform Real.cos Real.pi) [input_overcurrent, input_idle]
      (system_init (demo_platform Real.cos Real.pi))).motor.pwm_duty ≠ (0, 0, 0) := by
  have hrun : run_ticks (demo_platform Real.cos Real.pi) [input_overcurrent, input_idle]
      (system_init (demo_platform Real.cos Real.pi)) =
      HAL_TIM_PeriodElapsedCallback (demo_platform Real.cos Real.pi) input_idle
        (demo_fault_state Real.cos Real.pi) := rfl
  have hsafe := demo_fault_state_safe Real.cos Real.pi input_idle rfl
    (by norm_num [input_idle]) (by norm_num [input_idle])
  rw [hrun, tick_safe _ _ _ rfl hsafe]
  have hduty : (execute_cascaded_control (demo_platform Real.cos Real.pi) input_idle
      (check_safety_limits (demo_platform Real.cos Real.pi).MAX_MOTOR_TEMPERATURE
        (input_idle : tick_input ℝ).motor_temperature
        (acquire_feedback input_idle (demo_fault_state Real.cos Real.pi)).motor).2
      (demo_fault_state Real.cos Real.pi).last_time).1.pwm_duty = (1 / 2, 1 / 2, 1 / 2) := by
    simp only [execute_cascaded_control, check_safety_limits_state, acquire_feedback_state]
    simp only [demo_fault_state_eq, if_false, reduceCtorEq]
    simp only [check_safety_limits_closed]
    simp only [acquire_feedback, system_init, init_motor_control_system, system_zero, input_idle,
      input_overcurrent]
    simp only [pid_compute, pid_dt, init_pid_controller, demo_platform]
    norm_num [wrap_int32, space_vector_modulation, svm_unclamped, svm_phases, svm_vcom,
      clamp_duty]
  refine ⟨?_, hduty, ?_⟩
  · show (execute_cascaded_control _ _ _ _).1.state = _
    rw [execute_cascaded_control_state, check_safety_limits_state, acquire_feedback_state,
      demo_fault_state_eq]
  · show (execute_cascaded_control _ _ _ _).1.pwm_duty ≠ _
    rw [hduty]
    norm_num

theorem fault_duty_inv_step (env : platform_t α) (s : system_t α) (inp : tick_input α)
    (h : fault_duty_inv s) : fault_duty_inv (HAL_TIM_PeriodElapsedCallback env inp s) := by
  cases hctl : inp.is_control_timer with
  | false => rw [tick_other_timer env inp s hctl]; exact h
  | true =>
    cases hchk : (check_safety_limits env.MAX_MOTOR_TEMPERATURE inp.motor_temperature
        (acquire_feedback inp s).motor).1 with
    | false =>
      rw [tick_on_violation env inp s hctl hchk]
      exact fun _ => Or.inl ⟨rfl, rfl⟩
    | true =>
      rw [tick_safe env inp s hctl hchk]
      exact fun _ => Or.inr rfl

/-- C2 (amended): in every state reachable from the initialised state by any
sequence of ticks, if `motor.state` is `MOTOR_STATE_FAULT` then either the most
recent output call is `disable_motor_outputs` and `motor.pwm_duty` is
`(0, 0, 0)`, or the most recent output call is `update_3phase_pwm` with the
duties now stored in `motor.pwm_duty`. -/
theorem C2_fault_duty_invariant (env : platform_t α) (inps : List (tick_input α))
    (hfault : (run_ticks env inps (system_init env)).motor.state = MOTOR_STATE_FAULT) :
    ((run_ticks env inps (system_init env)).hw_calls.head? =
        some hw_call.disable_motor_outputs ∧
      (run_ticks env inps (system_init env)).motor.pwm_duty = (0, 0, 0)) ∨
    (run_ticks env inps (system_init env)).hw_calls.head? =
      some (hw_call.update_3phase_pwm (run_ticks env inps (system_init env)).motor.pwm_duty) := by
  have hinv : fault_duty_inv (run_ticks env inps (system_init env)) :=
    run_ticks_induction env fault_duty_inv (fault_duty_inv_step env) inps (system_init env)
      (fun h => by simp [system_init, init_motor_control_system] at h)
  exact hinv hfault

/-- C2 (amended) at a concrete run: start-up followed by one overcurrent tick. -/
theorem C2_fault_duty_invariant_witness :
    ((run_ticks (demo_platform Real.cos Real.pi) [input_overcurrent]
        (system_init (demo_platform Real.cos Real.pi))).hw_calls.head? =
        some hw_call.disable_motor_outputs ∧
      (run_ticks (demo_platform Real.cos Real.pi) [input_overcurrent]
        (system_init (demo_platform Real.cos Real.pi))).motor.pwm_duty = (0, 0, 0)) ∨
    (run_ticks (demo_platform Real.cos Real.pi) [input_overcurrent]
        (system_init (demo_platform Real.cos Real.pi))).hw_calls.head? =
      some (hw_call.update_3phase_pwm (run_ticks (demo_platform Real.cos Real.pi)
        [input_overcurrent] (system_init (demo_platform Real.cos Real.pi))).motor.pwm_duty) :=
  C2_fault_duty_invariant (demo_platform Real.cos Real.pi) [input_overcurrent]
    (by
      show (demo_fault_state Real.cos Real.pi).motor.state = MOTOR_STATE_FAULT
      rw [demo_fault_state_eq])

/-- C3 (as stated) fails: in the Fault state reached by an overcurrent tick, a
tick whose readings are back within all limits (current 1 A) changes the
current PID's `last_error` from 0 to -1 and invokes `update_3phase_pwm`. -/
theorem C3_fault_tick_runs_control :
    (demo_fault_state Real.cos Real.pi).motor.state = MOTOR_STATE_FAULT ∧
    (demo_fault_state Real.cos Real.pi).motor.current_pid.last_error = 0 ∧
    (HAL_TIM_PeriodElapsedCallback (demo_platform Real.cos Real.pi) input_nominal
      (demo_fault_state Real.cos Real.pi)).motor.current_pid.last_error = -1 ∧
    (HAL_TIM_PeriodElapsedCallback (demo_platform Real.cos Real.pi) input_nominal
      (demo_fault_state Real.cos Real.pi)).hw_calls.head? =
      some (hw_call.update_3phase_pwm
        (HAL_TIM_PeriodElapsedCallback (demo_platform Real.cos Real.pi) input_nominal
          (demo_fault_state Real.cos Real.pi)).motor.pwm_duty) := by
  have hsafe := demo_fault_state_safe Real.cos Real.pi input_nominal rfl
    (by norm_num [input_nominal]) (by norm_num [input_nominal])
  refine ⟨by rw [demo_fault_state_eq], ?_, ?_, ?_⟩
  · rw [demo_fault_state_eq, check_safety_limits_closed]
    rfl
  · rw [tick_safe _ _ _ rfl hsafe]
    show (execute_cascaded_control _ _ _ _).1.current_pid.last_error = _
    simp only [execute_cascaded_control, check_safety_limits_state, acquire_feedback_state]
    simp only [demo_fault_state_eq, if_false, reduceCtorEq]
    simp only [check_safety_limits_closed]
    simp only [acquire_feedback, system_init, init_motor_control_system, system_zero,
      input_nominal, input_overcurrent]
    simp only [pid_compute, pid_dt, init_pid_controller, demo_platform]
    norm_num [wrap_int32]
  · rw [tick_safe _ _ _ rfl hsafe]
    rfl

/-- C3 (amended): a control tick that starts in `MOTOR_STATE_FAULT` leaves the
state at `MOTOR_STATE_FAULT`.  If its readings violate a limit, no control
arithmetic runs and nothing is committed: the three PID states, the setpoints
and the static `last_time` are unchanged, `pwm_duty` is zero and the only
output call is `disable_motor_outputs`.  If its readings are within all limits,
the tick runs `execute_cascaded_control` and passes the resulting `pwm_duty`
to `update_3phase_pwm`, as in any other state. -/
theorem C3_tick_in_fault (env : platform_t α) (inp : tick_input α) (s : system_t α)
    (hfault : s.motor.state = MOTOR_STATE_FAULT) (hctl : inp.is_control_timer = true) :
    (HAL_TIM_PeriodElapsedCallback env inp s).motor.state = MOTOR_STATE_FAULT ∧
    ((check_safety_limits env.MAX_MOTOR_TEMPERATURE inp.motor_temperature
        (acquire_feedback inp s).motor).1 = false →
      (HAL_TIM_PeriodElapsedCallback env inp s).motor.position_pid = s.motor.position_pid ∧
      (HAL_TIM_PeriodElapsedCallback env inp s).motor.velocity_pid = s.motor.velocity_pid ∧
      (HAL_TIM_PeriodElapsedCallback env inp s).motor.current_pid = s.motor.current_pid ∧
      (HAL_TIM_PeriodElapsedCallback env inp s).motor.position_setpoint =
        s.motor.position_setpoint ∧
      (HAL_TIM_PeriodElapsedCallback env inp s).motor.velocity_setpoint =
        s.motor.velocity_setpoint ∧
      (HAL_TIM_PeriodElapsedCallback env inp s).motor.current_setpoint =
        s.motor.current_setpoint ∧
      (HAL_TIM_PeriodElapsedCallback env inp s).last_time = s.last_time ∧
      (HAL_TIM_PeriodElapsedCallback env inp s).motor.pwm_duty = (0, 0, 0) ∧
      (HAL_TIM_PeriodElapsedCallback env inp s).hw_calls =
        hw_call.disable_motor_outputs :: s.hw_calls) ∧
    ((check_safety_limits env.MAX_MOTOR_TEMPERATURE inp.motor_temperature
        (acquire_feedback inp s).motor).1 = true →
      (HAL_TIM_PeriodElapsedCallback env inp s).motor =
        (execute_cascaded_control env inp
          (check_safety_limits env.MAX_MOTOR_TEMPERATURE inp.motor_temperature
            (acquire_feedback inp s).motor).2 s.last_time).1 ∧
      (HAL_TIM_PeriodElapsedCallback env inp s).last_time =
        (execute_cascaded_control env inp
          (check_safety_limits env.MAX_MOTOR_TEMPERATURE inp.motor_temperature
            (acquire_feedback inp s).motor).2 s.last_time).2 ∧
      (HAL_TIM_PeriodElapsedCallback env inp s).hw_calls =
        hw_call.update_3phase_pwm (HAL_TIM_PeriodElapsedCallback env inp s).motor.pwm_duty ::
          s.hw_calls) := by
  refine ⟨?_, ?_, ?_⟩
  · cases hchk : (check_safety_limits env.MAX_MOTOR_TEMPERATURE inp.motor_temperature
        (acquire_feedback inp s).motor).1 with
    | false => rw [tick_on_violation env inp s hctl hchk]
    | true =>
      rw [tick_safe env inp s hctl hchk]
      show (execute_cascaded_control _ _ _ _).1.state = _
      rw [execute_cascaded_control_state, check_safety_limits_state, acquire_feedback_state,
        hfault]
  · intro hchk
    rw [tick_on_violation env inp s hctl hchk, check_safety_limits_closed]
    exact ⟨rfl, rfl, rfl, rfl, rfl, rfl, rfl, rfl, rfl⟩
  · intro hchk
    rw [tick_safe env inp s hctl hchk]
    exact ⟨rfl, rfl, rfl⟩

/-- C3 (amended) at a concrete input: the Fault state after an overcurrent tick,
followed by a tick with readings within all limits; the state stays Fault and
the duties are passed to `update_3phase_pwm`. -/
theorem C3_tick_in_fault_witness :
    (HAL_TIM_PeriodElapsedCallback (demo_platform Real.cos Real.pi) input_nominal
      (demo_fault_state Real.cos Real.pi)).motor.state = MOTOR_STATE_FAULT ∧
    (HAL_TIM_PeriodElapsedCallback (demo_platform Real.cos Real.pi) input_nominal
      (demo_fault_state Real.cos Real.pi)).hw_calls =
      hw_call.update_3phase_pwm
        (HAL_TIM_PeriodElapsedCallback (demo_platform Real.cos Real.pi) input_nominal
          (demo_fault_state Real.cos Real.pi)).motor.pwm_duty ::
        (demo_fault_state Real.cos Real.pi).hw_calls :=
  ⟨(C3_tick_in_fault (demo_platform Real.cos Real.pi) input_nominal
      (demo_fault_state Real.cos Real.pi) (by rw [demo_fault_state_eq]) rfl).1,
   ((C3_tick_in_fault (demo_platform Real.cos Real.pi) input_nominal
      (demo_fault_state Real.cos Real.pi) (by rw [demo_fault_state_eq]) rfl).2.2
      (demo_fault_state_safe Real.cos Real.pi input_nominal rfl
        (by norm_num [input_nominal]) (by norm_num [input_nominal]))).2.2⟩

/-- C4: the Fault state is absorbing under the callback, and every invocation
either leaves `motor.state` unchanged or sets it to `MOTOR_STATE_FAULT`. -/
theorem C4_fault_absorbing (env : platform_t α) (inp : tick_input α) (s : system_t α) :
    (s.motor.state = MOTOR_STATE_FAULT →
      (HAL_TIM_PeriodElapsedCallback env inp s).motor.state = MOTOR_STATE_FAULT) ∧
    ((HAL_TIM_PeriodElapsedCallback env inp s).motor.state = s.motor.state ∨
      (HAL_TIM_PeriodElapsedCallback env inp s).motor.state = MOTOR_STATE_FAULT) := by
  have hgen : (HAL_TIM_PeriodElapsedCallback env inp s).motor.state = s.motor.state ∨
      (HAL_TIM_PeriodElapsedCallback env inp s).motor.state = MOTOR_STATE_FAULT := by
    cases hctl : inp.is_control_timer with
    | false => rw [tick_other_timer env inp s hctl]; exact Or.inl rfl
    | true =>
      cases hchk : (check_safety_limits env.MAX_MOTOR_TEMPERATURE inp.motor_temperature
          (acquire_feedback inp s).motor).1 with
      | false => rw [tick_on_violation env inp s hctl hchk]; exact Or.inr rfl
      | true =>
        rw [tick_safe env inp s hctl hchk]
        left
        show (execute_cascaded_control _ _ _ _).1.state = _
        rw [execute_cascaded_control_state, check_safety_limits_state, acquire_feedback_state]
  refine ⟨fun hfault => ?_, hgen⟩
  rcases hgen with h | h
  · rw [h, hfault]
  · exact h

/-- C4 at a concrete input: the Fault state after an overcurrent tick stays
Fault under a tick with readings within all limits. -/
theorem C4_fault_absorbing_witness :
    (HAL_TIM_PeriodElapsedCallback (demo_platform Real.cos Real.pi) input_nominal
      (demo_fault_state Real.cos Real.pi)).motor.state = MOTOR_STATE_FAULT :=
  (C4_fault_absorbing (demo_platform Real.cos Real.pi) input_nominal
    (demo_fault_state Real.cos Real.pi)).1 (by rw [demo_fault_state_eq])

/-! ## PID controller -/

/-- The integral accumulator and the clamp bounds after `pid_compute`, written
out: the accumulator is the clamped sum, the bounds are untouched. -/
theorem pid_compute_integral (pid : pid_controller_t α) (error : α) (lt ct : Nat) :
    (pid_compute pid error lt ct).pid.integral =
      (if pid.integral + error * pid_dt lt ct > pid.integral_max then pid.integral_max
       else if pid.integral + error * pid_dt lt ct < pid.integral_min then pid.integral_min
       else pid.integral + error * pid_dt lt ct) ∧
    (pid_compute pid error lt ct).pid.integral_min = pid.integral_min ∧
    (pid_compute pid error lt ct).pid.integral_max = pid.integral_max := by
  unfold pid_compute
  simp only []
  split_ifs <;> exact ⟨rfl, rfl, rfl⟩

/-- One `pid_compute` call leaves the accumulator inside the clamp bounds. -/
theorem pid_compute_integral_mem (pid : pid_controller_t α)
    (hb : pid.integral_min ≤ pid.integral_max) (error : α) (lt ct : Nat) :
    pid.integral_min ≤ (pid_compute pid error lt ct).pid.integral ∧
    (pid_compute pid error lt ct).pid.integral ≤ pid.integral_max := by
  rw [(pid_compute_integral pid error lt ct).1]
  split_ifs with h1 h2
  · exact ⟨hb, le_refl _⟩
  · exact ⟨le_refl _, hb⟩
  · exact ⟨not_lt.mp h2, not_lt.mp h1⟩

/-- After a non-empty sequence of calls the clamp bounds are the initial ones
and the accumulator lies between them. -/
theorem pid_run_integral_mem (pid : pid_controller_t α)
    (hb : pid.integral_min ≤ pid.integral_max) (lt : Nat) (call : α × Nat)
    (calls : List (α × Nat)) :
    (pid_run pid lt (call :: calls)).1.integral_min = pid.integral_min ∧
    (pid_run pid lt (call :: calls)).1.integral_max = pid.integral_max ∧
    pid.integral_min ≤ (pid_run pid lt (call :: calls)).1.integral ∧
    (pid_run pid lt (call :: calls)).1.integral ≤ pid.integral_max := by
  induction calls generalizing pid lt call with
  | nil =>
    obtain ⟨error, ct⟩ := call
    have hf := pid_compute_integral pid error lt ct
    have hm := pid_compute_integral_mem pid hb error lt ct
    exact ⟨hf.2.1, hf.2.2, hm.1, hm.2⟩
  | cons next rest ih =>
    obtain ⟨error, ct⟩ := call
    have hf := pid_compute_integral pid error lt ct
    have hb2 : (pid_compute pid error lt ct).pid.integral_min ≤
        (pid_compute pid error lt ct).pid.integral_max := by
      rw [hf.2.1, hf.2.2]; exact hb
    have h := ih (pid_compute pid error lt ct).pid hb2 (pid_compute pid error lt ct).last_time next
    rw [hf.2.1, hf.2.2] at h
    exact h

/-- C5: for every PID state with `integral_min ≤ integral_max`, after
`pid_compute` (any error, any tick times) the accumulator satisfies
`integral_min ≤ integral ≤ integral_max`; the same holds after every non-empty
sequence of calls. -/
theorem C5_pid_integral_clamped (pid : pid_controller_t α)
    (hb : pid.integral_min ≤ pid.integral_max) :
    (∀ (error : α) (last_time current_time : Nat),
      pid.integral_min ≤ (pid_compute pid error last_time current_time).pid.integral ∧
      (pid_compute pid error last_time current_time).pid.integral ≤ pid.integral_max) ∧
    (∀ (last_time : Nat) (call : α × Nat) (calls : List (α × Nat)),
      pid.integral_min ≤ (pid_run pid last_time (call :: calls)).1.integral ∧
      (pid_run pid last_time (call :: calls)).1.integral ≤ pid.integral_max) :=
  ⟨fun error lt ct => pid_compute_integral_mem pid hb error lt ct,
   fun lt call calls => (pid_run_integral_mem pid hb lt call calls).2.2⟩

/-- C5 at a concrete input: gains `(2, 20, 0)`, bounds `[-10, 10]`, error 1000000
at tick time 7 after tick time 2. -/
theorem C5_pid_integral_clamped_witness :
    (-10 : ℚ) ≤ (pid_compute (⟨2, 20, 0, 0, -10, 10, 0, 0⟩ : pid_controller_t ℚ)
      1000000 2 7).pid.integral ∧
    (pid_compute (⟨2, 20, 0, 0, -10, 10, 0, 0⟩ : pid_controller_t ℚ)
      1000000 2 7).pid.integral ≤ (10 : ℚ) :=
  (C5_pid_integral_clamped (⟨2, 20, 0, 0, -10, 10, 0, 0⟩ : pid_controller_t ℚ)
    (by norm_num)).1 1000000 2 7

/-! ## Space vector modulation -/

/-- The clamp loop leaves every duty in `[0, 1]`. -/
theorem clamp_duty_mem (d : α) : 0 ≤ clamp_duty d ∧ clamp_duty d ≤ 1 := by
  unfold clamp_duty
  simp only []
  split_ifs with h1 h2 h3
  · exact ⟨zero_le_one, le_refl _⟩
  · exact ⟨le_refl _, zero_le_one⟩
  · exact ⟨zero_le_one, le_refl _⟩
  · exact ⟨not_lt.mp h1, not_lt.mp h3⟩

/-- The clamp loop does not change a duty that is already in `[0, 1]`. -/
theorem clamp_duty_of_mem (d : α) (h0 : 0 ≤ d) (h1 : d ≤ 1) : clamp_duty d = d := by
  unfold clamp_duty
  simp only []
  rw [if_neg (not_lt.mpr h0), if_neg (not_lt.mpr h1)]

/-- C6: for every voltage magnitude and every angle (and whatever the cosine
returns), each of the three duties written by `space_vector_modulation` lies
in the closed interval `[0, 1]`. -/
theorem C6_svm_duties_in_unit_interval (cosf : α → α) (M_PI voltage_magnitude angle : α) :
    (0 ≤ (space_vector_modulation cosf M_PI voltage_magnitude angle).1 ∧
      (space_vector_modulation cosf M_PI voltage_magnitude angle).1 ≤ 1) ∧
    (0 ≤ (space_vector_modulation cosf M_PI voltage_magnitude angle).2.1 ∧
      (space_vector_modulation cosf M_PI voltage_magnitude angle).2.1 ≤ 1) ∧
    (0 ≤ (space_vector_modulation cosf M_PI voltage_magnitude angle).2.2 ∧
      (space_vector_modulation cosf M_PI voltage_magnitude angle).2.2 ≤ 1) :=
  ⟨clamp_duty_mem _, clamp_duty_mem _, clamp_duty_mem _⟩

/-! ### Centring: algebra over an ordered field -/

/-- If the three phase voltages differ pairwise by at most 2, the centred
duties `(v - vcom + 1) / 2` all lie in `[0, 1]`. -/
theorem svm_centred_mem (a b c : α) (hab : |a - b| ≤ 2) (hac : |a - c| ≤ 2)
    (hbc : |b - c| ≤ 2) :
    (0 ≤ (a - svm_vcom a b c + 1) / 2 ∧ (a - svm_vcom a b c + 1) / 2 ≤ 1) ∧
    (0 ≤ (b - svm_vcom a b c + 1) / 2 ∧ (b - svm_vcom a b c + 1) / 2 ≤ 1) ∧
    (0 ≤ (c - svm_vcom a b c + 1) / 2 ∧ (c - svm_vcom a b c + 1) / 2 ≤ 1) := by
  obtain ⟨hab1, hab2⟩ := abs_le.mp hab
  obtain ⟨hac1, hac2⟩ := abs_le.mp hac
  obtain ⟨hbc1, hbc2⟩ := abs_le.mp hbc
  have hma : min (min a b) c ≤ a := le_trans (min_le_left _ _) (min_le_left _ _)
  have hmb : min (min a b) c ≤ b := le_trans (min_le_left _ _) (min_le_right _ _)
  have hmc : min (min a b) c ≤ c := min_le_right _ _
  have haM : a ≤ max (max a b) c := le_trans (le_max_left _ _) (le_max_left _ _)
  have hbM : b ≤ max (max a b) c := le_trans (le_max_right _ _) (le_max_left _ _)
  have hcM : c ≤ max (max a b) c := le_max_right _ _
  have hMa : max (max a b) c ≤ a + 2 :=
    max_le (max_le (by linarith) (by linarith)) (by linarith)
  have hMb : max (max a b) c ≤ b + 2 :=
    max_le (max_le (by linarith) (by linarith)) (by linarith)
  have hMc : max (max a b) c ≤ c + 2 :=
    max_le (max_le (by linarith) (by linarith)) (by linarith)
  have ham : a - 2 ≤ min (min a b) c :=
    le_min (le_min (by linarith) (by linarith)) (by linarith)
  have hbm : b - 2 ≤ min (min a b) c :=
    le_min (le_min (by linarith) (by linarith)) (by linarith)
  have hcm : c - 2 ≤ min (min a b) c :=
    le_min (le_min (by linarith) (by linarith)) (by linarith)
  unfold svm_vcom
  simp only []
  refine ⟨⟨?_, ?_⟩, ⟨?_, ?_⟩, ⟨?_, ?_⟩⟩
  all_goals first
    | (apply div_nonneg _ zero_le_two; linarith)
    | (rw [div_le_one (zero_lt_two : (0 : α) < 2)]; linarith)

/-! ### The three phase references over the reals -/

theorem cos_two_pi_div_three : Real.cos (2 * Real.pi / 3) = -1 / 2 := by
  have h : 2 * Real.pi / 3 = Real.pi - Real.pi / 3 := by ring
  rw [h, Real.cos_pi_sub, Real.cos_pi_div_three]
  norm_num

theorem sin_two_pi_div_three : Real.sin (2 * Real.pi / 3) = Real.sqrt 3 / 2 := by
  have h : 2 * Real.pi / 3 = Real.pi - Real.pi / 3 := by ring
  rw [h, Real.sin_pi_sub, Real.sin_pi_div_three]

/-- The squared difference of two of the three cosines 120 degrees apart is
`3 - 3 * (the third cosine)^2`. -/
theorem phase_cos_sq_diff (θ : ℝ) :
    (Real.cos θ - Real.cos (θ - 2 * Real.pi / 3)) ^ 2 =
      3 - 3 * Real.cos (θ + 2 * Real.pi / 3) ^ 2 ∧
    (Real.cos θ - Real.cos (θ + 2 * Real.pi / 3)) ^ 2 =
      3 - 3 * Real.cos (θ - 2 * Real.pi / 3) ^ 2 ∧
    (Real.cos (θ - 2 * Real.pi / 3) - Real.cos (θ + 2 * Real.pi / 3)) ^ 2 =
      3 - 3 * Real.cos θ ^ 2 := by
  have hcs : Real.cos θ ^ 2 + Real.sin θ ^ 2 = 1 := Real.cos_sq_add_sin_sq θ
  have ht : Real.sqrt 3 ^ 2 = 3 := Real.sq_sqrt (by norm_num)
  rw [Real.cos_sub, Real.cos_add, cos_two_pi_div_three, sin_two_pi_div_three]
  refine ⟨?_, ?_, ?_⟩
  · linear_combination 3 * hcs + Real.sin θ ^ 2 * ht
  · linear_combination 3 * hcs + Real.sin θ ^ 2 * ht
  · linear_combination 3 * hcs + Real.sin θ ^ 2 * ht

/-- The squared difference of two phase voltages is `3 V^2 - 3 (third phase)^2`. -/
theorem svm_phases_sq_diff (V θ : ℝ) :
    ((svm_phases Real.cos Real.pi V θ).1 - (svm_phases Real.cos Real.pi V θ).2.1) ^ 2 =
      3 * V ^ 2 - 3 * (svm_phases Real.cos Real.pi V θ).2.2 ^ 2 ∧
    ((svm_phases Real.cos Real.pi V θ).1 - (svm_phases Real.cos Real.pi V θ).2.2) ^ 2 =
      3 * V ^ 2 - 3 * (svm_phases Real.cos Real.pi V θ).2.1 ^ 2 ∧
    ((svm_phases Real.cos Real.pi V θ).2.1 - (svm_phases Real.cos Real.pi V θ).2.2) ^ 2 =
      3 * V ^ 2 - 3 * (svm_phases Real.cos Real.pi V θ).1 ^ 2 := by
  obtain ⟨h1, h2, h3⟩ := phase_cos_sq_diff θ
  simp only [svm_phases]
  refine ⟨?_, ?_, ?_⟩
  · linear_combination V ^ 2 * h1
  · linear_combination V ^ 2 * h2
  · linear_combination V ^ 2 * h3

theorem sq_two_div_sqrt_three : (2 / Real.sqrt 3) ^ 2 = (4 / 3 : ℝ) := by
  rw [div_pow, Real.sq_sqrt (by norm_num)]
  norm_num

theorem one_lt_two_div_sqrt_three : (1 : ℝ) < 2 / Real.sqrt 3 := by
  have h3 : (0 : ℝ) < Real.sqrt 3 := Real.sqrt_pos.mpr (by norm_num)
  rw [lt_div_iff₀ h3, one_mul]
  have h : Real.sqrt 3 < Real.sqrt 4 := Real.sqrt_lt_sqrt (by norm_num) (by norm_num)
  have h4 : Real.sqrt 4 = 2 := by
    rw [show (4 : ℝ) = 2 ^ 2 by norm_num]
    exact Real.sqrt_sq (by norm_num)
  linarith

/-- Up to the magnitude `2 / sqrt 3` the phase voltages differ pairwise by at
most 2. -/
theorem svm_phases_diff_le (V θ : ℝ) (hV : |V| ≤ 2 / Real.sqrt 3) :
    |(svm_phases Real.cos Real.pi V θ).1 - (svm_phases Real.cos Real.pi V θ).2.1| ≤ 2 ∧
    |(svm_phases Real.cos Real.pi V θ).1 - (svm_phases Real.cos Real.pi V θ).2.2| ≤ 2 ∧
    |(svm_phases Real.cos Real.pi V θ).2.1 - (svm_phases Real.cos Real.pi V θ).2.2| ≤ 2 := by
  have hV2 : V ^ 2 ≤ 4 / 3 := by
    rw [← sq_abs, ← sq_two_div_sqrt_three]
    exact pow_le_pow_left₀ (abs_nonneg V) hV 2
  obtain ⟨h1, h2, h3⟩ := svm_phases_sq_diff V θ
  refine ⟨?_, ?_, ?_⟩
  · apply abs_le_of_sq_le_sq _ zero_le_two
    nlinarith [sq_nonneg (svm_phases Real.cos Real.pi V θ).2.2]
  · apply abs_le_of_sq_le_sq _ zero_le_two
    nlinarith [sq_nonneg (svm_phases Real.cos Real.pi V θ).2.1]
  · apply abs_le_of_sq_le_sq _ zero_le_two
    nlinarith [sq_nonneg (svm_phases Real.cos Real.pi V θ).1]

/-- The spread `max - min` of three values is the difference of two of them. -/
theorem svm_range_sq_cases (a b c : α) :
    (max (max a b) c - min (min a b) c) ^ 2 = (a - b) ^ 2 ∨
    (max (max a b) c - min (min a b) c) ^ 2 = (a - c) ^ 2 ∨
    (max (max a b) c - min (min a b) c) ^ 2 = (b - c) ^ 2 ∨
    max (max a b) c - min (min a b) c = 0 := by
  rcases max_choice (max a b) c with h1 | h1 <;> rcases max_choice a b with h2 | h2 <;>
  rcases min_choice (min a b) c with h3 | h3 <;> rcases min_choice a b with h4 | h4 <;>
  rw [h1, h3] <;> (try rw [h2]) <;> (try rw [h4]) <;>
  first
    | (left; ring1)
    | (right; left; ring1)
    | (right; right; left; ring1)
    | (right; right; right; ring1)

/-- The largest of three values is one of them. -/
theorem svm_max_cases (a b c : α) :
    max (max a b) c = a ∨ max (max a b) c = b ∨ max (max a b) c = c := by
  rcases max_choice (max a b) c with h1 | h1 <;> rcases max_choice a b with h2 | h2 <;>
  rw [h1] <;> (try rw [h2]) <;> simp only [true_or, or_true]

/-- Up to the magnitude `2 / sqrt 3` the clamp loop changes no duty. -/
theorem svm_unclipped (V θ : ℝ) (hV : |V| ≤ 2 / Real.sqrt 3) :
    space_vector_modulation Real.cos Real.pi V θ = svm_unclamped Real.cos Real.pi V θ := by
  obtain ⟨h1, h2, h3⟩ := svm_phases_diff_le V θ hV
  obtain ⟨ha, hb, hc⟩ := svm_centred_mem _ _ _ h1 h2 h3
  unfold space_vector_modulation
  simp only []
  unfold svm_unclamped
  simp only []
  rw [clamp_duty_of_mem _ ha.1 ha.2, clamp_duty_of_mem _ hb.1 hb.2,
    clamp_duty_of_mem _ hc.1 hc.2]

/-- C7: for every angle and every voltage magnitude with
`|voltage_magnitude| ≤ 2 / sqrt 3`, no duty of `space_vector_modulation` is
clipped: the output is the triple of unclamped values
`(phase_voltage - vcom + 1) / 2` with
`vcom = (min (va, vb, vc) + max (va, vb, vc)) / 2`.  The bound `2 / sqrt 3` is
strictly larger than 1, and 1 is the bound up to which the duties
`(phase_voltage + 1) / 2` without the `vcom` subtraction are unclipped at every
angle. -/
theorem C7_centring_extends_unclipped_range (voltage_magnitude angle : ℝ)
    (hV : |voltage_magnitude| ≤ 2 / Real.sqrt 3) :
    space_vector_modulation Real.cos Real.pi voltage_magnitude angle =
      ((voltage_magnitude * Real.cos angle -
          svm_vcom (voltage_magnitude * Real.cos angle)
            (voltage_magnitude * Real.cos (angle - 2 * Real.pi / 3))
            (voltage_magnitude * Real.cos (angle + 2 * Real.pi / 3)) + 1) / 2,
       (voltage_magnitude * Real.cos (angle - 2 * Real.pi / 3) -
          svm_vcom (voltage_magnitude * Real.cos angle)
            (voltage_magnitude * Real.cos (angle - 2 * Real.pi / 3))
            (voltage_magnitude * Real.cos (angle + 2 * Real.pi / 3)) + 1) / 2,
       (voltage_magnitude * Real.cos (angle + 2 * Real.pi / 3) -
          svm_vcom (voltage_magnitude * Real.cos angle)
            (voltage_magnitude * Real.cos (angle - 2 * Real.pi / 3))
            (voltage_magnitude * Real.cos (angle + 2 * Real.pi / 3)) + 1) / 2) ∧
    (1 : ℝ) < 2 / Real.sqrt 3 ∧
    (∀ V θ : ℝ, |V| ≤ 1 →
      (0 ≤ ((svm_phases Real.cos Real.pi V θ).1 + 1) / 2 ∧
        ((svm_phases Real.cos Real.pi V θ).1 + 1) / 2 ≤ 1) ∧
      (0 ≤ ((svm_phases Real.cos Real.pi V θ).2.1 + 1) / 2 ∧
        ((svm_phases Real.cos Real.pi V θ).2.1 + 1) / 2 ≤ 1) ∧
      (0 ≤ ((svm_phases Real.cos Real.pi V θ).2.2 + 1) / 2 ∧
        ((svm_phases Real.cos Real.pi V θ).2.2 + 1) / 2 ≤ 1)) ∧
    (∀ V : ℝ, 1 < |V| →
      ¬ (0 ≤ ((svm_phases Real.cos Real.pi V 0).1 + 1) / 2 ∧
        ((svm_phases Real.cos Real.pi V 0).1 + 1) / 2 ≤ 1)) := by
  refine ⟨?_, one_lt_two_div_sqrt_three, ?_, ?_⟩
  · exact svm_unclipped voltage_magnitude angle hV
  · intro V θ hV1
    have hbound : ∀ x : ℝ, 0 ≤ (V * Real.cos x + 1) / 2 ∧ (V * Real.cos x + 1) / 2 ≤ 1 := by
      intro x
      have hprod : |V * Real.cos x| ≤ 1 := by
        rw [abs_mul]
        calc |V| * |Real.cos x| ≤ 1 * 1 :=
              mul_le_mul hV1 (Real.abs_cos_le_one x) (abs_nonneg _) zero_le_one
          _ = 1 := one_mul 1
      obtain ⟨hlo, hhi⟩ := abs_le.mp hprod
      constructor
      · apply div_nonneg _ zero_le_two; linarith
      · rw [div_le_one (zero_lt_two : (0 : ℝ) < 2)]; linarith
    exact ⟨hbound _, hbound _, hbound _⟩
  · intro V hV1 hmem
    simp only [svm_phases, Real.cos_zero, mul_one] at hmem
    obtain ⟨hlo, hhi⟩ := hmem
    rw [div_le_one (zero_lt_two : (0 : ℝ) < 2)] at hhi
    have hlo2 : 0 ≤ V + 1 := by
      have := mul_nonneg hlo (zero_le_two : (0 : ℝ) ≤ 2)
      linarith [div_mul_cancel₀ (V + 1) (two_ne_zero : (2 : ℝ) ≠ 0)]
    have : |V| ≤ 1 := abs_le.mpr ⟨by linarith, by linarith⟩
    linarith

/-- C7 at a concrete input: the boundary magnitude `2 / sqrt 3` at angle 0. -/
theorem C7_centring_extends_unclipped_range_witness :
    |2 / Real.sqrt 3| ≤ 2 / Real.sqrt 3 ∧
    space_vector_modulation Real.cos Real.pi (2 / Real.sqrt 3) 0 =
      svm_unclamped Real.cos Real.pi (2 / Real.sqrt 3) 0 :=
  ⟨le_of_eq (abs_of_pos (lt_trans zero_lt_one one_lt_two_div_sqrt_three)),
   (C7_centring_extends_unclipped_range (2 / Real.sqrt 3) 0
      (le_of_eq (abs_of_pos (lt_trans zero_lt_one one_lt_two_div_sqrt_three)))).1⟩

/-! ### The full modulation-depth boundary -/

/-- When the spread of the phase voltages is at most 2, one of the centred
duties is exactly 0 or exactly 1 if and only if the spread is exactly 2. -/
theorem svm_centred_extreme_iff (a b c : α)
    (hD : max (max a b) c - min (min a b) c ≤ 2) :
    ((((a - svm_vcom a b c + 1) / 2 = 0 ∨ (a - svm_vcom a b c + 1) / 2 = 1) ∨
      ((b - svm_vcom a b c + 1) / 2 = 0 ∨ (b - svm_vcom a b c + 1) / 2 = 1) ∨
      ((c - svm_vcom a b c + 1) / 2 = 0 ∨ (c - svm_vcom a b c + 1) / 2 = 1)) ↔
      max (max a b) c - min (min a b) c = 2) := by
  have hma : min (min a b) c ≤ a := le_trans (min_le_left _ _) (min_le_left _ _)
  have hmb : min (min a b) c ≤ b := le_trans (min_le_left _ _) (min_le_right _ _)
  have hmc : min (min a b) c ≤ c := min_le_right _ _
  have haM : a ≤ max (max a b) c := le_trans (le_max_left _ _) (le_max_left _ _)
  have hbM : b ≤ max (max a b) c := le_trans (le_max_right _ _) (le_max_left _ _)
  have hcM : c ≤ max (max a b) c := le_max_right _ _
  have h2 : (2 : α) ≠ 0 := two_ne_zero
  unfold svm_vcom
  simp only []
  constructor
  · intro h
    apply le_antisymm hD
    rcases h with (h | h) | (h | h) | (h | h) <;> field_simp at h <;> linarith
  · intro h
    rcases svm_max_cases a b c with hM | hM | hM
    · left; right
      rw [hM] at h
      rw [hM]
      field_simp
      linarith
    · right; left; right
      rw [hM] at h
      rw [hM]
      field_simp
      linarith
    · right; right; right
      rw [hM] at h
      rw [hM]
      field_simp
      linarith

/-- A non-negative spread `D` with `D^2 = 4 - 4 t^2` is at most 2, and is 2
exactly when `t = 0`. -/
theorem spread_sq_aux (D t : ℝ) (hD0 : 0 ≤ D) (h : D ^ 2 = 4 - 4 * t ^ 2) :
    D ≤ 2 ∧ (D = 2 ↔ t = 0) := by
  have hle : D ≤ 2 := by
    by_contra hcon
    push_neg at hcon
    nlinarith [sq_nonneg t]
  refine ⟨hle, fun hD => ?_, fun ht => ?_⟩
  · have ht2 : t ^ 2 = 0 := by rw [hD] at h; linarith
    exact (pow_eq_zero_iff two_ne_zero).mp ht2
  · rw [ht] at h
    have hD2 : D ^ 2 = 2 ^ 2 := by rw [h]; norm_num
    have := abs_eq_abs.mpr (Or.inl rfl : (2 : ℝ) = 2 ∨ (2 : ℝ) = -2)
    nlinarith

/-- A spread `D ≤ 2` that dominates a difference `x` with `x^2 = 4` is 2. -/
theorem spread_eq_two_aux (D x : ℝ) (h1 : x ≤ D) (h2 : -x ≤ D) (hx : x ^ 2 = 4)
    (hle : D ≤ 2) : D = 2 := by
  have hfac : (x - 2) * (x + 2) = 0 := by linear_combination hx
  rcases mul_eq_zero.mp hfac with h | h
  · linarith
  · linarith

/-- At the magnitude `2 / sqrt 3` the spread of the phase voltages is at most 2,
and it is 2 exactly when one of the three cosines vanishes. -/
theorem svm_boundary_spread (V θ : ℝ) (hV : |V| = 2 / Real.sqrt 3) :
    max (max (svm_phases Real.cos Real.pi V θ).1 (svm_phases Real.cos Real.pi V θ).2.1)
        (svm_phases Real.cos Real.pi V θ).2.2 -
      min (min (svm_phases Real.cos Real.pi V θ).1 (svm_phases Real.cos Real.pi V θ).2.1)
        (svm_phases Real.cos Real.pi V θ).2.2 ≤ 2 ∧
    (max (max (svm_phases Real.cos Real.pi V θ).1 (svm_phases Real.cos Real.pi V θ).2.1)
        (svm_phases Real.cos Real.pi V θ).2.2 -
      min (min (svm_phases Real.cos Real.pi V θ).1 (svm_phases Real.cos Real.pi V θ).2.1)
        (svm_phases Real.cos Real.pi V θ).2.2 = 2 ↔
      (Real.cos θ = 0 ∨ Real.cos (θ - 2 * Real.pi / 3) = 0 ∨
        Real.cos (θ + 2 * Real.pi / 3) = 0)) := by
  have hV2 : V ^ 2 = 4 / 3 := by rw [← sq_abs, hV, sq_two_div_sqrt_three]
  obtain ⟨e1, e2, e3⟩ := svm_phases_sq_diff V θ
  have hp : (svm_phases Real.cos Real.pi V θ).1 ^ 2 = 4 / 3 * Real.cos θ ^ 2 := by
    simp only [svm_phases]; rw [mul_pow, hV2]
  have hq : (svm_phases Real.cos Real.pi V θ).2.1 ^ 2 =
      4 / 3 * Real.cos (θ - 2 * Real.pi / 3) ^ 2 := by
    simp only [svm_phases]; rw [mul_pow, hV2]
  have hr : (svm_phases Real.cos Real.pi V θ).2.2 ^ 2 =
      4 / 3 * Real.cos (θ + 2 * Real.pi / 3) ^ 2 := by
    simp only [svm_phases]; rw [mul_pow, hV2]
  rw [hV2, hr] at e1
  rw [hV2, hq] at e2
  rw [hV2, hp] at e3
  generalize (svm_phases Real.cos Real.pi V θ).1 = a at *
  generalize (svm_phases Real.cos Real.pi V θ).2.1 = b at *
  generalize (svm_phases Real.cos Real.pi V θ).2.2 = c at *
  generalize Real.cos θ = p at *
  generalize Real.cos (θ - 2 * Real.pi / 3) = q at *
  generalize Real.cos (θ + 2 * Real.pi / 3) = r at *
  have hma : min (min a b) c ≤ a := le_trans (min_le_left _ _) (min_le_left _ _)
  have hmb : min (min a b) c ≤ b := le_trans (min_le_left _ _) (min_le_right _ _)
  have hmc : min (min a b) c ≤ c := min_le_right _ _
  have haM : a ≤ max (max a b) c := le_trans (le_max_left _ _) (le_max_left _ _)
  have hbM : b ≤ max (max a b) c := le_trans (le_max_right _ _) (le_max_left _ _)
  have hcM : c ≤ max (max a b) c := le_max_right _ _
  have hD0 : 0 ≤ max (max a b) c - min (min a b) c := by linarith
  have hab1 : a - b ≤ max (max a b) c - min (min a b) c := by linarith
  have hab2 : -(a - b) ≤ max (max a b) c - min (min a b) c := by linarith
  have hac1 : a - c ≤ max (max a b) c - min (min a b) c := by linarith
  have hac2 : -(a - c) ≤ max (max a b) c - min (min a b) c := by linarith
  have hbc1 : b - c ≤ max (max a b) c - min (min a b) c := by linarith
  have hbc2 : -(b - c) ≤ max (max a b) c - min (min a b) c := by linarith
  have hcases := svm_range_sq_cases a b c
  clear hma hmb hmc haM hbM hcM
  generalize max (max a b) c - min (min a b) c = D at *
  have hDle : D ≤ 2 := by
    rcases hcases with h | h | h | h
    · exact (spread_sq_aux D r hD0 (by rw [h, e1]; ring)).1
    · exact (spread_sq_aux D q hD0 (by rw [h, e2]; ring)).1
    · exact (spread_sq_aux D p hD0 (by rw [h, e3]; ring)).1
    · rw [h]; norm_num
  refine ⟨hDle, fun hD2 => ?_, fun hzero => ?_⟩
  · rcases hcases with h | h | h | h
    · exact Or.inr (Or.inr ((spread_sq_aux D r hD0 (by rw [h, e1]; ring)).2.mp hD2))
    · exact Or.inr (Or.inl ((spread_sq_aux D q hD0 (by rw [h, e2]; ring)).2.mp hD2))
    · exact Or.inl ((spread_sq_aux D p hD0 (by rw [h, e3]; ring)).2.mp hD2)
    · rw [h] at hD2; norm_num at hD2
  · rcases hzero with h | h | h
    · exact spread_eq_two_aux D (b - c) hbc1 hbc2 (by rw [e3, h]; norm_num) hDle
    · exact spread_eq_two_aux D (a - c) hac1 hac2 (by rw [e2, h]; norm_num) hDle
    · exact spread_eq_two_aux D (a - b) hab1 hab2 (by rw [e1, h]; norm_num) hDle

/-- The product of the three cosines 120 degrees apart is `cos (3 θ) / 4`. -/
theorem phase_cos_prod (θ : ℝ) :
    Real.cos θ * Real.cos (θ - 2 * Real.pi / 3) * Real.cos (θ + 2 * Real.pi / 3) =
      Real.cos (3 * θ) / 4 := by
  have hcs : Real.cos θ ^ 2 + Real.sin θ ^ 2 = 1 := Real.cos_sq_add_sin_sq θ
  have ht : Real.sqrt 3 ^ 2 = 3 := Real.sq_sqrt (by norm_num)
  rw [Real.cos_sub, Real.cos_add, cos_two_pi_div_three, sin_two_pi_div_three,
    Real.cos_three_mul]
  linear_combination (-3 * Real.cos θ / 4) * hcs + (-Real.cos θ * Real.sin θ ^ 2 / 4) * ht

/-- One of the three phase references vanishes exactly at the angles
`pi / 6 + k * (pi / 3)`. -/
theorem phase_zero_iff (θ : ℝ) :
    (Real.cos θ = 0 ∨ Real.cos (θ - 2 * Real.pi / 3) = 0 ∨
        Real.cos (θ + 2 * Real.pi / 3) = 0) ↔
      ∃ k : ℤ, θ = Real.pi / 6 + k * (Real.pi / 3) := by
  have h3 : Real.cos (3 * θ) = 0 ↔
      (Real.cos θ = 0 ∨ Real.cos (θ - 2 * Real.pi / 3) = 0 ∨
        Real.cos (θ + 2 * Real.pi / 3) = 0) := by
    have hp := phase_cos_prod θ
    constructor
    · intro h
      rw [h, zero_div] at hp
      rcases mul_eq_zero.mp hp with h12 | hc
      · rcases mul_eq_zero.mp h12 with ha | hb
        · exact Or.inl ha
        · exact Or.inr (Or.inl hb)
      · exact Or.inr (Or.inr hc)
    · intro h
      have hz : Real.cos θ * Real.cos (θ - 2 * Real.pi / 3) *
          Real.cos (θ + 2 * Real.pi / 3) = 0 := by
        rcases h with h | h | h <;> rw [h] <;> ring
      rw [hz] at hp
      linarith
  rw [← h3, Real.cos_eq_zero_iff]
  constructor
  · rintro ⟨k, hk⟩
    exact ⟨k, by linear_combination hk / 3⟩
  · rintro ⟨k, hk⟩
    exact ⟨k, by linear_combination 3 * hk⟩

/-- At the magnitude `2 / sqrt 3` an output duty is exactly 0 or exactly 1 if and
only if one of the three cosines vanishes. -/
theorem svm_boundary_extreme_iff (V θ : ℝ) (hV : |V| = 2 / Real.sqrt 3) :
    ((((space_vector_modulation Real.cos Real.pi V θ).1 = 0 ∨
        (space_vector_modulation Real.cos Real.pi V θ).1 = 1) ∨
      ((space_vector_modulation Real.cos Real.pi V θ).2.1 = 0 ∨
        (space_vector_modulation Real.cos Real.pi V θ).2.1 = 1) ∨
      ((space_vector_modulation Real.cos Real.pi V θ).2.2 = 0 ∨
        (space_vector_modulation Real.cos Real.pi V θ).2.2 = 1)) ↔
      (Real.cos θ = 0 ∨ Real.cos (θ - 2 * Real.pi / 3) = 0 ∨
        Real.cos (θ + 2 * Real.pi / 3) = 0)) := by
  obtain ⟨hD, hiff⟩ := svm_boundary_spread V θ hV
  rw [svm_unclipped V θ (le_of_eq hV), ← hiff]
  exact svm_centred_extreme_iff _ _ _ hD

/-- C8 (as stated) fails: at the magnitude `2 / sqrt 3` and angle 0 the duties
are `((2 + sqrt 3) / 4, (2 - sqrt 3) / 4, (2 - sqrt 3) / 4)`; none of them
is 0 or 1. -/
theorem C8_boundary_angle_zero_no_extreme_duty :
    space_vector_modulation Real.cos Real.pi (2 / Real.sqrt 3) 0 =
      ((2 + Real.sqrt 3) / 4, (2 - Real.sqrt 3) / 4, (2 - Real.sqrt 3) / 4) ∧
    ¬ (((space_vector_modulation Real.cos Real.pi (2 / Real.sqrt 3) 0).1 = 0 ∨
        (space_vector_modulation Real.cos Real.pi (2 / Real.sqrt 3) 0).1 = 1) ∨
      ((space_vector_modulation Real.cos Real.pi (2 / Real.sqrt 3) 0).2.1 = 0 ∨
        (space_vector_modulation Real.cos Real.pi (2 / Real.sqrt 3) 0).2.1 = 1) ∨
      ((space_vector_modulation Real.cos Real.pi (2 / Real.sqrt 3) 0).2.2 = 0 ∨
        (space_vector_modulation Real.cos Real.pi (2 / Real.sqrt 3) 0).2.2 = 1)) := by
  have hpos : (0 : ℝ) < 2 / Real.sqrt 3 := lt_trans zero_lt_one one_lt_two_div_sqrt_three
  have habs : |2 / Real.sqrt 3| = 2 / Real.sqrt 3 := abs_of_pos hpos
  constructor
  · have h3 : (0 : ℝ) < Real.sqrt 3 := Real.sqrt_pos.mpr (by norm_num)
    have hsq : Real.sqrt 3 * Real.sqrt 3 = 3 := Real.mul_self_sqrt (by norm_num)
    rw [svm_unclipped _ _ (le_of_eq habs)]
    simp only [svm_unclamped, svm_phases, svm_vcom, Real.cos_zero, zero_sub, zero_add,
      Real.cos_neg, cos_two_pi_div_three]
    have hlt : 2 / Real.sqrt 3 * (-1 / 2) ≤ 2 / Real.sqrt 3 * 1 := by nlinarith
    rw [max_eq_left hlt, max_eq_left hlt, min_eq_right hlt, min_self]
    refine Prod.ext ?_ (Prod.ext ?_ ?_)
    · show (2 / Real.sqrt 3 * 1 - (2 / Real.sqrt 3 * (-1 / 2) + 2 / Real.sqrt 3 * 1) / 2 + 1) / 2
        = (2 + Real.sqrt 3) / 4
      field_simp
      nlinarith
    · show (2 / Real.sqrt 3 * (-1 / 2) -
          (2 / Real.sqrt 3 * (-1 / 2) + 2 / Real.sqrt 3 * 1) / 2 + 1) / 2
        = (2 - Real.sqrt 3) / 4
      field_simp
      nlinarith
    · show (2 / Real.sqrt 3 * (-1 / 2) -
          (2 / Real.sqrt 3 * (-1 / 2) + 2 / Real.sqrt 3 * 1) / 2 + 1) / 2
        = (2 - Real.sqrt 3) / 4
      field_simp
      nlinarith
  · rw [svm_boundary_extreme_iff _ _ habs]
    rw [zero_sub, zero_add, Real.cos_neg, Real.cos_zero, cos_two_pi_div_three]
    norm_num

/-- C8 (amended): at the full modulation-depth boundary
(`|voltage_magnitude| = 2 / sqrt 3`), for every angle, at least one of the three
output duties equals exactly 0 or exactly 1 if and only if one of the three
phase references is zero (`cos angle = 0`, `cos (angle - 2 pi / 3) = 0` or
`cos (angle + 2 pi / 3) = 0`), that is, if and only if
`angle = pi / 6 + k * (pi / 3)` for an integer `k`. -/
theorem C8_boundary_extreme_duty_iff (voltage_magnitude angle : ℝ)
    (hV : |voltage_magnitude| = 2 / Real.sqrt 3) :
    ((((space_vector_modulation Real.cos Real.pi voltage_magnitude angle).1 = 0 ∨
        (space_vector_modulation Real.cos Real.pi voltage_magnitude angle).1 = 1) ∨
      ((space_vector_modulation Real.cos Real.pi voltage_magnitude angle).2.1 = 0 ∨
        (space_vector_modulation Real.cos Real.pi voltage_magnitude angle).2.1 = 1) ∨
      ((space_vector_modulation Real.cos Real.pi voltage_magnitude angle).2.2 = 0 ∨
        (space_vector_modulation Real.cos Real.pi voltage_magnitude angle).2.2 = 1)) ↔
      (Real.cos angle = 0 ∨ Real.cos (angle - 2 * Real.pi / 3) = 0 ∨
        Real.cos (angle + 2 * Real.pi / 3) = 0)) ∧
    ((((space_vector_modulation Real.cos Real.pi voltage_magnitude angle).1 = 0 ∨
        (space_vector_modulation Real.cos Real.pi voltage_magnitude angle).1 = 1) ∨
      ((space_vector_modulation Real.cos Real.pi voltage_magnitude angle).2.1 = 0 ∨
        (space_vector_modulation Real.cos Real.pi voltage_magnitude angle).2.1 = 1) ∨
      ((space_vector_modulation Real.cos Real.pi voltage_magnitude angle).2.2 = 0 ∨
        (space_vector_modulation Real.cos Real.pi voltage_magnitude angle).2.2 = 1)) ↔
      ∃ k : ℤ, angle = Real.pi / 6 + k * (Real.pi / 3)) := by
  have h := svm_boundary_extreme_iff voltage_magnitude angle hV
  exact ⟨h, h.trans (phase_zero_iff angle)⟩

/-- C8 (amended) at a concrete input: magnitude `2 / sqrt 3` at angle `pi / 2`,
where the phase A reference is zero. -/
theorem C8_boundary_extreme_duty_iff_witness :
    ((space_vector_modulation Real.cos Real.pi (2 / Real.sqrt 3) (Real.pi / 2)).1 = 0 ∨
        (space_vector_modulation Real.cos Real.pi (2 / Real.sqrt 3) (Real.pi / 2)).1 = 1) ∨
      ((space_vector_modulation Real.cos Real.pi (2 / Real.sqrt 3) (Real.pi / 2)).2.1 = 0 ∨
        (space_vector_modulation Real.cos Real.pi (2 / Real.sqrt 3) (Real.pi / 2)).2.1 = 1) ∨
      ((space_vector_modulation Real.cos Real.pi (2 / Real.sqrt 3) (Real.pi / 2)).2.2 = 0 ∨
        (space_vector_modulation Real.cos Real.pi (2 / Real.sqrt 3) (Real.pi / 2)).2.2 = 1) :=
  (C8_boundary_extreme_duty_iff (2 / Real.sqrt 3) (Real.pi / 2)
    (abs_of_pos (lt_trans zero_lt_one one_lt_two_div_sqrt_three))).1.mpr
    (Or.inl Real.cos_pi_div_two)

/-! ## Safety monitor -/

/-- C9: `check_safety_limits` returns true if and only if none of the four
conditions holds at this call; the comparisons are strict, so values at their
limits are safe; and the returned value is the same for every content of the
stored fault flags. -/
theorem C9_check_safety_limits_result (MAX_MOTOR_TEMPERATURE temperature : α)
    (ctrl : motor_control_t α) :
    ((check_safety_limits MAX_MOTOR_TEMPERATURE temperature ctrl).1 = true ↔
      (¬ |ctrl.current| > ctrl.max_current ∧
       ¬ |ctrl.velocity| > ctrl.max_velocity ∧
       ¬ (ctrl.position < ctrl.position_limit_min ∨ ctrl.position > ctrl.position_limit_max) ∧
       ¬ temperature > MAX_MOTOR_TEMPERATURE)) ∧
    ((|ctrl.current| ≤ ctrl.max_current ∧ |ctrl.velocity| ≤ ctrl.max_velocity ∧
        ctrl.position_limit_min ≤ ctrl.position ∧ ctrl.position ≤ ctrl.position_limit_max ∧
        temperature ≤ MAX_MOTOR_TEMPERATURE) →
      (check_safety_limits MAX_MOTOR_TEMPERATURE temperature ctrl).1 = true) ∧
    (∀ flags : fault_flags_t,
      (check_safety_limits MAX_MOTOR_TEMPERATURE temperature { ctrl with faults := flags }).1 =
        (check_safety_limits MAX_MOTOR_TEMPERATURE temperature ctrl).1) := by
  refine ⟨?_, fun h => ?_, fun flags => ?_⟩
  · rw [check_safety_limits_closed]
    exact decide_eq_true_iff
  · rw [check_safety_limits_closed]
    obtain ⟨h1, h2, h3, h4, h5⟩ := h
    exact decide_eq_true ⟨not_lt.mpr h1, not_lt.mpr h2,
      fun hp => hp.elim (fun hlt => not_lt.mpr h3 hlt) (fun hgt => not_lt.mpr h4 hgt),
      not_lt.mpr h5⟩
  · rw [check_safety_limits_closed, check_safety_limits_closed]

/-- C9 at a concrete input: current, velocity, position and temperature exactly
at their limits pass the check. -/
theorem C9_check_safety_limits_result_witness :
    (check_safety_limits (100 : ℚ) 100 motor_at_limits).1 = true :=
  (C9_check_safety_limits_result (100 : ℚ) 100 motor_at_limits).2.1
    (by norm_num [motor_at_limits, system_zero])

/-- C10: after `check_safety_limits`, each of the four flags whose condition
holds at this call is true, whichever of the other conditions hold. -/
theorem C10_check_safety_limits_sets_every_flag (MAX_MOTOR_TEMPERATURE temperature : α)
    (ctrl : motor_control_t α) :
    (|ctrl.current| > ctrl.max_current →
      (check_safety_limits MAX_MOTOR_TEMPERATURE temperature ctrl).2.faults.overcurrent = true) ∧
    (|ctrl.velocity| > ctrl.max_velocity →
      (check_safety_limits MAX_MOTOR_TEMPERATURE temperature ctrl).2.faults.overspeed = true) ∧
    ((ctrl.position < ctrl.position_limit_min ∨ ctrl.position > ctrl.position_limit_max) →
      (check_safety_limits MAX_MOTOR_TEMPERATURE temperature ctrl).2.faults.position_limit
        = true) ∧
    (temperature > MAX_MOTOR_TEMPERATURE →
      (check_safety_limits MAX_MOTOR_TEMPERATURE temperature ctrl).2.faults.overtemperature
        = true) := by
  rw [check_safety_limits_closed]
  refine ⟨fun h => ?_, fun h => ?_, fun h => ?_, fun h => ?_⟩ <;> simp [h]

/-- C10 at a concrete input: all four conditions hold in the same call
(temperature 150 against the limit 100) and all four flags are set. -/
theorem C10_check_safety_limits_sets_every_flag_witness :
    (check_safety_limits (100 : ℚ) 150 motor_all_violated).2.faults.overcurrent = true ∧
    (check_safety_limits (100 : ℚ) 150 motor_all_violated).2.faults.overspeed = true ∧
    (check_safety_limits (100 : ℚ) 150 motor_all_violated).2.faults.position_limit = true ∧
    (check_safety_limits (100 : ℚ) 150 motor_all_violated).2.faults.overtemperature = true :=
  ⟨(C10_check_safety_limits_sets_every_flag (100 : ℚ) 150 motor_all_violated).1
      (by norm_num [motor_all_violated, system_zero]),
   (C10_check_safety_limits_sets_every_flag (100 : ℚ) 150 motor_all_violated).2.1
      (by norm_num [motor_all_violated, system_zero]),
   (C10_check_safety_limits_sets_every_flag (100 : ℚ) 150 motor_all_violated).2.2.1
      (by norm_num [motor_all_violated, system_zero]),
   (C10_check_safety_limits_sets_every_flag (100 : ℚ) 150 motor_all_violated).2.2.2
      (by norm_num)⟩

/-! ## Fault flags -/

theorem flags_kept_refl (f : fault_flags_t) : flags_kept f f :=
  ⟨id, id, id, id⟩

theorem flags_kept_trans {f g h : fault_flags_t} (hfg : flags_kept f g) (hgh : flags_kept g h) :
    flags_kept f h :=
  ⟨fun x => hgh.1 (hfg.1 x), fun x => hgh.2.1 (hfg.2.1 x),
   fun x => hgh.2.2.1 (hfg.2.2.1 x), fun x => hgh.2.2.2 (hfg.2.2.2 x)⟩

/-- The safety monitor only sets flags. -/
theorem check_safety_limits_flags_kept (M t : α) (c : motor_control_t α) :
    flags_kept c.faults (check_safety_limits M t c).2.faults := by
  rw [check_safety_limits_closed]
  refine ⟨fun h => ?_, fun h => ?_, fun h => ?_, fun h => ?_⟩ <;> simp [h]

theorem execute_cascaded_control_faults (env : platform_t α) (inp : tick_input α)
    (ctrl : motor_control_t α) (lt : Nat) :
    (execute_cascaded_control env inp ctrl lt).1.faults = ctrl.faults := by
  unfold execute_cascaded_control
  by_cases h : ctrl.state = MOTOR_STATE_POSITION_CONTROL <;> simp [h]

/-- The fault flags after an invocation of the callback are either the old ones
or the ones written by the safety monitor on the acquired feedback. -/
theorem tick_faults (env : platform_t α) (inp : tick_input α) (s : system_t α) :
    (HAL_TIM_PeriodElapsedCallback env inp s).motor.faults = s.motor.faults ∨
    (HAL_TIM_PeriodElapsedCallback env inp s).motor.faults =
      (check_safety_limits env.MAX_MOTOR_TEMPERATURE inp.motor_temperature
        (acquire_feedback inp s).motor).2.faults := by
  cases hctl : inp.is_control_timer with
  | false => rw [tick_other_timer env inp s hctl]; exact Or.inl rfl
  | true =>
    right
    cases hchk : (check_safety_limits env.MAX_MOTOR_TEMPERATURE inp.motor_temperature
        (acquire_feedback inp s).motor).1 with
    | false => rw [tick_on_violation env inp s hctl hchk]
    | true =>
      rw [tick_safe env inp s hctl hchk]
      exact execute_cascaded_control_faults _ _ _ _

theorem tick_flags_kept (env : platform_t α) (inp : tick_input α) (s : system_t α) :
    flags_kept s.motor.faults (HAL_TIM_PeriodElapsedCallback env inp s).motor.faults := by
  rcases tick_faults env inp s with h | h
  · rw [h]; exact flags_kept_refl _
  · rw [h]
    exact check_safety_limits_flags_kept env.MAX_MOTOR_TEMPERATURE inp.motor_temperature
      (acquire_feedback inp s).motor

/-- C11: fault flags are sticky.  A flag that is set before `check_safety_limits`
is set after it, whatever the readings; the same holds across one invocation of
the callback and across every run of invocations; `execute_cascaded_control`
and `init_motor_control_system` leave the flags as they are. -/
theorem C11_fault_flags_sticky (env : platform_t α) :
    (∀ (temperature : α) (ctrl : motor_control_t α),
      flags_kept ctrl.faults
        (check_safety_limits env.MAX_MOTOR_TEMPERATURE temperature ctrl).2.faults) ∧
    (∀ (inp : tick_input α) (s : system_t α),
      flags_kept s.motor.faults (HAL_TIM_PeriodElapsedCallback env inp s).motor.faults) ∧
    (∀ (inps : List (tick_input α)) (s : system_t α),
      flags_kept s.motor.faults (run_ticks env inps s).motor.faults) ∧
    (∀ (inp : tick_input α) (ctrl : motor_control_t α) (last_time : Nat),
      (execute_cascaded_control env inp ctrl last_time).1.faults = ctrl.faults) ∧
    (∀ s : system_t α, (init_motor_control_system env s).motor.faults = s.motor.faults) := by
  refine ⟨fun t c => check_safety_limits_flags_kept _ t c, fun inp s => tick_flags_kept env inp s,
    fun inps s => ?_, fun inp c lt => execute_cascaded_control_faults env inp c lt, fun s => rfl⟩
  exact run_ticks_induction env (fun s' => flags_kept s.motor.faults s'.motor.faults)
    (fun s' inp h => flags_kept_trans h (tick_flags_kept env inp s')) inps s (flags_kept_refl _)

/-- C11 at a concrete input: the overcurrent flag set by the overcurrent tick is
still set after a tick with no current. -/
theorem C11_fault_flags_sticky_witness :
    (HAL_TIM_PeriodElapsedCallback (demo_platform Real.cos Real.pi) input_idle
      (demo_fault_state Real.cos Real.pi)).motor.faults.overcurrent = true :=
  ((C11_fault_flags_sticky (demo_platform Real.cos Real.pi)).2.1 input_idle
    (demo_fault_state Real.cos Real.pi)).1
    (by
      rw [demo_fault_state_eq, check_safety_limits_closed]
      norm_num [acquire_feedback, input_overcurrent, system_init, init_motor_control_system,
        system_zero, demo_platform])

/-- C12: when `|current| > max_current` while velocity, position and temperature
are within their limits, `check_safety_limits` returns false, sets `overcurrent`
and leaves `overspeed`, `position_limit` and `overtemperature` at the values
they had before the call. -/
theorem C12_overcurrent_only (MAX_MOTOR_TEMPERATURE temperature : α)
    (ctrl : motor_control_t α)
    (hcur : |ctrl.current| > ctrl.max_current)
    (hvel : |ctrl.velocity| ≤ ctrl.max_velocity)
    (hpos : ctrl.position_limit_min ≤ ctrl.position ∧ ctrl.position ≤ ctrl.position_limit_max)
    (htemp : temperature ≤ MAX_MOTOR_TEMPERATURE) :
    (check_safety_limits MAX_MOTOR_TEMPERATURE temperature ctrl).1 = false ∧
    (check_safety_limits MAX_MOTOR_TEMPERATURE temperature ctrl).2.faults.overcurrent = true ∧
    (check_safety_limits MAX_MOTOR_TEMPERATURE temperature ctrl).2.faults.overspeed =
      ctrl.faults.overspeed ∧
    (check_safety_limits MAX_MOTOR_TEMPERATURE temperature ctrl).2.faults.position_limit =
      ctrl.faults.position_limit ∧
    (check_safety_limits MAX_MOTOR_TEMPERATURE temperature ctrl).2.faults.overtemperature =
      ctrl.faults.overtemperature := by
  rw [check_safety_limits_closed]
  have h2 : ¬ |ctrl.velocity| > ctrl.max_velocity := not_lt.mpr hvel
  have h3 : ¬ (ctrl.position < ctrl.position_limit_min ∨
      ctrl.position > ctrl.position_limit_max) :=
    fun hp => hp.elim (fun h => not_lt.mpr hpos.1 h) (fun h => not_lt.mpr hpos.2 h)
  have h4 : ¬ temperature > MAX_MOTOR_TEMPERATURE := not_lt.mpr htemp
  simp [hcur, h2, h3, h4]

/-- C12 at the spec's input: current 6 A against the 5 A limit, velocity and
position 0, temperature 25 against 100, overspeed flag set before the call. -/
theorem C12_overcurrent_only_witness :
    (check_safety_limits (100 : ℚ) 25 motor_overcurrent_only).1 = false ∧
    (check_safety_limits (100 : ℚ) 25 motor_overcurrent_only).2.faults.overcurrent = true ∧
    (check_safety_limits (100 : ℚ) 25 motor_overcurrent_only).2.faults.overspeed = true ∧
    (check_safety_limits (100 : ℚ) 25 motor_overcurrent_only).2.faults.position_limit
      = false ∧
    (check_safety_limits (100 : ℚ) 25 motor_overcurrent_only).2.faults.overtemperature
      = false :=
  C12_overcurrent_only (100 : ℚ) 25 motor_overcurrent_only
    (by norm_num [motor_overcurrent_only, system_zero])
    (by norm_num [motor_overcurrent_only, system_zero])
    (by norm_num [motor_overcurrent_only, system_zero])
    (by norm_num)

/-! ## PID controller: the control law -/

/-- Everything `pid_compute` returns, written out in terms of the clamped
accumulator. -/
theorem pid_compute_unfold (pid : pid_controller_t α) (error : α) (lt ct : Nat) :
    pid_compute pid error lt ct =
      { output := pid.kp * error + pid.ki * (pid_compute pid error lt ct).pid.integral +
          pid.kd * (4 / 5 * pid.derivative_filtered +
            1 / 5 * ((error - pid.last_error) / pid_dt lt ct))
        pid := { pid with
          integral := (pid_compute pid error lt ct).pid.integral
          derivative_filtered := 4 / 5 * pid.derivative_filtered +
            1 / 5 * ((error - pid.last_error) / pid_dt lt ct)
          last_error := error }
        last_time := ct } := by
  unfold pid_compute
  simp only []
  split_ifs <;> rfl

/-- For ordered bounds the if-chain of `pid_compute` is the reference clamp. -/
theorem pid_clamp_eq_reference (x lo hi : α) (h : lo ≤ hi) :
    (if x > hi then hi else if x < lo then lo else x) = clamp_reference x lo hi := by
  unfold clamp_reference
  split_ifs with h1 h2
  · rw [min_eq_right (le_of_lt h1), max_eq_right h]
  · rw [min_eq_left (not_lt.mp h1), max_eq_left (le_of_lt h2)]
  · rw [min_eq_left (not_lt.mp h1), max_eq_right (not_lt.mp h2)]

/-- C13: `pid_compute` equals the reference PID law with `dt` the interval used
by the call: the filtered derivative is
`0.2 * ((error - last_error) / dt) + 0.8 * derivative_filtered`, `last_error`
becomes `error`, the output is `kp * error + ki * integral' + kd *
derivative_filtered'` with the updated accumulator and derivative, and for
ordered clamp bounds the accumulator is
`clamp (integral + error * dt, integral_min, integral_max)`, so that output and
controller are those of `pid_reference`. -/
theorem C13_pid_compute_reference (pid : pid_controller_t α) (error : α)
    (last_time current_time : Nat) :
    (pid_compute pid error last_time current_time).pid.derivative_filtered =
      1 / 5 * ((error - pid.last_error) / pid_dt last_time current_time) +
        4 / 5 * pid.derivative_filtered ∧
    (pid_compute pid error last_time current_time).pid.last_error = error ∧
    (pid_compute pid error last_time current_time).output =
      pid.kp * error + pid.ki * (pid_compute pid error last_time current_time).pid.integral +
        pid.kd * (pid_compute pid error last_time current_time).pid.derivative_filtered ∧
    (pid.integral_min ≤ pid.integral_max →
      (pid_compute pid error last_time current_time).pid.integral =
        clamp_reference (pid.integral + error * pid_dt last_time current_time)
          pid.integral_min pid.integral_max ∧
      ((pid_compute pid error last_time current_time).output,
        (pid_compute pid error last_time current_time).pid) =
        pid_reference pid error (pid_dt last_time current_time)) := by
  have hu := pid_compute_unfold pid error last_time current_time
  have hint := (pid_compute_integral pid error last_time current_time).1
  refine ⟨?_, ?_, ?_, fun hb => ?_⟩
  · rw [hu]; exact add_comm _ _
  · rw [hu]
  · rw [hu]
  · have hclamp : (pid_compute pid error last_time current_time).pid.integral =
        clamp_reference (pid.integral + error * pid_dt last_time current_time)
          pid.integral_min pid.integral_max := by
      rw [hint]; exact pid_clamp_eq_reference _ _ _ hb
    refine ⟨hclamp, ?_⟩
    rw [hu]
    unfold pid_reference
    simp only [hclamp, add_comm (4 / 5 * pid.derivative_filtered)]

/-- C13 at a concrete input: gains `(2, 20, 0)`, bounds `[-10, 10]`, error 3, tick
time 7 after tick time 2. -/
theorem C13_pid_compute_reference_witness :
    ((pid_compute (⟨2, 20, 0, 0, -10, 10, 0, 0⟩ : pid_controller_t ℚ) 3 2 7).output,
      (pid_compute (⟨2, 20, 0, 0, -10, 10, 0, 0⟩ : pid_controller_t ℚ) 3 2 7).pid) =
      pid_reference (⟨2, 20, 0, 0, -10, 10, 0, 0⟩ : pid_controller_t ℚ) 3 (pid_dt 2 7) :=
  ((C13_pid_compute_reference (⟨2, 20, 0, 0, -10, 10, 0, 0⟩ : pid_controller_t ℚ) 3 2 7).2.2.2
    (by norm_num)).2

/-- C14: with `(kp, ki, kd) = (1, 0, 0)`, `pid_compute` returns exactly the error,
for every stored integral, last error and filtered derivative and every pair of
tick times. -/
theorem C14_pure_proportional (pid : pid_controller_t α) (hkp : pid.kp = 1)
    (hki : pid.ki = 0) (hkd : pid.kd = 0) (error : α) (last_time current_time : Nat) :
    (pid_compute pid error last_time current_time).output = error := by
  rw [pid_compute_unfold pid error last_time current_time]
  simp only [hkp, hki, hkd, one_mul, zero_mul, add_zero]

/-- C14 at a concrete input: integral 3, last error 7, filtered derivative -2,
error 5. -/
theorem C14_pure_proportional_witness :
    (pid_compute (⟨1, 0, 0, 3, -10, 10, 7, -2⟩ : pid_controller_t ℚ) 5 2 7).output = 5 :=
  C14_pure_proportional (⟨1, 0, 0, 3, -10, 10, 7, -2⟩ : pid_controller_t ℚ) rfl rfl rfl 5 2 7

/-! ## PID controller: the interval `dt` -/

theorem pid_dt_pos (lt ct : Nat) : (0 : α) < pid_dt lt ct := by
  unfold pid_dt
  simp only []
  split_ifs with h
  · norm_num [CONTROL_FREQUENCY]
  · exact not_le.mp h

theorem pid_dt_nominal (lt ct : Nat) (h : ((ct : Int) - (lt : Int)) % 4294967296 = 0) :
    (pid_dt lt ct : α) = 1 / 10000 := by
  unfold pid_dt
  simp only [h, Int.cast_zero, zero_div, le_refl, if_true]
  norm_num [CONTROL_FREQUENCY]

theorem pid_dt_measured (lt ct : Nat) (h : ((ct : Int) - (lt : Int)) % 4294967296 ≠ 0) :
    (pid_dt lt ct : α) = ((((ct : Int) - (lt : Int)) % 4294967296 : Int) : α) / 1000 := by
  have hnn : (0 : Int) ≤ ((ct : Int) - (lt : Int)) % 4294967296 :=
    Int.emod_nonneg _ (by norm_num)
  have hpos : (0 : Int) < ((ct : Int) - (lt : Int)) % 4294967296 :=
    lt_of_le_of_ne hnn (Ne.symm h)
  have hcast : (0 : α) < ((((ct : Int) - (lt : Int)) % 4294967296 : Int) : α) :=
    Int.cast_pos.mpr hpos
  unfold pid_dt
  simp only []
  rw [if_neg]
  exact not_le.mpr (div_pos hcast (by norm_num))

/-- C15: the interval `dt` used by `pid_compute` is strictly positive for every
pair of tick-counter values.  When the unsigned 32-bit difference of the
counters is zero, `dt` is the nominal period `1 / 10000` s; otherwise it is
that difference (taken modulo `2^32`, so also across a counter wrap) in
milliseconds; and this `dt` is the divisor of the derivative
`(error - last_error) / dt`. -/
theorem C15_pid_dt_positive (last_time current_time : Nat) :
    (0 : α) < pid_dt last_time current_time ∧
    (((current_time : Int) - (last_time : Int)) % 4294967296 = 0 →
      (pid_dt last_time current_time : α) = 1 / 10000) ∧
    (((current_time : Int) - (last_time : Int)) % 4294967296 ≠ 0 →
      (pid_dt last_time current_time : α) =
        ((((current_time : Int) - (last_time : Int)) % 4294967296 : Int) : α) / 1000) ∧
    (∀ (pid : pid_controller_t α) (error : α),
      (pid_compute pid error last_time current_time).pid.derivative_filtered =
        4 / 5 * pid.derivative_filtered +
          1 / 5 * ((error - pid.last_error) / pid_dt last_time current_time)) := by
  refine ⟨pid_dt_pos _ _, pid_dt_nominal _ _, pid_dt_measured _ _, fun pid error => ?_⟩
  rw [pid_compute_unfold pid error last_time current_time]

/-- C15 at concrete inputs: equal counter values give the nominal period, and a
counter that wrapped from `2^32 - 1` to 0 gives one millisecond. -/
theorem C15_pid_dt_positive_witness :
    (pid_dt 5 5 : ℚ) = 1 / 10000 ∧ (pid_dt 4294967295 0 : ℚ) = 1 / 1000 :=
  ⟨(@C15_pid_dt_positive ℚ _ 5 5).2.1 (by norm_num),
   ((@C15_pid_dt_positive ℚ _ 4294967295 0).2.2.1 (by norm_num)).trans (by norm_num)⟩

/-- The velocity stage of `execute_cascaded_control`, written out: outside
`MOTOR_STATE_POSITION_CONTROL` its `pid_compute` call sees the incoming static
`last_time`; in `MOTOR_STATE_POSITION_CONTROL` it sees the tick value that
`HAL_GetTick()` returned to the position stage. -/
theorem execute_cascaded_control_velocity_pid (env : platform_t α) (inp : tick_input α)
    (ctrl : motor_control_t α) (lt : Nat) :
    (ctrl.state ≠ MOTOR_STATE_POSITION_CONTROL →
      (execute_cascaded_control env inp ctrl lt).1.velocity_pid =
        (pid_compute ctrl.velocity_pid (ctrl.velocity_setpoint - ctrl.velocity) lt
          inp.hal_tick_velocity).pid) ∧
    (ctrl.state = MOTOR_STATE_POSITION_CONTROL →
      (execute_cascaded_control env inp ctrl lt).1.velocity_pid =
        (pid_compute ctrl.velocity_pid
          ((pid_compute ctrl.position_pid (ctrl.position_setpoint - ctrl.position) lt
              inp.hal_tick_position).output +
            env.get_velocity_feedforward ctrl.position_setpoint - ctrl.velocity)
          inp.hal_tick_position inp.hal_tick_velocity).pid) := by
  constructor
  · intro h
    unfold execute_cascaded_control
    simp only [h, if_false]
  · intro h
    unfold execute_cascaded_control
    simp only [h, if_true]
    rw [pid_compute_unfold ctrl.position_pid]

/-- C16 (the code at the failing input): the start-up motor state with velocity
-1 RPM, static `last_time = 999` and `HAL_GetTick() = 1000` for every call.
The velocity stage is fed the error 1 in both modes, but integrates it over
`dt = 0.001` s in `MOTOR_STATE_VELOCITY_CONTROL` and over the nominal
`0.0001` s in `MOTOR_STATE_POSITION_CONTROL`, where the position stage's call
has already overwritten the shared time stamp. -/
theorem C16_dt_depends_on_other_stage :
    (execute_cascaded_control (demo_platform Real.cos Real.pi) input_at_1000
      (demo_cascade_motor (demo_platform Real.cos Real.pi) MOTOR_STATE_VELOCITY_CONTROL)
      999).1.velocity_pid.last_error = 1 ∧
    (execute_cascaded_control (demo_platform Real.cos Real.pi) input_at_1000
      (demo_cascade_motor (demo_platform Real.cos Real.pi) MOTOR_STATE_VELOCITY_CONTROL)
      999).1.velocity_pid.integral = 1 / 1000 ∧
    (execute_cascaded_control (demo_platform Real.cos Real.pi) input_at_1000
      (demo_cascade_motor (demo_platform Real.cos Real.pi) MOTOR_STATE_POSITION_CONTROL)
      999).1.velocity_pid.last_error = 1 ∧
    (execute_cascaded_control (demo_platform Real.cos Real.pi) input_at_1000
      (demo_cascade_motor (demo_platform Real.cos Real.pi) MOTOR_STATE_POSITION_CONTROL)
      999).1.velocity_pid.integral = 1 / 10000 := by
  have hv := (execute_cascaded_control_velocity_pid (demo_platform Real.cos Real.pi)
    input_at_1000
    (demo_cascade_motor (demo_platform Real.cos Real.pi) MOTOR_STATE_VELOCITY_CONTROL) 999).1
    (by simp [demo_cascade_motor])
  have hp := (execute_cascaded_control_velocity_pid (demo_platform Real.cos Real.pi)
    input_at_1000
    (demo_cascade_motor (demo_platform Real.cos Real.pi) MOTOR_STATE_POSITION_CONTROL) 999).2
    (by simp [demo_cascade_motor])
  rw [hv, hp]
  refine ⟨?_, ?_, ?_, ?_⟩
  · rw [pid_compute_unfold]
    norm_num [demo_cascade_motor, system_init, init_motor_control_system, system_zero]
  · rw [(pid_compute_integral _ _ _ _).1]
    have hdt : (pid_dt 999 (input_at_1000 : tick_input ℝ).hal_tick_velocity : ℝ) = 1 / 1000 := by
      rw [pid_dt_measured _ _ (by norm_num [input_at_1000])]
      norm_num [input_at_1000]
    rw [hdt]
    norm_num [demo_cascade_motor, system_init, init_motor_control_system, system_zero,
      init_pid_controller, demo_platform]
  · rw [pid_compute_unfold, pid_compute_unfold]
    norm_num [demo_cascade_motor, system_init, init_motor_control_system, system_zero,
      init_pid_controller, demo_platform]
    rw [(pid_compute_integral _ _ _ _).1]
    norm_num
  · rw [(pid_compute_integral _ _ _ _).1]
    have hdt : (pid_dt (input_at_1000 : tick_input ℝ).hal_tick_position
        (input_at_1000 : tick_input ℝ).hal_tick_velocity : ℝ) = 1 / 10000 :=
      pid_dt_nominal _ _ (by norm_num [input_at_1000])
    rw [hdt, pid_compute_unfold]
    norm_num [demo_cascade_motor, system_init, init_motor_control_system, system_zero,
      init_pid_controller, demo_platform]
    rw [(pid_compute_integral _ _ _ _).1]
    norm_num

/-! ## PID controller: frame -/

/-- The fields of the controller that `pid_compute` does not write. -/
theorem pid_compute_gains (pid : pid_controller_t α) (error : α) (lt ct : Nat) :
    (pid_compute pid error lt ct).pid.kp = pid.kp ∧
    (pid_compute pid error lt ct).pid.ki = pid.ki ∧
    (pid_compute pid error lt ct).pid.kd = pid.kd ∧
    (pid_compute pid error lt ct).pid.integral_min = pid.integral_min ∧
    (pid_compute pid error lt ct).pid.integral_max = pid.integral_max := by
  rw [pid_compute_unfold pid error lt ct]
  exact ⟨rfl, rfl, rfl, rfl, rfl⟩

/-- What `execute_cascaded_control` leaves untouched: the measured values, the
position setpoint, the unused outputs, the limits, the mode, the flags, and the
gains and clamp bounds of the three controllers. -/
theorem execute_cascaded_control_frame (env : platform_t α) (inp : tick_input α)
    (ctrl : motor_control_t α) (lt : Nat) :
    ((execute_cascaded_control env inp ctrl lt).1.position_setpoint = ctrl.position_setpoint ∧
      (execute_cascaded_control env inp ctrl lt).1.encoder_count = ctrl.encoder_count ∧
      (execute_cascaded_control env inp ctrl lt).1.position = ctrl.position ∧
      (execute_cascaded_control env inp ctrl lt).1.velocity = ctrl.velocity ∧
      (execute_cascaded_control env inp ctrl lt).1.current = ctrl.current ∧
      (execute_cascaded_control env inp ctrl lt).1.position_output = ctrl.position_output ∧
      (execute_cascaded_control env inp ctrl lt).1.velocity_output = ctrl.velocity_output ∧
      (execute_cascaded_control env inp ctrl lt).1.max_velocity = ctrl.max_velocity ∧
      (execute_cascaded_control env inp ctrl lt).1.max_current = ctrl.max_current ∧
      (execute_cascaded_control env inp ctrl lt).1.position_limit_min =
        ctrl.position_limit_min ∧
      (execute_cascaded_control env inp ctrl lt).1.position_limit_max =
        ctrl.position_limit_max ∧
      (execute_cascaded_control env inp ctrl lt).1.state = ctrl.state ∧
      (execute_cascaded_control env inp ctrl lt).1.faults = ctrl.faults) ∧
    ((execute_cascaded_control env inp ctrl lt).1.position_pid.kp = ctrl.position_pid.kp ∧
      (execute_cascaded_control env inp ctrl lt).1.position_pid.ki = ctrl.position_pid.ki ∧
      (execute_cascaded_control env inp ctrl lt).1.position_pid.kd = ctrl.position_pid.kd ∧
      (execute_cascaded_control env inp ctrl lt).1.position_pid.integral_min =
        ctrl.position_pid.integral_min ∧
      (execute_cascaded_control env inp ctrl lt).1.position_pid.integral_max =
        ctrl.position_pid.integral_max) ∧
    ((execute_cascaded_control env inp ctrl lt).1.velocity_pid.kp = ctrl.velocity_pid.kp ∧
      (execute_cascaded_control env inp ctrl lt).1.velocity_pid.ki = ctrl.velocity_pid.ki ∧
      (execute_cascaded_control env inp ctrl lt).1.velocity_pid.kd = ctrl.velocity_pid.kd ∧
      (execute_cascaded_control env inp ctrl lt).1.velocity_pid.integral_min =
        ctrl.velocity_pid.integral_min ∧
      (execute_cascaded_control env inp ctrl lt).1.velocity_pid.integral_max =
        ctrl.velocity_pid.integral_max) ∧
    ((execute_cascaded_control env inp ctrl lt).1.current_pid.kp = ctrl.current_pid.kp ∧
      (execute_cascaded_control env inp ctrl lt).1.current_pid.ki = ctrl.current_pid.ki ∧
      (execute_cascaded_control env inp ctrl lt).1.current_pid.kd = ctrl.current_pid.kd ∧
      (execute_cascaded_control env inp ctrl lt).1.current_pid.integral_min =
        ctrl.current_pid.integral_min ∧
      (execute_cascaded_control env inp ctrl lt).1.current_pid.integral_max =
        ctrl.current_pid.integral_max) := by
  unfold execute_cascaded_control
  by_cases h : ctrl.state = MOTOR_STATE_POSITION_CONTROL
  · rw [if_pos h]
    exact ⟨⟨rfl, rfl, rfl, rfl, rfl, rfl, rfl, rfl, rfl, rfl, rfl, rfl, rfl⟩,
      pid_compute_gains _ _ _ _, pid_compute_gains _ _ _ _, pid_compute_gains _ _ _ _⟩
  · rw [if_neg h]
    exact ⟨⟨rfl, rfl, rfl, rfl, rfl, rfl, rfl, rfl, rfl, rfl, rfl, rfl, rfl⟩,
      ⟨rfl, rfl, rfl, rfl, rfl⟩, pid_compute_gains _ _ _ _, pid_compute_gains _ _ _ _⟩

/-- C17: `pid_compute` leaves `kp`, `ki`, `kd`, `integral_min` and `integral_max`
unchanged; the returned controller is the given one with `integral`,
`last_error` and `derivative_filtered` replaced, and the static time stamp
becomes the current tick value.  In its only caller,
`execute_cascaded_control`, the gains and clamp bounds of all three
controllers and the fields of the motor state outside the controllers, the two
inner setpoints and `pwm_duty` are unchanged. -/
theorem C17_pid_compute_frame (pid : pid_controller_t α) (error : α)
    (last_time current_time : Nat) :
    ((pid_compute pid error last_time current_time).pid.kp = pid.kp ∧
      (pid_compute pid error last_time current_time).pid.ki = pid.ki ∧
      (pid_compute pid error last_time current_time).pid.kd = pid.kd ∧
      (pid_compute pid error last_time current_time).pid.integral_min = pid.integral_min ∧
      (pid_compute pid error last_time current_time).pid.integral_max = pid.integral_max) ∧
    (pid_compute pid error last_time current_time).pid =
      { pid with
        integral := (pid_compute pid error last_time current_time).pid.integral
        last_error := (pid_compute pid error last_time current_time).pid.last_error
        derivative_filtered :=
          (pid_compute pid error last_time current_time).pid.derivative_filtered } ∧
    (pid_compute pid error last_time current_time).last_time = current_time ∧
    (∀ (env : platform_t α) (inp : tick_input α) (ctrl : motor_control_t α) (lt : Nat),
      ((execute_cascaded_control env inp ctrl lt).1.position_setpoint =
          ctrl.position_setpoint ∧
        (execute_cascaded_control env inp ctrl lt).1.encoder_count = ctrl.encoder_count ∧
        (execute_cascaded_control env inp ctrl lt).1.position = ctrl.position ∧
        (execute_cascaded_control env inp ctrl lt).1.velocity = ctrl.velocity ∧
        (execute_cascaded_control env inp ctrl lt).1.current = ctrl.current ∧
        (execute_cascaded_control env inp ctrl lt).1.position_output = ctrl.position_output ∧
        (execute_cascaded_control env inp ctrl lt).1.velocity_output = ctrl.velocity_output ∧
        (execute_cascaded_control env inp ctrl lt).1.max_velocity = ctrl.max_velocity ∧
        (execute_cascaded_control env inp ctrl lt).1.max_current = ctrl.max_current ∧
        (execute_cascaded_control env inp ctrl lt).1.position_limit_min =
          ctrl.position_limit_min ∧
        (execute_cascaded_control env inp ctrl lt).1.position_limit_max =
          ctrl.position_limit_max ∧
        (execute_cascaded_control env inp ctrl lt).1.state = ctrl.state ∧
        (execute_cascaded_control env inp ctrl lt).1.faults = ctrl.faults) ∧
      ((execute_cascaded_control env inp ctrl lt).1.position_pid.kp = ctrl.position_pid.kp ∧
        (execute_cascaded_control env inp ctrl lt).1.position_pid.ki = ctrl.position_pid.ki ∧
        (execute_cascaded_control env inp ctrl lt).1.position_pid.kd = ctrl.position_pid.kd ∧
        (execute_cascaded_control env inp ctrl lt).1.position_pid.integral_min =
          ctrl.position_pid.integral_min ∧
        (execute_cascaded_control env inp ctrl lt).1.position_pid.integral_max =
          ctrl.position_pid.integral_max) ∧
      ((execute_cascaded_control env inp ctrl lt).1.velocity_pid.kp = ctrl.velocity_pid.kp ∧
        (execute_cascaded_control env inp ctrl lt).1.velocity_pid.ki = ctrl.velocity_pid.ki ∧
        (execute_cascaded_control env inp ctrl lt).1.velocity_pid.kd = ctrl.velocity_pid.kd ∧
        (execute_cascaded_control env inp ctrl lt).1.velocity_pid.integral_min =
          ctrl.velocity_pid.integral_min ∧
        (execute_cascaded_control env inp ctrl lt).1.velocity_pid.integral_max =
          ctrl.velocity_pid.integral_max) ∧
      ((execute_cascaded_control env inp ctrl lt).1.current_pid.kp = ctrl.current_pid.kp ∧
        (execute_cascaded_control env inp ctrl lt).1.current_pid.ki = ctrl.current_pid.ki ∧
        (execute_cascaded_control env inp ctrl lt).1.current_pid.kd = ctrl.current_pid.kd ∧
        (execute_cascaded_control env inp ctrl lt).1.current_pid.integral_min =
          ctrl.current_pid.integral_min ∧
        (execute_cascaded_control env inp ctrl lt).1.current_pid.integral_max =
          ctrl.current_pid.integral_max)) := by
  refine ⟨pid_compute_gains pid error last_time current_time, ?_, ?_,
    fun env inp ctrl lt => execute_cascaded_control_frame env inp ctrl lt⟩
  · rw [pid_compute_unfold pid error last_time current_time]
  · rw [pid_compute_unfold pid error last_time current_time]

/-! ## Velocity estimator -/

/-- An `int32_t` value is not changed by the wrap-around. -/
theorem wrap_int32_of_mem (x : Int) (h1 : -2147483648 ≤ x) (h2 : x < 2147483648) :
    wrap_int32 x = x := by
  unfold wrap_int32
  omega

/-- The feedback part of the state after a control tick is the one computed by
lines 103-123, whichever branch the safety check takes. -/
theorem tick_feedback (env : platform_t α) (inp : tick_input α) (s : system_t α)
    (hctl : inp.is_control_timer = true) :
    (HAL_TIM_PeriodElapsedCallback env inp s).velocity_filter_state =
      (acquire_feedback inp s).velocity_filter_state ∧
    (HAL_TIM_PeriodElapsedCallback env inp s).last_encoder_count =
      (acquire_feedback inp s).last_encoder_count ∧
    (HAL_TIM_PeriodElapsedCallback env inp s).motor.velocity =
      (acquire_feedback inp s).motor.velocity ∧
    (HAL_TIM_PeriodElapsedCallback env inp s).motor.position =
      (acquire_feedback inp s).motor.position ∧
    (HAL_TIM_PeriodElapsedCallback env inp s).motor.encoder_count =
      (acquire_feedback inp s).motor.encoder_count ∧
    (HAL_TIM_PeriodElapsedCallback env inp s).motor.current =
      (acquire_feedback inp s).motor.current := by
  cases hchk : (check_safety_limits env.MAX_MOTOR_TEMPERATURE inp.motor_temperature
      (acquire_feedback inp s).motor).1 with
  | false =>
    rw [tick_on_violation env inp s hctl hchk, check_safety_limits_closed]
    exact ⟨rfl, rfl, rfl, rfl, rfl, rfl⟩
  | true =>
    rw [tick_safe env inp s hctl hchk]
    obtain ⟨⟨-, h2, h3, h4, h5, -⟩, -⟩ := execute_cascaded_control_frame env inp
      (check_safety_limits env.MAX_MOTOR_TEMPERATURE inp.motor_temperature
        (acquire_feedback inp s).motor).2 s.last_time
    refine ⟨rfl, rfl, ?_, ?_, ?_, ?_⟩
    · show (execute_cascaded_control _ _ _ _).1.velocity = _
      rw [h4, check_safety_limits_closed]
    · show (execute_cascaded_control _ _ _ _).1.position = _
      rw [h3, check_safety_limits_closed]
    · show (execute_cascaded_control _ _ _ _).1.encoder_count = _
      rw [h2, check_safety_limits_closed]
    · show (execute_cascaded_control _ _ _ _).1.current = _
      rw [h5, check_safety_limits_closed]

/-- The velocity filter update of lines 112-120, with the constants evaluated. -/
theorem acquire_feedback_velocity (inp : tick_input α) (s : system_t α) :
    (acquire_feedback inp s).velocity_filter_state =
      1 / 10 * (((wrap_int32 (inp.encoder_raw - s.last_encoder_count) : Int) : α) *
        10000 * 60 / (4 * 4096)) + 9 / 10 * s.velocity_filter_state ∧
    (acquire_feedback inp s).motor.velocity = (acquire_feedback inp s).velocity_filter_state ∧
    (acquire_feedback inp s).last_encoder_count = inp.encoder_raw := by
  refine ⟨?_, rfl, rfl⟩
  simp only [acquire_feedback, CONTROL_FREQUENCY, ENCODER_PPR]
  norm_num

/-- C18: in a control tick the velocity filter state becomes
`0.1 * raw_velocity + 0.9 * filtered_velocity` with
`raw_velocity = (encoder_raw - last_encoder_count) * 10000 * 60 / (4 * 4096)`
(the difference being the `int32_t` difference of the source, equal to the
plain difference whenever that fits 32 bits), `motor.velocity` is set to the
new filter state and `last_encoder_count` to `encoder_raw`, on every branch of
the tick. -/
theorem C18_velocity_estimate (env : platform_t α) (inp : tick_input α) (s : system_t α)
    (hctl : inp.is_control_timer = true) :
    (HAL_TIM_PeriodElapsedCallback env inp s).velocity_filter_state =
      1 / 10 * (((wrap_int32 (inp.encoder_raw - s.last_encoder_count) : Int) : α) *
        10000 * 60 / (4 * 4096)) + 9 / 10 * s.velocity_filter_state ∧
    (HAL_TIM_PeriodElapsedCallback env inp s).motor.velocity =
      (HAL_TIM_PeriodElapsedCallback env inp s).velocity_filter_state ∧
    (HAL_TIM_PeriodElapsedCallback env inp s).last_encoder_count = inp.encoder_raw ∧
    ((-2147483648 ≤ inp.encoder_raw - s.last_encoder_count ∧
        inp.encoder_raw - s.last_encoder_count < 2147483648) →
      (HAL_TIM_PeriodElapsedCallback env inp s).velocity_filter_state =
        velocity_filter_reference s.velocity_filter_state
          (velocity_raw_reference inp.encoder_raw s.last_encoder_count)) := by
  obtain ⟨h1, h2, h3, -, -, -⟩ := tick_feedback env inp s hctl
  obtain ⟨a1, a2, a3⟩ := acquire_feedback_velocity inp s
  refine ⟨by rw [h1, a1], by rw [h3, h1, a2], by rw [h2, a3], fun hr => ?_⟩
  rw [h1, a1, wrap_int32_of_mem _ hr.1 hr.2]
  rfl

/-- C18 at a concrete input: from the start-up state the encoder advances by 100
counts; the raw velocity is `100 * 10000 * 60 / 16384` RPM and the filter
takes a tenth of it. -/
theorem C18_velocity_estimate_witness :
    (HAL_TIM_PeriodElapsedCallback (demo_platform Real.cos Real.pi) (ramp_stream 100 0)
      (system_init (demo_platform Real.cos Real.pi))).velocity_filter_state =
      velocity_filter_reference 0 (velocity_raw_reference 100 0) :=
  (C18_velocity_estimate (demo_platform Real.cos Real.pi) (ramp_stream 100 0)
    (system_init (demo_platform Real.cos Real.pi)) rfl).2.2.2
    (by norm_num [ramp_stream, system_init, init_motor_control_system, system_zero])

theorem run_stream_zero (env : platform_t α) (f : Nat → tick_input α) (s : system_t α) :
    run_stream env f 0 s = s := rfl

theorem run_stream_succ (env : platform_t α) (f : Nat → tick_input α) (n : Nat)
    (s : system_t α) :
    run_stream env f (n + 1) s =
      HAL_TIM_PeriodElapsedCallback env (f n) (run_stream env f n s) := by
  simp only [run_stream, run_ticks, List.range_succ, List.map_append, List.foldl_append,
    List.map_cons, List.map_nil, List.foldl_cons, List.foldl_nil]

/-- Closed form of the velocity filter on a stream of control ticks whose encoder
value advances by `d` counts per tick. -/
theorem run_stream_velocity (env : platform_t α) (f : Nat → tick_input α) (s : system_t α)
    (d : Int) (hd1 : -2147483648 ≤ d) (hd2 : d < 2147483648)
    (hf : ∀ k : Nat, (f k).is_control_timer = true ∧
      (f k).encoder_raw = s.last_encoder_count + ((k : Int) + 1) * d) (n : Nat) :
    (run_stream env f n s).last_encoder_count = s.last_encoder_count + (n : Int) * d ∧
    (run_stream env f n s).velocity_filter_state =
      steady_velocity d + (9 / 10) ^ n * (s.velocity_filter_state - steady_velocity d) := by
  induction n with
  | zero =>
    rw [run_stream_zero]
    constructor
    · simp
    · simp
  | succ n ih =>
    obtain ⟨ih1, ih2⟩ := ih
    obtain ⟨hctl, henc⟩ := hf n
    rw [run_stream_succ]
    obtain ⟨h1, h2, -, -, -, -⟩ := tick_feedback env (f n) (run_stream env f n s) hctl
    obtain ⟨a1, -, a3⟩ := acquire_feedback_velocity (f n) (run_stream env f n s)
    have hdiff : (f n).encoder_raw - (run_stream env f n s).last_encoder_count = d := by
      rw [henc, ih1]; ring
    constructor
    · rw [h2, a3, henc]
      push_cast
      ring
    · rw [h1, a1, hdiff, wrap_int32_of_mem d hd1 hd2, ih2]
      unfold steady_velocity
      ring

/-- C19: if the raw position advances by the same `d` counts on every control
tick, then from any initial filter value `v0` the filtered velocity after `n`
ticks is `T + 0.9^n * (v0 - T)` with `T = d * 10000 * 60 / 16384`; the error
shrinks by the factor 0.9 each tick, the estimate never crosses `T`, the
error tends to 0, `T` is a fixed point, and `motor.velocity` carries the
filtered value. -/
theorem C19_velocity_estimator_converges (env : platform_t ℝ) (f : Nat → tick_input ℝ)
    (s : system_t ℝ) (d : Int) (hd : -2147483648 ≤ d ∧ d < 2147483648)
    (hf : ∀ k : Nat, (f k).is_control_timer = true ∧
      (f k).encoder_raw = s.last_encoder_count + ((k : Int) + 1) * d) :
    (∀ n : Nat, (run_stream env f n s).velocity_filter_state =
      steady_velocity d + (9 / 10) ^ n * (s.velocity_filter_state - steady_velocity d)) ∧
    (∀ n : Nat, (run_stream env f (n + 1) s).velocity_filter_state - steady_velocity d =
      9 / 10 * ((run_stream env f n s).velocity_filter_state - steady_velocity d)) ∧
    (∀ n : Nat, (run_stream env f (n + 1) s).motor.velocity =
      (run_stream env f (n + 1) s).velocity_filter_state) ∧
    (s.velocity_filter_state ≤ steady_velocity d →
      ∀ n : Nat, (run_stream env f n s).velocity_filter_state ≤ steady_velocity d) ∧
    (steady_velocity d ≤ s.velocity_filter_state →
      ∀ n : Nat, steady_velocity d ≤ (run_stream env f n s).velocity_filter_state) ∧
    (s.velocity_filter_state = steady_velocity d →
      ∀ n : Nat, (run_stream env f n s).velocity_filter_state = steady_velocity d) ∧
    Filter.Tendsto
      (fun n : Nat => (run_stream env f n s).velocity_filter_state - steady_velocity d)
      Filter.atTop (nhds 0) := by
  have hclosed : ∀ n : Nat, (run_stream env f n s).velocity_filter_state =
      steady_velocity d + (9 / 10) ^ n * (s.velocity_filter_state - steady_velocity d) :=
    fun n => (run_stream_velocity env f s d hd.1 hd.2 hf n).2
  have hpow : ∀ n : Nat, (0 : ℝ) ≤ (9 / 10) ^ n := fun n => pow_nonneg (by norm_num) n
  refine ⟨hclosed, fun n => ?_, fun n => ?_, fun h n => ?_, fun h n => ?_, fun h n => ?_, ?_⟩
  · rw [hclosed (n + 1), hclosed n, pow_succ]
    ring
  · rw [run_stream_succ]
    obtain ⟨h1, -, h3, -, -, -⟩ := tick_feedback env (f n) (run_stream env f n s) (hf n).1
    rw [h3, h1]
    exact (acquire_feedback_velocity (f n) (run_stream env f n s)).2.1
  · rw [hclosed n]
    have := mul_nonpos_of_nonneg_of_nonpos (hpow n) (sub_nonpos.mpr h)
    linarith
  · rw [hclosed n]
    have := mul_nonneg (hpow n) (sub_nonneg.mpr h)
    linarith
  · rw [hclosed n, h, sub_self, mul_zero, add_zero]
  · have hlim : Filter.Tendsto
        (fun n : Nat => (9 / 10 : ℝ) ^ n * (s.velocity_filter_state - steady_velocity d))
        Filter.atTop (nhds (0 * (s.velocity_filter_state - steady_velocity d))) :=
      (tendsto_pow_atTop_nhds_zero_of_lt_one (by norm_num : (0 : ℝ) ≤ 9 / 10)
        (by norm_num : (9 / 10 : ℝ) < 1)).mul_const _
    rw [zero_mul] at hlim
    refine hlim.congr (fun n => ?_)
    rw [hclosed n]
    ring

/-- C19 at a concrete input: from the start-up state, the encoder advancing by
100 counts per tick; the filter value after two ticks. -/
theorem C19_velocity_estimator_converges_witness :
    (run_stream (demo_platform Real.cos Real.pi) (ramp_stream 100) 2
      (system_init (demo_platform Real.cos Real.pi))).velocity_filter_state =
      steady_velocity 100 + (9 / 10) ^ 2 * (0 - steady_velocity 100) :=
  (C19_velocity_estimator_converges (demo_platform Real.cos Real.pi) (ramp_stream 100)
    (system_init (demo_platform Real.cos Real.pi)) 100 (by norm_num)
    (fun k => ⟨rfl, by
      simp [ramp_stream, system_init, init_motor_control_system, system_zero]⟩)).1 2

/-! ## Position loop -/

/-- In position control the velocity setpoint after the cascade is the position
PID output plus the feedforward term. -/
theorem execute_cascaded_control_velocity_setpoint (env : platform_t α) (inp : tick_input α)
    (ctrl : motor_control_t α) (lt : Nat) (h : ctrl.state = MOTOR_STATE_POSITION_CONTROL) :
    (execute_cascaded_control env inp ctrl lt).1.velocity_setpoint =
      (pid_compute ctrl.position_pid (ctrl.position_setpoint - ctrl.position) lt
        inp.hal_tick_position).output +
      env.get_velocity_feedforward ctrl.position_setpoint := by
  unfold execute_cascaded_control
  rw [if_pos h]

/-- From a fresh controller with clamp bounds around 0 the accumulator takes
the sign of the error. -/
theorem pid_fresh_integral_sign (pid : pid_controller_t α) (error : α) (lt ct : Nat)
    (hint : pid.integral = 0) (hmin : pid.integral_min ≤ 0) (hmax : 0 ≤ pid.integral_max) :
    (0 < error → 0 ≤ (pid_compute pid error lt ct).pid.integral) ∧
    (error < 0 → (pid_compute pid error lt ct).pid.integral ≤ 0) := by
  have hdt : (0 : α) < pid_dt lt ct := pid_dt_pos lt ct
  rw [(pid_compute_integral pid error lt ct).1, hint, zero_add]
  constructor
  · intro he
    have hpos : 0 < error * pid_dt lt ct := mul_pos he hdt
    split_ifs with h1 h2
    · exact hmax
    · exact absurd (lt_of_lt_of_le h2 hmin) (not_lt.mpr (le_of_lt hpos))
    · exact le_of_lt hpos
  · intro he
    have hneg : error * pid_dt lt ct < 0 := mul_neg_of_neg_of_pos he hdt
    split_ifs with h1 h2
    · exact absurd (lt_of_le_of_lt hmax h1) (not_lt.mpr (le_of_lt hneg))
    · exact hmin
    · exact le_of_lt hneg

/-- From a fresh controller with gains `(10, 0.1, 0.05)` and clamp bounds around 0
the output takes the sign of the error. -/
theorem pid_fresh_output_sign (pid : pid_controller_t α) (error : α) (lt ct : Nat)
    (hkp : pid.kp = 10) (hki : pid.ki = 1 / 10) (hkd : pid.kd = 1 / 20)
    (hint : pid.integral = 0) (hle : pid.last_error = 0) (hdf : pid.derivative_filtered = 0)
    (hmin : pid.integral_min ≤ 0) (hmax : 0 ≤ pid.integral_max) :
    (0 < error → 0 < (pid_compute pid error lt ct).output) ∧
    (error < 0 → (pid_compute pid error lt ct).output < 0) := by
  have hdt : (0 : α) < pid_dt lt ct := pid_dt_pos lt ct
  obtain ⟨hI1, hI2⟩ := pid_fresh_integral_sign pid error lt ct hint hmin hmax
  rw [pid_compute_unfold pid error lt ct]
  simp only [hkp, hki, hkd, hle, hdf, sub_zero, mul_zero, zero_add]
  constructor
  · intro he
    have h1 := hI1 he
    have h2 : 0 < error / pid_dt lt ct := div_pos he hdt
    have h3 : 0 ≤ 1 / 10 * (pid_compute pid error lt ct).pid.integral :=
      mul_nonneg (by norm_num) h1
    have h4 : 0 < 1 / 20 * (1 / 5 * (error / pid_dt lt ct)) :=
      mul_pos (by norm_num) (mul_pos (by norm_num) h2)
    linarith
  · intro he
    have h1 := hI2 he
    have h2 : error / pid_dt lt ct < 0 := div_neg_of_neg_of_pos he hdt
    have h3 : 1 / 10 * (pid_compute pid error lt ct).pid.integral ≤ 0 :=
      mul_nonpos_of_nonneg_of_nonpos (by norm_num) h1
    have h4 : 1 / 20 * (1 / 5 * (error / pid_dt lt ct)) < 0 :=
      mul_neg_of_pos_of_neg (by norm_num) (mul_neg_of_pos_of_neg (by norm_num) h2)
    linarith

/-- In the start-up state switched to position control, the readings of
`input_idle` pass the safety check. -/
theorem demo_position_state_safe (env : platform_t α) (h : env.MAX_MOTOR_TEMPERATURE = 100) :
    (check_safety_limits env.MAX_MOTOR_TEMPERATURE (input_idle : tick_input α).motor_temperature
      (acquire_feedback input_idle (demo_position_state env)).motor).1 = true := by
  rw [check_safety_limits_closed, h]
  simp only [acquire_feedback, input_idle, demo_position_state, system_init,
    init_motor_control_system, system_zero, wrap_int32]
  norm_num

/-- C20 (as stated) fails: with a feedforward term of -20000, one tick in
`MOTOR_STATE_POSITION_CONTROL` from the fresh position PID with gains
`(10, 0.1, 0.05)`, `position_setpoint = 90` and `position = 0` yields
`velocity_setpoint = 9900.0009 - 20000`, which is negative. -/
theorem C20_negative_feedforward :
    (demo_position_state (feedforward_platform Real.cos Real.pi (-20000))).motor.state =
      MOTOR_STATE_POSITION_CONTROL ∧
    (demo_position_state (feedforward_platform Real.cos Real.pi (-20000))).motor.position_setpoint
      = 90 ∧
    (HAL_TIM_PeriodElapsedCallback (feedforward_platform Real.cos Real.pi (-20000)) input_idle
      (demo_position_state (feedforward_platform Real.cos Real.pi (-20000)))).motor.position
      = 0 ∧
    (HAL_TIM_PeriodElapsedCallback (feedforward_platform Real.cos Real.pi (-20000)) input_idle
      (demo_position_state
        (feedforward_platform Real.cos Real.pi (-20000)))).motor.velocity_setpoint =
      -100999991 / 10000 ∧
    ¬ 0 < (HAL_TIM_PeriodElapsedCallback (feedforward_platform Real.cos Real.pi (-20000))
      input_idle (demo_position_state
        (feedforward_platform Real.cos Real.pi (-20000)))).motor.velocity_setpoint := by
  have hsafe := demo_position_state_safe (feedforward_platform Real.cos Real.pi (-20000)) rfl
  have hpos : (HAL_TIM_PeriodElapsedCallback (feedforward_platform Real.cos Real.pi (-20000))
      input_idle (demo_position_state
        (feedforward_platform Real.cos Real.pi (-20000)))).motor.position = 0 := by
    rw [(tick_feedback _ _ _ rfl).2.2.2.1]
    simp [acquire_feedback, input_idle]
  have hvs : (HAL_TIM_PeriodElapsedCallback (feedforward_platform Real.cos Real.pi (-20000))
      input_idle (demo_position_state
        (feedforward_platform Real.cos Real.pi (-20000)))).motor.velocity_setpoint =
      -100999991 / 10000 := by
    rw [tick_safe _ _ _ rfl hsafe]
    show (execute_cascaded_control _ _ _ _).1.velocity_setpoint = _
    rw [execute_cascaded_control_velocity_setpoint _ _ _ _
      (by rw [check_safety_limits_state]; rfl)]
    rw [pid_compute_unfold, (pid_compute_integral _ _ _ _).1]
    have hdt : (pid_dt (demo_position_state
        (feedforward_platform Real.cos Real.pi (-20000))).last_time
        (input_idle : tick_input ℝ).hal_tick_position : ℝ) = 1 / 10000 :=
      pid_dt_nominal _ _ (by norm_num [input_idle, demo_position_state, system_init,
        init_motor_control_system, system_zero])
    rw [hdt]
    simp only [check_safety_limits_closed]
    simp only [acquire_feedback, input_idle, demo_position_state, system_init,
      init_motor_control_system, system_zero, init_pid_controller, feedforward_platform,
      demo_platform]
    norm_num
  refine ⟨rfl, rfl, hpos, hvs, ?_⟩
  rw [hvs]
  norm_num

/-- C20 (amended): from a fresh position PID (accumulator, last error and
filtered derivative zero, clamp bounds around 0) with gains `(10, 0.1, 0.05)`,
`execute_cascaded_control` in `MOTOR_STATE_POSITION_CONTROL` sets
`velocity_setpoint` to the position PID output plus
`get_velocity_feedforward (position_setpoint)`; the PID output is positive for
every positive position error and negative for every negative one, so the
velocity setpoint is positive (negative) when moreover the feedforward term is
not negative (not positive). -/
theorem C20_position_loop_direction (env : platform_t α) (inp : tick_input α)
    (ctrl : motor_control_t α) (last_time : Nat)
    (hstate : ctrl.state = MOTOR_STATE_POSITION_CONTROL)
    (hgain : ctrl.position_pid.kp = 10 ∧ ctrl.position_pid.ki = 1 / 10 ∧
      ctrl.position_pid.kd = 1 / 20)
    (hfresh : ctrl.position_pid.integral = 0 ∧ ctrl.position_pid.last_error = 0 ∧
      ctrl.position_pid.derivative_filtered = 0)
    (hbounds : ctrl.position_pid.integral_min ≤ 0 ∧ 0 ≤ ctrl.position_pid.integral_max) :
    (execute_cascaded_control env inp ctrl last_time).1.velocity_setpoint =
      (pid_compute ctrl.position_pid (ctrl.position_setpoint - ctrl.position) last_time
        inp.hal_tick_position).output +
      env.get_velocity_feedforward ctrl.position_setpoint ∧
    (0 < ctrl.position_setpoint - ctrl.position →
      0 < (pid_compute ctrl.position_pid (ctrl.position_setpoint - ctrl.position) last_time
        inp.hal_tick_position).output) ∧
    (ctrl.position_setpoint - ctrl.position < 0 →
      (pid_compute ctrl.position_pid (ctrl.position_setpoint - ctrl.position) last_time
        inp.hal_tick_position).output < 0) ∧
    (0 < ctrl.position_setpoint - ctrl.position →
      0 ≤ env.get_velocity_feedforward ctrl.position_setpoint →
      0 < (execute_cascaded_control env inp ctrl last_time).1.velocity_setpoint) ∧
    (ctrl.position_setpoint - ctrl.position < 0 →
      env.get_velocity_feedforward ctrl.position_setpoint ≤ 0 →
      (execute_cascaded_control env inp ctrl last_time).1.velocity_setpoint < 0) := by
  have hvs := execute_cascaded_control_velocity_setpoint env inp ctrl last_time hstate
  obtain ⟨hp, hn⟩ := pid_fresh_output_sign ctrl.position_pid
    (ctrl.position_setpoint - ctrl.position) last_time inp.hal_tick_position
    hgain.1 hgain.2.1 hgain.2.2 hfresh.1 hfresh.2.1 hfresh.2.2 hbounds.1 hbounds.2
  refine ⟨hvs, hp, hn, fun he hff => ?_, fun he hff => ?_⟩
  · rw [hvs]; linarith [hp he]
  · rw [hvs]; linarith [hn he]

/-- C20 (amended) at the spec's input: gains `(10, 0.1, 0.05)`, setpoint 90 degrees,
position 0 degrees, no feedforward; the velocity setpoint is positive. -/
theorem C20_position_loop_direction_witness :
    0 < (execute_cascaded_control (demo_platform Real.cos Real.pi) input_idle
      (demo_position_state (demo_platform Real.cos Real.pi)).motor 0).1.velocity_setpoint :=
  (C20_position_loop_direction (demo_platform Real.cos Real.pi) input_idle
    (demo_position_state (demo_platform Real.cos Real.pi)).motor 0 rfl
    ⟨rfl, rfl, rfl⟩ ⟨rfl, rfl, rfl⟩
    (by norm_num [demo_position_state, system_init, init_motor_control_system,
      init_pid_controller, demo_platform])).2.2.2.1
    (by norm_num [demo_position_state, system_init, init_motor_control_system, system_zero])
    (by norm_num [demo_platform])

/-! ## The cascade: order of the stages and frame -/

/-- The time stamp that the velocity stage's `pid_compute` call finds in the
static `last_time`. -/
theorem pid_compute_last_time (pid : pid_controller_t α) (error : α) (lt ct : Nat) :
    (pid_compute pid error lt ct).last_time = ct := rfl

/-- The stages of `execute_cascaded_control` after the position stage, in terms
of the velocity setpoint that stage leaves behind. -/
theorem execute_cascaded_control_stages (env : platform_t α) (inp : tick_input α)
    (ctrl : motor_control_t α) (lt : Nat) :
    (execute_cascaded_control env inp ctrl lt).1.velocity_pid =
      (pid_compute ctrl.velocity_pid
        ((execute_cascaded_control env inp ctrl lt).1.velocity_setpoint - ctrl.velocity)
        (if ctrl.state = MOTOR_STATE_POSITION_CONTROL then inp.hal_tick_position else lt)
        inp.hal_tick_velocity).pid ∧
    (execute_cascaded_control env inp ctrl lt).1.current_setpoint =
      (pid_compute ctrl.velocity_pid
        ((execute_cascaded_control env inp ctrl lt).1.velocity_setpoint - ctrl.velocity)
        (if ctrl.state = MOTOR_STATE_POSITION_CONTROL then inp.hal_tick_position else lt)
        inp.hal_tick_velocity).output ∧
    (execute_cascaded_control env inp ctrl lt).1.current_pid =
      (pid_compute ctrl.current_pid
        ((execute_cascaded_control env inp ctrl lt).1.current_setpoint - ctrl.current)
        inp.hal_tick_velocity inp.hal_tick_current).pid ∧
    (execute_cascaded_control env inp ctrl lt).1.pwm_duty =
      space_vector_modulation env.cosf env.M_PI
        (pid_compute ctrl.current_pid
          ((execute_cascaded_control env inp ctrl lt).1.current_setpoint - ctrl.current)
          inp.hal_tick_velocity inp.hal_tick_current).output
        ctrl.position ∧
    (execute_cascaded_control env inp ctrl lt).2 = inp.hal_tick_current := by
  unfold execute_cascaded_control
  by_cases h : ctrl.state = MOTOR_STATE_POSITION_CONTROL
  · rw [if_pos h, if_pos h]
    exact ⟨rfl, rfl, rfl, rfl, rfl⟩
  · rw [if_neg h, if_neg h]
    exact ⟨rfl, rfl, rfl, rfl, rfl⟩

/-- Outside position control the position stage is skipped: the position PID and
the velocity setpoint are the incoming ones. -/
theorem execute_cascaded_control_outer_held (env : platform_t α) (inp : tick_input α)
    (ctrl : motor_control_t α) (lt : Nat) (h : ctrl.state ≠ MOTOR_STATE_POSITION_CONTROL) :
    (execute_cascaded_control env inp ctrl lt).1.position_pid = ctrl.position_pid ∧
    (execute_cascaded_control env inp ctrl lt).1.velocity_setpoint = ctrl.velocity_setpoint := by
  unfold execute_cascaded_control
  rw [if_neg h]
  exact ⟨rfl, rfl⟩

/-- In position control the position PID is the one `pid_compute` returns for
the position error. -/
theorem execute_cascaded_control_position_pid (env : platform_t α) (inp : tick_input α)
    (ctrl : motor_control_t α) (lt : Nat) (h : ctrl.state = MOTOR_STATE_POSITION_CONTROL) :
    (execute_cascaded_control env inp ctrl lt).1.position_pid =
      (pid_compute ctrl.position_pid (ctrl.position_setpoint - ctrl.position) lt
        inp.hal_tick_position).pid := by
  unfold execute_cascaded_control
  rw [if_pos h]

/-- C21: order of the stages in `execute_cascaded_control`.  In
`MOTOR_STATE_POSITION_CONTROL` the position PID runs on `position_setpoint -
position` and its output plus the feedforward term becomes `velocity_setpoint`;
otherwise `velocity_setpoint` is the incoming one.  The velocity PID runs on
that `velocity_setpoint` minus `velocity`, its output becomes
`current_setpoint`, the current PID runs on that `current_setpoint` minus
`current`, and its output is the voltage magnitude given to
`space_vector_modulation`, whose result is stored in `pwm_duty`. -/
theorem C21_cascade_order (env : platform_t α) (inp : tick_input α)
    (ctrl : motor_control_t α) (last_time : Nat) :
    (ctrl.state = MOTOR_STATE_POSITION_CONTROL →
      (execute_cascaded_control env inp ctrl last_time).1.position_pid =
        (pid_compute ctrl.position_pid (ctrl.position_setpoint - ctrl.position) last_time
          inp.hal_tick_position).pid ∧
      (execute_cascaded_control env inp ctrl last_time).1.velocity_setpoint =
        (pid_compute ctrl.position_pid (ctrl.position_setpoint - ctrl.position) last_time
          inp.hal_tick_position).output +
        env.get_velocity_feedforward ctrl.position_setpoint) ∧
    (ctrl.state ≠ MOTOR_STATE_POSITION_CONTROL →
      (execute_cascaded_control env inp ctrl last_time).1.position_pid = ctrl.position_pid ∧
      (execute_cascaded_control env inp ctrl last_time).1.velocity_setpoint =
        ctrl.velocity_setpoint) ∧
    (execute_cascaded_control env inp ctrl last_time).1.velocity_pid =
      (pid_compute ctrl.velocity_pid
        ((execute_cascaded_control env inp ctrl last_time).1.velocity_setpoint - ctrl.velocity)
        (if ctrl.state = MOTOR_STATE_POSITION_CONTROL then inp.hal_tick_position
          else last_time)
        inp.hal_tick_velocity).pid ∧
    (execute_cascaded_control env inp ctrl last_time).1.current_setpoint =
      (pid_compute ctrl.velocity_pid
        ((execute_cascaded_control env inp ctrl last_time).1.velocity_setpoint - ctrl.velocity)
        (if ctrl.state = MOTOR_STATE_POSITION_CONTROL then inp.hal_tick_position
          else last_time)
        inp.hal_tick_velocity).output ∧
    (execute_cascaded_control env inp ctrl last_time).1.current_pid =
      (pid_compute ctrl.current_pid
        ((execute_cascaded_control env inp ctrl last_time).1.current_setpoint - ctrl.current)
        inp.hal_tick_velocity inp.hal_tick_current).pid ∧
    (execute_cascaded_control env inp ctrl last_time).1.pwm_duty =
      space_vector_modulation env.cosf env.M_PI
        (pid_compute ctrl.current_pid
          ((execute_cascaded_control env inp ctrl last_time).1.current_setpoint - ctrl.current)
          inp.hal_tick_velocity inp.hal_tick_current).output
        ctrl.position := by
  obtain ⟨h1, h2, h3, h4, -⟩ := execute_cascaded_control_stages env inp ctrl last_time
  exact ⟨fun h => ⟨execute_cascaded_control_position_pid env inp ctrl last_time h,
      execute_cascaded_control_velocity_setpoint env inp ctrl last_time h⟩,
    fun h => execute_cascaded_control_outer_held env inp ctrl last_time h, h1, h2, h3, h4⟩

/-- C21 at a concrete input: the start-up state switched to position control with
a setpoint of 90 degrees; the velocity setpoint is the position PID output plus
the (zero) feedforward. -/
theorem C21_cascade_order_witness :
    (execute_cascaded_control (demo_platform Real.cos Real.pi) input_idle
      (demo_position_state (demo_platform Real.cos Real.pi)).motor 0).1.velocity_setpoint =
      (pid_compute (demo_position_state (demo_platform Real.cos Real.pi)).motor.position_pid
        ((demo_position_state (demo_platform Real.cos Real.pi)).motor.position_setpoint -
          (demo_position_state (demo_platform Real.cos Real.pi)).motor.position) 0
        (input_idle : tick_input ℝ).hal_tick_position).output +
      (demo_platform Real.cos Real.pi).get_velocity_feedforward
        (demo_position_state (demo_platform Real.cos Real.pi)).motor.position_setpoint :=
  ((C21_cascade_order (demo_platform Real.cos Real.pi) input_idle
    (demo_position_state (demo_platform Real.cos Real.pi)).motor 0).1 rfl).2

/-- C26: the current setpoint present before `execute_cascaded_control` does not
influence its result: replacing `current_setpoint` by any other value leaves
the resulting motor state and time stamp the same, in every mode. -/
theorem C26_current_setpoint_not_read (env : platform_t α) (inp : tick_input α)
    (ctrl : motor_control_t α) (last_time : Nat) (other : α) :
    execute_cascaded_control env inp { ctrl with current_setpoint := other } last_time =
      execute_cascaded_control env inp ctrl last_time := by
  unfold execute_cascaded_control
  by_cases h : ctrl.state = MOTOR_STATE_POSITION_CONTROL
  · rw [if_pos h, if_pos h]
  · rw [if_neg h, if_neg h]

/-- C27: when the state is not `MOTOR_STATE_POSITION_CONTROL`,
`execute_cascaded_control` leaves `position_pid` (hence its `integral`,
`last_error` and `derivative_filtered`) and `velocity_setpoint` unchanged. -/
theorem C27_outer_loop_held (env : platform_t α) (inp : tick_input α)
    (ctrl : motor_control_t α) (last_time : Nat)
    (hstate : ctrl.state ≠ MOTOR_STATE_POSITION_CONTROL) :
    (execute_cascaded_control env inp ctrl last_time).1.position_pid = ctrl.position_pid ∧
    (execute_cascaded_control env inp ctrl last_time).1.position_pid.integral =
      ctrl.position_pid.integral ∧
    (execute_cascaded_control env inp ctrl last_time).1.position_pid.last_error =
      ctrl.position_pid.last_error ∧
    (execute_cascaded_control env inp ctrl last_time).1.position_pid.derivative_filtered =
      ctrl.position_pid.derivative_filtered ∧
    (execute_cascaded_control env inp ctrl last_time).1.velocity_setpoint =
      ctrl.velocity_setpoint := by
  obtain ⟨h1, h2⟩ := execute_cascaded_control_outer_held env inp ctrl last_time hstate
  exact ⟨h1, by rw [h1], by rw [h1], by rw [h1], h2⟩

/-- C27 at a concrete input: the start-up motor state in velocity control with a
velocity error of 1. -/
theorem C27_outer_loop_held_witness :
    (execute_cascaded_control (demo_platform Real.cos Real.pi) input_at_1000
      (demo_cascade_motor (demo_platform Real.cos Real.pi) MOTOR_STATE_VELOCITY_CONTROL)
      999).1.position_pid =
      (demo_cascade_motor (demo_platform Real.cos Real.pi)
        MOTOR_STATE_VELOCITY_CONTROL).position_pid :=
  (C27_outer_loop_held (demo_platform Real.cos Real.pi) input_at_1000
    (demo_cascade_motor (demo_platform Real.cos Real.pi) MOTOR_STATE_VELOCITY_CONTROL) 999
    (by simp [demo_cascade_motor])).1

/-! ## The control tick: what runs on which branch -/

/-- C23: a control tick on which `check_safety_limits` reports a violation runs no
PID stage and no SVM: the three PID controllers (integral, last error, filtered
derivative and all other fields), `velocity_setpoint`, `current_setpoint`,
`position_setpoint` and the static time stamp of `pid_compute` are the same
after the tick as before it, and `update_3phase_pwm` is not called. -/
theorem C23_violation_tick_runs_no_control (env : platform_t α) (inp : tick_input α)
    (s : system_t α) (hctl : inp.is_control_timer = true)
    (hviol : (check_safety_limits env.MAX_MOTOR_TEMPERATURE inp.motor_temperature
      (acquire_feedback inp s).motor).1 = false) :
    (HAL_TIM_PeriodElapsedCallback env inp s).motor.position_pid = s.motor.position_pid ∧
    (HAL_TIM_PeriodElapsedCallback env inp s).motor.velocity_pid = s.motor.velocity_pid ∧
    (HAL_TIM_PeriodElapsedCallback env inp s).motor.current_pid = s.motor.current_pid ∧
    (HAL_TIM_PeriodElapsedCallback env inp s).motor.velocity_setpoint =
      s.motor.velocity_setpoint ∧
    (HAL_TIM_PeriodElapsedCallback env inp s).motor.current_setpoint =
      s.motor.current_setpoint ∧
    (HAL_TIM_PeriodElapsedCallback env inp s).motor.position_setpoint =
      s.motor.position_setpoint ∧
    (HAL_TIM_PeriodElapsedCallback env inp s).last_time = s.last_time ∧
    (HAL_TIM_PeriodElapsedCallback env inp s).hw_calls =
      hw_call.disable_motor_outputs :: s.hw_calls := by
  rw [tick_on_violation env inp s hctl hviol, check_safety_limits_closed]
  exact ⟨rfl, rfl, rfl, rfl, rfl, rfl, rfl, rfl⟩

/-- C23 at a concrete input: the overcurrent tick from the start-up state leaves
the current PID as initialised. -/
theorem C23_violation_tick_runs_no_control_witness :
    (HAL_TIM_PeriodElapsedCallback (demo_platform Real.cos Real.pi) input_overcurrent
      (system_init (demo_platform Real.cos Real.pi))).motor.current_pid =
      (system_init (demo_platform Real.cos Real.pi)).motor.current_pid :=
  (C23_violation_tick_runs_no_control (demo_platform Real.cos Real.pi) input_overcurrent
    (system_init (demo_platform Real.cos Real.pi)) rfl
    (demo_overcurrent_violation Real.cos Real.pi)).2.2.1

/-- C30: on every control tick, whichever branch the safety check takes and
whatever the mode (also from `MOTOR_STATE_FAULT`), `last_encoder_count` becomes
the new raw count, the velocity filter state becomes `0.1 * raw_velocity +
0.9 * old` with the raw velocity of the new sample, `motor.velocity` is the new
filter state, `motor.position` and `motor.encoder_count` are those of the new
sample, and the safety monitor has been run on this new sample. -/
theorem C30_estimator_runs_every_tick (env : platform_t α) (inp : tick_input α)
    (s : system_t α) (hctl : inp.is_control_timer = true) :
    (HAL_TIM_PeriodElapsedCallback env inp s).last_encoder_count = inp.encoder_raw ∧
    (HAL_TIM_PeriodElapsedCallback env inp s).velocity_filter_state =
      1 / 10 * (((wrap_int32 (inp.encoder_raw - s.last_encoder_count) : Int) : α) *
        10000 * 60 / (4 * 4096)) + 9 / 10 * s.velocity_filter_state ∧
    (HAL_TIM_PeriodElapsedCallback env inp s).motor.velocity =
      (HAL_TIM_PeriodElapsedCallback env inp s).velocity_filter_state ∧
    (HAL_TIM_PeriodElapsedCallback env inp s).motor.position =
      (inp.encoder_raw : α) * 360 / (4 * 4096) ∧
    (HAL_TIM_PeriodElapsedCallback env inp s).motor.encoder_count = inp.encoder_raw ∧
    (HAL_TIM_PeriodElapsedCallback env inp s).motor.faults =
      (check_safety_limits env.MAX_MOTOR_TEMPERATURE inp.motor_temperature
        (acquire_feedback inp s).motor).2.faults := by
  obtain ⟨h1, h2, h3, h4, h5, -⟩ := tick_feedback env inp s hctl
  obtain ⟨a1, a2, a3⟩ := acquire_feedback_velocity inp s
  refine ⟨by rw [h2, a3], by rw [h1, a1], by rw [h3, h1, a2], ?_, by rw [h5]; rfl, ?_⟩
  · rw [h4]
    simp only [acquire_feedback, ENCODER_PPR]
    norm_num
  · cases hchk : (check_safety_limits env.MAX_MOTOR_TEMPERATURE inp.motor_temperature
        (acquire_feedback inp s).motor).1 with
    | false => rw [tick_on_violation env inp s hctl hchk]
    | true =>
      rw [tick_safe env inp s hctl hchk]
      exact execute_cascaded_control_faults _ _ _ _

/-- C30 at a concrete input: an overcurrent tick with the encoder at 100 counts,
starting in the Fault state. -/
theorem C30_estimator_runs_every_tick_witness :
    (HAL_TIM_PeriodElapsedCallback (demo_platform Real.cos Real.pi)
      (⟨true, 100, 6, 25, 0, 0, 0⟩ : tick_input ℝ)
      (demo_fault_state Real.cos Real.pi)).last_encoder_count = 100 ∧
    (HAL_TIM_PeriodElapsedCallback (demo_platform Real.cos Real.pi)
      (⟨true, 100, 6, 25, 0, 0, 0⟩ : tick_input ℝ)
      (demo_fault_state Real.cos Real.pi)).motor.encoder_count = 100 :=
  ⟨(C30_estimator_runs_every_tick (demo_platform Real.cos Real.pi)
      (⟨true, 100, 6, 25, 0, 0, 0⟩ : tick_input ℝ) (demo_fault_state Real.cos Real.pi) rfl).1,
   (C30_estimator_runs_every_tick (demo_platform Real.cos Real.pi)
      (⟨true, 100, 6, 25, 0, 0, 0⟩ : tick_input ℝ)
      (demo_fault_state Real.cos Real.pi) rfl).2.2.2.2.1⟩

/-- In the start-up state, readings within all limits with the encoder at 0 pass
the safety check. -/
theorem demo_init_safe (cosf : α → α) (M_PI : α) (inp : tick_input α)
    (henc : inp.encoder_raw = 0) (hcur : |inp.motor_current| ≤ 5)
    (htemp : inp.motor_temperature ≤ 100) :
    (check_safety_limits (demo_platform cosf M_PI).MAX_MOTOR_TEMPERATURE inp.motor_temperature
      (acquire_feedback inp (system_init (demo_platform cosf M_PI))).motor).1 = true := by
  rw [check_safety_limits_closed]
  simp only [acquire_feedback, henc, system_init, init_motor_control_system,
    system_zero, demo_platform, wrap_int32]
  norm_num [not_lt.mpr hcur, not_lt.mpr htemp]

/-- C24 (as stated) fails: in the Ready state right after
`init_motor_control_system`, a tick with readings within all limits (current
1 A) runs the current PID, whose `last_error` changes from 0 to -1, and calls
`update_3phase_pwm`; the state stays Ready. -/
theorem C24_ready_tick_runs_control :
    (system_init (demo_platform Real.cos Real.pi)).motor.state = MOTOR_STATE_READY ∧
    (system_init (demo_platform Real.cos Real.pi)).motor.current_pid.last_error = 0 ∧
    (HAL_TIM_PeriodElapsedCallback (demo_platform Real.cos Real.pi) input_nominal
      (system_init (demo_platform Real.cos Real.pi))).motor.current_pid.last_error = -1 ∧
    (HAL_TIM_PeriodElapsedCallback (demo_platform Real.cos Real.pi) input_nominal
      (system_init (demo_platform Real.cos Real.pi))).hw_calls =
      [hw_call.update_3phase_pwm
        (HAL_TIM_PeriodElapsedCallback (demo_platform Real.cos Real.pi) input_nominal
          (system_init (demo_platform Real.cos Real.pi))).motor.pwm_duty] ∧
    (HAL_TIM_PeriodElapsedCallback (demo_platform Real.cos Real.pi) input_nominal
      (system_init (demo_platform Real.cos Real.pi))).motor.state = MOTOR_STATE_READY := by
  have hsafe := demo_init_safe Real.cos Real.pi input_nominal rfl
    (by norm_num [input_nominal]) (by norm_num [input_nominal])
  refine ⟨rfl, rfl, ?_, ?_, ?_⟩
  · rw [tick_safe _ _ _ rfl hsafe]
    show (execute_cascaded_control _ _ _ _).1.current_pid.last_error = _
    rw [(execute_cascaded_control_stages _ _ _ _).2.2.1, pid_compute_unfold,
      (execute_cascaded_control_stages _ _ _ _).2.1, pid_compute_unfold,
      (execute_cascaded_control_outer_held _ _ _ _
        (by rw [check_safety_limits_state]; simp [acquire_feedback, system_init,
          init_motor_control_system])).2]
    rw [(pid_compute_integral _ _ _ _).1]
    simp only [check_safety_limits_closed]
    simp only [acquire_feedback, system_init, init_motor_control_system, system_zero,
      input_nominal, init_pid_controller, demo_platform, wrap_int32]
    norm_num
  · rw [tick_safe _ _ _ rfl hsafe]
    rfl
  · rw [tick_safe _ _ _ rfl hsafe]
    show (execute_cascaded_control _ _ _ _).1.state = _
    rw [execute_cascaded_control_state, check_safety_limits_state]
    rfl

/-- C24 (amended): after `init_motor_control_system` the state is
`MOTOR_STATE_READY`.  A control tick in the Ready state skips only the position
stage: `position_pid`, `velocity_setpoint` and `position_setpoint` are
unchanged.  When the readings are within all limits the tick runs
`execute_cascaded_control` (velocity PID, current PID, SVM) and passes the
duties to `update_3phase_pwm`, and the state stays Ready; when a reading
violates a limit no PID stage and no SVM runs (the velocity and current PID
controllers, `current_setpoint` and the static time stamp of `pid_compute` are
unchanged, `pwm_duty` is zero), the only output call is
`disable_motor_outputs` and the state becomes Fault. -/
theorem C24_tick_in_ready (env : platform_t α) (inp : tick_input α) (s : system_t α)
    (hready : s.motor.state = MOTOR_STATE_READY) (hctl : inp.is_control_timer = true) :
    (∀ s0 : system_t α, (init_motor_control_system env s0).motor.state = MOTOR_STATE_READY) ∧
    (HAL_TIM_PeriodElapsedCallback env inp s).motor.position_pid = s.motor.position_pid ∧
    (HAL_TIM_PeriodElapsedCallback env inp s).motor.velocity_setpoint =
      s.motor.velocity_setpoint ∧
    (HAL_TIM_PeriodElapsedCallback env inp s).motor.position_setpoint =
      s.motor.position_setpoint ∧
    ((check_safety_limits env.MAX_MOTOR_TEMPERATURE inp.motor_temperature
        (acquire_feedback inp s).motor).1 = true →
      (HAL_TIM_PeriodElapsedCallback env inp s).motor =
        (execute_cascaded_control env inp
          (check_safety_limits env.MAX_MOTOR_TEMPERATURE inp.motor_temperature
            (acquire_feedback inp s).motor).2 s.last_time).1 ∧
      (HAL_TIM_PeriodElapsedCallback env inp s).last_time =
        (execute_cascaded_control env inp
          (check_safety_limits env.MAX_MOTOR_TEMPERATURE inp.motor_temperature
            (acquire_feedback inp s).motor).2 s.last_time).2 ∧
      (HAL_TIM_PeriodElapsedCallback env inp s).hw_calls =
        hw_call.update_3phase_pwm (HAL_TIM_PeriodElapsedCallback env inp s).motor.pwm_duty ::
          s.hw_calls ∧
      (HAL_TIM_PeriodElapsedCallback env inp s).motor.state = MOTOR_STATE_READY) ∧
    ((check_safety_limits env.MAX_MOTOR_TEMPERATURE inp.motor_temperature
        (acquire_feedback inp s).motor).1 = false →
      (HAL_TIM_PeriodElapsedCallback env inp s).motor.velocity_pid = s.motor.velocity_pid ∧
      (HAL_TIM_PeriodElapsedCallback env inp s).motor.current_pid = s.motor.current_pid ∧
      (HAL_TIM_PeriodElapsedCallback env inp s).motor.current_setpoint =
        s.motor.current_setpoint ∧
      (HAL_TIM_PeriodElapsedCallback env inp s).last_time = s.last_time ∧
      (HAL_TIM_PeriodElapsedCallback env inp s).motor.pwm_duty = (0, 0, 0) ∧
      (HAL_TIM_PeriodElapsedCallback env inp s).hw_calls =
        hw_call.disable_motor_outputs :: s.hw_calls ∧
      (HAL_TIM_PeriodElapsedCallback env inp s).motor.state = MOTOR_STATE_FAULT) := by
  have hst : (check_safety_limits env.MAX_MOTOR_TEMPERATURE inp.motor_temperature
      (acquire_feedback inp s).motor).2.state ≠ MOTOR_STATE_POSITION_CONTROL := by
    rw [check_safety_limits_state, acquire_feedback_state, hready]
    exact fun h => motor_state_t.noConfusion h
  have hframe : (HAL_TIM_PeriodElapsedCallback env inp s).motor.position_pid =
        s.motor.position_pid ∧
      (HAL_TIM_PeriodElapsedCallback env inp s).motor.velocity_setpoint =
        s.motor.velocity_setpoint ∧
      (HAL_TIM_PeriodElapsedCallback env inp s).motor.position_setpoint =
        s.motor.position_setpoint := by
    cases hchk : (check_safety_limits env.MAX_MOTOR_TEMPERATURE inp.motor_temperature
        (acquire_feedback inp s).motor).1 with
    | false =>
      rw [tick_on_violation env inp s hctl hchk, check_safety_limits_closed]
      exact ⟨rfl, rfl, rfl⟩
    | true =>
      rw [tick_safe env inp s hctl hchk]
      obtain ⟨h1, h2⟩ := execute_cascaded_control_outer_held env inp _ s.last_time hst
      obtain ⟨⟨h3, -⟩, -⟩ := execute_cascaded_control_frame env inp
        (check_safety_limits env.MAX_MOTOR_TEMPERATURE inp.motor_temperature
          (acquire_feedback inp s).motor).2 s.last_time
      refine ⟨?_, ?_, ?_⟩
      · show (execute_cascaded_control _ _ _ _).1.position_pid = _
        rw [h1, check_safety_limits_closed]; rfl
      · show (execute_cascaded_control _ _ _ _).1.velocity_setpoint = _
        rw [h2, check_safety_limits_closed]; rfl
      · show (execute_cascaded_control _ _ _ _).1.position_setpoint = _
        rw [h3, check_safety_limits_closed]; rfl
  refine ⟨fun s0 => rfl, hframe.1, hframe.2.1, hframe.2.2, fun hchk => ?_, fun hchk => ?_⟩
  · rw [tick_safe env inp s hctl hchk]
    refine ⟨rfl, rfl, rfl, ?_⟩
    show (execute_cascaded_control _ _ _ _).1.state = _
    rw [execute_cascaded_control_state, check_safety_limits_state, acquire_feedback_state,
      hready]
  · rw [tick_on_violation env inp s hctl hchk, check_safety_limits_closed]
    exact ⟨rfl, rfl, rfl, rfl, rfl, rfl, rfl⟩

/-- C24 (amended) at concrete inputs, both from the start-up state: a tick with a
current of 1 A keeps the state Ready and passes the duties to
`update_3phase_pwm`; a tick with a current of 6 A leaves the current PID as
initialised, calls only `disable_motor_outputs` and ends in Fault. -/
theorem C24_tick_in_ready_witness :
    ((HAL_TIM_PeriodElapsedCallback (demo_platform Real.cos Real.pi) input_nominal
        (system_init (demo_platform Real.cos Real.pi))).motor.state = MOTOR_STATE_READY ∧
      (HAL_TIM_PeriodElapsedCallback (demo_platform Real.cos Real.pi) input_nominal
        (system_init (demo_platform Real.cos Real.pi))).hw_calls =
        hw_call.update_3phase_pwm
          (HAL_TIM_PeriodElapsedCallback (demo_platform Real.cos Real.pi) input_nominal
            (system_init (demo_platform Real.cos Real.pi))).motor.pwm_duty ::
          (system_init (demo_platform Real.cos Real.pi)).hw_calls) ∧
    ((HAL_TIM_PeriodElapsedCallback (demo_platform Real.cos Real.pi) input_overcurrent
        (system_init (demo_platform Real.cos Real.pi))).motor.current_pid =
        (system_init (demo_platform Real.cos Real.pi)).motor.current_pid ∧
      (HAL_TIM_PeriodElapsedCallback (demo_platform Real.cos Real.pi) input_overcurrent
        (system_init (demo_platform Real.cos Real.pi))).hw_calls =
        hw_call.disable_motor_outputs ::
          (system_init (demo_platform Real.cos Real.pi)).hw_calls ∧
      (HAL_TIM_PeriodElapsedCallback (demo_platform Real.cos Real.pi) input_overcurrent
        (system_init (demo_platform Real.cos Real.pi))).motor.state = MOTOR_STATE_FAULT) :=
  ⟨⟨((C24_tick_in_ready (demo_platform Real.cos Real.pi) input_nominal
        (system_init (demo_platform Real.cos Real.pi)) rfl rfl).2.2.2.2.1
        (demo_init_safe Real.cos Real.pi input_nominal rfl
          (by norm_num [input_nominal]) (by norm_num [input_nominal]))).2.2.2,
     ((C24_tick_in_ready (demo_platform Real.cos Real.pi) input_nominal
        (system_init (demo_platform Real.cos Real.pi)) rfl rfl).2.2.2.2.1
        (demo_init_safe Real.cos Real.pi input_nominal rfl
          (by norm_num [input_nominal]) (by norm_num [input_nominal]))).2.2.1⟩,
   ⟨((C24_tick_in_ready (demo_platform Real.cos Real.pi) input_overcurrent
        (system_init (demo_platform Real.cos Real.pi)) rfl rfl).2.2.2.2.2
        (demo_overcurrent_violation Real.cos Real.pi)).2.1,
     ((C24_tick_in_ready (demo_platform Real.cos Real.pi) input_overcurrent
        (system_init (demo_platform Real.cos Real.pi)) rfl rfl).2.2.2.2.2
        (demo_overcurrent_violation Real.cos Real.pi)).2.2.2.2.2.1,
     ((C24_tick_in_ready (demo_platform Real.cos Real.pi) input_overcurrent
        (system_init (demo_platform Real.cos Real.pi)) rfl rfl).2.2.2.2.2
        (demo_overcurrent_violation Real.cos Real.pi)).2.2.2.2.2.2⟩⟩

/-! ## Velocity estimator: counter wrap-around -/

/-- C25: the velocity estimator applies no wrap-around correction.  On a control
tick whose counter difference `encoder_raw - last_encoder_count` fits the
`int32_t` subtraction of the source, the raw velocity that enters the filter is
that plain difference times `10000 * 60 / 16384`.  In particular, when the
counter goes from a maximum value `M` to 0, the raw velocity of that tick is
`-M * 10000 * 60 / 16384`, which is not the `+1 * 10000 * 60 / 16384` of a
one-count advance. -/
theorem C25_no_wraparound_correction (env : platform_t α) (inp : tick_input α)
    (s : system_t α) (hctl : inp.is_control_timer = true) :
    ((-2147483648 ≤ inp.encoder_raw - s.last_encoder_count ∧
        inp.encoder_raw - s.last_encoder_count < 2147483648) →
      (HAL_TIM_PeriodElapsedCallback env inp s).velocity_filter_state =
        1 / 10 * (((inp.encoder_raw - s.last_encoder_count : Int) : α) * 10000 * 60 / 16384) +
          9 / 10 * s.velocity_filter_state) ∧
    (∀ M : Int, 0 < M → M < 2147483648 → s.last_encoder_count = M → inp.encoder_raw = 0 →
      (HAL_TIM_PeriodElapsedCallback env inp s).velocity_filter_state =
        1 / 10 * (-(M : α) * 10000 * 60 / 16384) + 9 / 10 * s.velocity_filter_state ∧
      -(M : α) * 10000 * 60 / 16384 ≠ 1 * 10000 * 60 / 16384) := by
  obtain ⟨h1, -, -, -, -, -⟩ := tick_feedback env inp s hctl
  obtain ⟨a1, -, -⟩ := acquire_feedback_velocity inp s
  have hgen : (-2147483648 ≤ inp.encoder_raw - s.last_encoder_count ∧
        inp.encoder_raw - s.last_encoder_count < 2147483648) →
      (HAL_TIM_PeriodElapsedCallback env inp s).velocity_filter_state =
        1 / 10 * (((inp.encoder_raw - s.last_encoder_count : Int) : α) * 10000 * 60 / 16384) +
          9 / 10 * s.velocity_filter_state := by
    intro hr
    rw [h1, a1, wrap_int32_of_mem _ hr.1 hr.2]
    norm_num
  refine ⟨hgen, fun M hM0 hM1 hlast henc => ?_⟩
  have hdiff : inp.encoder_raw - s.last_encoder_count = -M := by rw [henc, hlast]; ring
  constructor
  · rw [hgen (by rw [hdiff]; constructor <;> omega), hdiff]
    push_cast
    ring
  · have hMpos : (0 : α) < (M : α) := Int.cast_pos.mpr hM0
    intro heq
    have h2 : -(M : α) * 10000 * 60 = 1 * 10000 * 60 := by
      have h16 : (16384 : α) ≠ 0 := by norm_num
      field_simp at heq
      linarith
    linarith

/-- C25 at a concrete input: a 16-bit counter that goes from 65535 to 0. -/
theorem C25_no_wraparound_correction_witness :
    (HAL_TIM_PeriodElapsedCallback (demo_platform Real.cos Real.pi) input_idle
      { system_init (demo_platform Real.cos Real.pi) with
        last_encoder_count := 65535 }).velocity_filter_state =
      1 / 10 * (-((65535 : Int) : ℝ) * 10000 * 60 / 16384) +
        9 / 10 * (system_init (demo_platform Real.cos Real.pi)).velocity_filter_state :=
  ((C25_no_wraparound_correction (demo_platform Real.cos Real.pi) input_idle
    { system_init (demo_platform Real.cos Real.pi) with last_encoder_count := 65535 } rfl).2
    65535 (by norm_num) (by norm_num) rfl rfl).1

/-! ## Space vector modulation: symmetry and line-to-line voltages -/

/-- The clamp loop as a composition of `max` and `min`. -/
theorem clamp_duty_eq (d : α) : clamp_duty d = min (max d 0) 1 := by
  unfold clamp_duty
  simp only []
  by_cases h0 : d < 0
  · rw [if_pos h0, max_eq_right (le_of_lt h0), if_neg (not_lt.mpr zero_le_one),
      min_eq_left zero_le_one]
  · rw [if_neg h0, max_eq_left (not_lt.mp h0)]
    by_cases h1 : d > 1
    · rw [if_pos h1, min_eq_right (le_of_lt h1)]
    · rw [if_neg h1, min_eq_left (not_lt.mp h1)]

theorem clamp_duty_mono : Monotone (clamp_duty : α → α) := by
  intro a b h
  rw [clamp_duty_eq, clamp_duty_eq]
  exact min_le_min (max_le_max h (le_refl 0)) (le_refl 1)

/-- Clamping a duty and its mirror image about 1/2 gives mirror images. -/
theorem clamp_duty_mirror (x : α) : clamp_duty x + clamp_duty (1 - x) = 1 := by
  unfold clamp_duty
  simp only []
  split_ifs <;> linarith

/-- The largest and the smallest centred duty are those of the largest and the
smallest phase voltage, before and after the clamp. -/
theorem svm_extreme_duties (a b c vcom : α) :
    max (max ((a - vcom + 1) / 2) ((b - vcom + 1) / 2)) ((c - vcom + 1) / 2) =
      (max (max a b) c - vcom + 1) / 2 ∧
    min (min ((a - vcom + 1) / 2) ((b - vcom + 1) / 2)) ((c - vcom + 1) / 2) =
      (min (min a b) c - vcom + 1) / 2 ∧
    max (max (clamp_duty ((a - vcom + 1) / 2)) (clamp_duty ((b - vcom + 1) / 2)))
        (clamp_duty ((c - vcom + 1) / 2)) =
      clamp_duty ((max (max a b) c - vcom + 1) / 2) ∧
    min (min (clamp_duty ((a - vcom + 1) / 2)) (clamp_duty ((b - vcom + 1) / 2)))
        (clamp_duty ((c - vcom + 1) / 2)) =
      clamp_duty ((min (min a b) c - vcom + 1) / 2) := by
  have hg : Monotone (fun v : α => (v - vcom + 1) / 2) := by
    intro x y h
    show (x - vcom + 1) / 2 ≤ (y - vcom + 1) / 2
    apply div_le_div_of_nonneg_right _ (zero_le_two)
    linarith
  have hcg : Monotone (fun v : α => clamp_duty ((v - vcom + 1) / 2)) :=
    clamp_duty_mono.comp hg
  have e1 : (max (max a b) c - vcom + 1) / 2 =
      max ((max a b - vcom + 1) / 2) ((c - vcom + 1) / 2) := hg.map_max
  have e2 : (max a b - vcom + 1) / 2 = max ((a - vcom + 1) / 2) ((b - vcom + 1) / 2) :=
    hg.map_max
  have e3 : (min (min a b) c - vcom + 1) / 2 =
      min ((min a b - vcom + 1) / 2) ((c - vcom + 1) / 2) := hg.map_min
  have e4 : (min a b - vcom + 1) / 2 = min ((a - vcom + 1) / 2) ((b - vcom + 1) / 2) :=
    hg.map_min
  have e5 : clamp_duty ((max (max a b) c - vcom + 1) / 2) =
      max (clamp_duty ((max a b - vcom + 1) / 2)) (clamp_duty ((c - vcom + 1) / 2)) :=
    hcg.map_max
  have e6 : clamp_duty ((max a b - vcom + 1) / 2) =
      max (clamp_duty ((a - vcom + 1) / 2)) (clamp_duty ((b - vcom + 1) / 2)) := hcg.map_max
  have e7 : clamp_duty ((min (min a b) c - vcom + 1) / 2) =
      min (clamp_duty ((min a b - vcom + 1) / 2)) (clamp_duty ((c - vcom + 1) / 2)) :=
    hcg.map_min
  have e8 : clamp_duty ((min a b - vcom + 1) / 2) =
      min (clamp_duty ((a - vcom + 1) / 2)) (clamp_duty ((b - vcom + 1) / 2)) := hcg.map_min
  exact ⟨by rw [e1, e2], by rw [e3, e4], by rw [e5, e6], by rw [e7, e8]⟩

/-- C28: for every voltage magnitude and angle (and whatever the cosine returns),
the largest and the smallest of the three duties of `space_vector_modulation`
sum to exactly 1, before the clamp loop and after it; hence the largest duty
is 1 if and only if the smallest is 0. -/
theorem C28_centring_symmetry (cosf : α → α) (M_PI voltage_magnitude angle : α) :
    max (max (svm_unclamped cosf M_PI voltage_magnitude angle).1
          (svm_unclamped cosf M_PI voltage_magnitude angle).2.1)
        (svm_unclamped cosf M_PI voltage_magnitude angle).2.2 +
      min (min (svm_unclamped cosf M_PI voltage_magnitude angle).1
          (svm_unclamped cosf M_PI voltage_magnitude angle).2.1)
        (svm_unclamped cosf M_PI voltage_magnitude angle).2.2 = 1 ∧
    max (max (space_vector_modulation cosf M_PI voltage_magnitude angle).1
          (space_vector_modulation cosf M_PI voltage_magnitude angle).2.1)
        (space_vector_modulation cosf M_PI voltage_magnitude angle).2.2 +
      min (min (space_vector_modulation cosf M_PI voltage_magnitude angle).1
          (space_vector_modulation cosf M_PI voltage_magnitude angle).2.1)
        (space_vector_modulation cosf M_PI voltage_magnitude angle).2.2 = 1 ∧
    (max (max (space_vector_modulation cosf M_PI voltage_magnitude angle).1
          (space_vector_modulation cosf M_PI voltage_magnitude angle).2.1)
        (space_vector_modulation cosf M_PI voltage_magnitude angle).2.2 = 1 ↔
      min (min (space_vector_modulation cosf M_PI voltage_magnitude angle).1
          (space_vector_modulation cosf M_PI voltage_magnitude angle).2.1)
        (space_vector_modulation cosf M_PI voltage_magnitude angle).2.2 = 0) := by
  obtain ⟨h1, h2, h3, h4⟩ := svm_extreme_duties
    (svm_phases cosf M_PI voltage_magnitude angle).1
    (svm_phases cosf M_PI voltage_magnitude angle).2.1
    (svm_phases cosf M_PI voltage_magnitude angle).2.2
    (svm_vcom (svm_phases cosf M_PI voltage_magnitude angle).1
      (svm_phases cosf M_PI voltage_magnitude angle).2.1
      (svm_phases cosf M_PI voltage_magnitude angle).2.2)
  have hmirror : (min (min (svm_phases cosf M_PI voltage_magnitude angle).1
        (svm_phases cosf M_PI voltage_magnitude angle).2.1)
        (svm_phases cosf M_PI voltage_magnitude angle).2.2 -
      svm_vcom (svm_phases cosf M_PI voltage_magnitude angle).1
        (svm_phases cosf M_PI voltage_magnitude angle).2.1
        (svm_phases cosf M_PI voltage_magnitude angle).2.2 + 1) / 2 =
      1 - (max (max (svm_phases cosf M_PI voltage_magnitude angle).1
        (svm_phases cosf M_PI voltage_magnitude angle).2.1)
        (svm_phases cosf M_PI voltage_magnitude angle).2.2 -
      svm_vcom (svm_phases cosf M_PI voltage_magnitude angle).1
        (svm_phases cosf M_PI voltage_magnitude angle).2.1
        (svm_phases cosf M_PI voltage_magnitude angle).2.2 + 1) / 2 := by
    unfold svm_vcom
    ring
  have hu : max (max (svm_unclamped cosf M_PI voltage_magnitude angle).1
          (svm_unclamped cosf M_PI voltage_magnitude angle).2.1)
        (svm_unclamped cosf M_PI voltage_magnitude angle).2.2 +
      min (min (svm_unclamped cosf M_PI voltage_magnitude angle).1
          (svm_unclamped cosf M_PI voltage_magnitude angle).2.1)
        (svm_unclamped cosf M_PI voltage_magnitude angle).2.2 = 1 := by
    dsimp only [svm_unclamped]
    rw [h1, h2, hmirror]
    ring
  have hd : max (max (space_vector_modulation cosf M_PI voltage_magnitude angle).1
          (space_vector_modulation cosf M_PI voltage_magnitude angle).2.1)
        (space_vector_modulation cosf M_PI voltage_magnitude angle).2.2 +
      min (min (space_vector_modulation cosf M_PI voltage_magnitude angle).1
          (space_vector_modulation cosf M_PI voltage_magnitude angle).2.1)
        (space_vector_modulation cosf M_PI voltage_magnitude angle).2.2 = 1 := by
    dsimp only [space_vector_modulation, svm_unclamped]
    rw [h3, h4, hmirror]
    exact clamp_duty_mirror _
  refine ⟨hu, hd, fun h => ?_, fun h => ?_⟩
  · rw [h] at hd; linarith
  · rw [h] at hd; linarith

/-- C29: when no duty is clamped (the output of `space_vector_modulation` is the
triple of unclamped duties), the difference of any two output duties is half
the difference of the corresponding phase reference voltages; `vcom` drops
out. -/
theorem C29_line_to_line_preserved (cosf : α → α) (M_PI voltage_magnitude angle : α)
    (hnoclamp : space_vector_modulation cosf M_PI voltage_magnitude angle =
      svm_unclamped cosf M_PI voltage_magnitude angle) :
    (space_vector_modulation cosf M_PI voltage_magnitude angle).1 -
        (space_vector_modulation cosf M_PI voltage_magnitude angle).2.1 =
      voltage_magnitude * (cosf angle - cosf (angle - 2 * M_PI / 3)) / 2 ∧
    (space_vector_modulation cosf M_PI voltage_magnitude angle).1 -
        (space_vector_modulation cosf M_PI voltage_magnitude angle).2.2 =
      voltage_magnitude * (cosf angle - cosf (angle + 2 * M_PI / 3)) / 2 ∧
    (space_vector_modulation cosf M_PI voltage_magnitude angle).2.1 -
        (space_vector_modulation cosf M_PI voltage_magnitude angle).2.2 =
      voltage_magnitude * (cosf (angle - 2 * M_PI / 3) - cosf (angle + 2 * M_PI / 3)) / 2 := by
  rw [hnoclamp]
  dsimp only [svm_unclamped, svm_phases]
  refine ⟨?_, ?_, ?_⟩ <;> ring

/-- C29 at a concrete input: magnitude 1 at angle 0 over the reals, where no duty
is clamped. -/
theorem C29_line_to_line_preserved_witness :
    (space_vector_modulation Real.cos Real.pi 1 0).1 -
        (space_vector_modulation Real.cos Real.pi 1 0).2.1 =
      1 * (Real.cos 0 - Real.cos (0 - 2 * Real.pi / 3)) / 2 :=
  (C29_line_to_line_preserved Real.cos Real.pi 1 0
    (svm_unclipped 1 0 (by
      rw [abs_one]
      exact le_of_lt one_lt_two_div_sqrt_three))).1

/-! ## The angle given to the modulator -/

/-- The three phase voltages sum to zero. -/
theorem svm_phases_sum_zero (V θ : ℝ) :
    (svm_phases Real.cos Real.pi V θ).1 + (svm_phases Real.cos Real.pi V θ).2.1 +
      (svm_phases Real.cos Real.pi V θ).2.2 = 0 := by
  simp only [svm_phases]
  rw [Real.cos_sub, Real.cos_add, cos_two_pi_div_three]
  ring

/-- For phase voltages that sum to zero, the phase A duty is exactly 1/2 if and
only if the phase A voltage is zero. -/
theorem svm_duty_a_half_iff (a b c : α) (hsum : a + b + c = 0) :
    clamp_duty ((a - svm_vcom a b c + 1) / 2) = 1 / 2 ↔ a = 0 := by
  have hma : min (min a b) c ≤ a := le_trans (min_le_left _ _) (min_le_left _ _)
  have hmb : min (min a b) c ≤ b := le_trans (min_le_left _ _) (min_le_right _ _)
  have hmc : min (min a b) c ≤ c := min_le_right _ _
  have haM : a ≤ max (max a b) c := le_trans (le_max_left _ _) (le_max_left _ _)
  have hbM : b ≤ max (max a b) c := le_trans (le_max_right _ _) (le_max_left _ _)
  have hcM : c ≤ max (max a b) c := le_max_right _ _
  have hM := svm_max_cases a b c
  have hm : min (min a b) c = a ∨ min (min a b) c = b ∨ min (min a b) c = c := by
    rcases min_choice (min a b) c with h1 | h1 <;> rcases min_choice a b with h2 | h2 <;>
    rw [h1] <;> (try rw [h2]) <;> simp only [true_or, or_true]
  have hclamp : clamp_duty ((a - svm_vcom a b c + 1) / 2) = 1 / 2 ↔
      (a - svm_vcom a b c + 1) / 2 = 1 / 2 := by
    unfold clamp_duty
    simp only []
    constructor
    · intro h
      split_ifs at h with h1 h2 h3
      · norm_num at h
      · norm_num at h
      · norm_num at h
      · exact h
    · intro h
      rw [h]
      norm_num
  rw [hclamp]
  unfold svm_vcom
  simp only []
  generalize max (max a b) c = M at *
  generalize min (min a b) c = m at *
  constructor
  · intro h
    have h2 : 2 * a = m + M := by linarith
    rcases hM with h | h | h <;> rcases hm with h' | h' | h' <;> linarith
  · intro h
    have hmM : m + M = 0 := by
      rcases hM with h1 | h1 | h1 <;> rcases hm with h' | h' | h' <;> linarith
    rw [h, hmM]
    norm_num

/-- The number 90 is not an odd multiple of `pi / 2`. -/
theorem cos_ninety_ne_zero : Real.cos 90 ≠ 0 := by
  intro h
  obtain ⟨k, hk⟩ := Real.cos_eq_zero_iff.mp h
  have hpi1 := Real.pi_gt_d2
  have hpi2 := Real.pi_lt_d2
  have hk2 : (2 * (k : ℝ) + 1) * Real.pi = 180 := by linarith
  rcases le_or_lt k 28 with hle | hgt
  · have hkr : (k : ℝ) ≤ 28 := by exact_mod_cast hle
    have hpos : (0 : ℝ) < 2 * (k : ℝ) + 1 := by
      by_contra hneg
      push_neg at hneg
      nlinarith
    nlinarith
  · have hkr : (29 : ℝ) ≤ (k : ℝ) := by exact_mod_cast hgt
    nlinarith

/-- Over the reals the phase A duty is exactly 1/2 if and only if the phase A
reference voltage is zero. -/
theorem svm_duty_a_half_real (V θ : ℝ) :
    (space_vector_modulation Real.cos Real.pi V θ).1 = 1 / 2 ↔ V * Real.cos θ = 0 :=
  svm_duty_a_half_iff _ _ _ (svm_phases_sum_zero V θ)

/-- With the rotor at rest at 4096 counts, the readings of `input_quarter_turn`
pass the safety check. -/
theorem demo_quarter_turn_safe (cosf : α → α) (M_PI : α) :
    (check_safety_limits (demo_platform cosf M_PI).MAX_MOTOR_TEMPERATURE
      (input_quarter_turn : tick_input α).motor_temperature
      (acquire_feedback input_quarter_turn
        (demo_quarter_turn_state (demo_platform cosf M_PI))).motor).1 = true := by
  rw [check_safety_limits_closed]
  simp only [acquire_feedback, input_quarter_turn, demo_quarter_turn_state, system_init,
    init_motor_control_system, system_zero, demo_platform, wrap_int32, ENCODER_PPR,
    CONTROL_FREQUENCY]
  norm_num [abs_of_pos]

/-- C22 (the code at the failing input): the rotor at rest at 4096 counts, that
is 90 degrees or `90 * pi / 180` radians, and a current of 0.1 A.  The tick is
safe, `motor.position` is 90, the voltage command is -0.2002, and `pwm_duty` is
the modulator's output for the angle 90, not for the angle `90 * pi / 180`: the
phase A duty differs from the one at that angle. -/
theorem C22_modulator_angle_in_degrees :
    (HAL_TIM_PeriodElapsedCallback (demo_platform Real.cos Real.pi) input_quarter_turn
      (demo_quarter_turn_state (demo_platform Real.cos Real.pi))).motor.position = 90 ∧
    (HAL_TIM_PeriodElapsedCallback (demo_platform Real.cos Real.pi) input_quarter_turn
      (demo_quarter_turn_state (demo_platform Real.cos Real.pi))).motor.pwm_duty =
      space_vector_modulation Real.cos Real.pi (-1001 / 5000) 90 ∧
    (HAL_TIM_PeriodElapsedCallback (demo_platform Real.cos Real.pi) input_quarter_turn
      (demo_quarter_turn_state (demo_platform Real.cos Real.pi))).motor.pwm_duty.1 ≠
      (space_vector_modulation Real.cos Real.pi (-1001 / 5000) (90 * Real.pi / 180)).1 := by
  have hsafe := demo_quarter_turn_safe Real.cos Real.pi
  have hpos : (HAL_TIM_PeriodElapsedCallback (demo_platform Real.cos Real.pi)
      input_quarter_turn
      (demo_quarter_turn_state (demo_platform Real.cos Real.pi))).motor.position = 90 := by
    rw [(tick_feedback _ _ _ rfl).2.2.2.1]
    simp only [acquire_feedback, input_quarter_turn, ENCODER_PPR]
    norm_num
  have hst : (check_safety_limits (demo_platform Real.cos Real.pi).MAX_MOTOR_TEMPERATURE
      (input_quarter_turn : tick_input ℝ).motor_temperature
      (acquire_feedback input_quarter_turn
        (demo_quarter_turn_state (demo_platform Real.cos Real.pi))).motor).2.state ≠
      MOTOR_STATE_POSITION_CONTROL := by
    rw [check_safety_limits_state]
    simp [acquire_feedback, demo_quarter_turn_state, system_init, init_motor_control_system]
  have hdt0 : (pid_dt 0 0 : ℝ) = 1 / 10000 := pid_dt_nominal 0 0 (by norm_num)
  have hduty : (HAL_TIM_PeriodElapsedCallback (demo_platform Real.cos Real.pi)
      input_quarter_turn
      (demo_quarter_turn_state (demo_platform Real.cos Real.pi))).motor.pwm_duty =
      space_vector_modulation Real.cos Real.pi (-1001 / 5000) 90 := by
    rw [tick_safe _ _ _ rfl hsafe]
    show (execute_cascaded_control _ _ _ _).1.pwm_duty = _
    rw [(execute_cascaded_control_stages _ _ _ _).2.2.2.1]
    have hV : (pid_compute
        (check_safety_limits (demo_platform Real.cos Real.pi).MAX_MOTOR_TEMPERATURE
          (input_quarter_turn : tick_input ℝ).motor_temperature
          (acquire_feedback input_quarter_turn
            (demo_quarter_turn_state (demo_platform Real.cos Real.pi))).motor).2.current_pid
        ((execute_cascaded_control (demo_platform Real.cos Real.pi) input_quarter_turn
            (check_safety_limits (demo_platform Real.cos Real.pi).MAX_MOTOR_TEMPERATURE
              (input_quarter_turn : tick_input ℝ).motor_temperature
              (acquire_feedback input_quarter_turn
                (demo_quarter_turn_state (demo_platform Real.cos Real.pi))).motor).2
            (demo_quarter_turn_state (demo_platform Real.cos Real.pi)).last_time).1.current_setpoint -
          (check_safety_limits (demo_platform Real.cos Real.pi).MAX_MOTOR_TEMPERATURE
            (input_quarter_turn : tick_input ℝ).motor_temperature
            (acquire_feedback input_quarter_turn
              (demo_quarter_turn_state (demo_platform Real.cos Real.pi))).motor).2.current)
        (input_quarter_turn : tick_input ℝ).hal_tick_velocity
        (input_quarter_turn : tick_input ℝ).hal_tick_current).output = -1001 / 5000 := by
      rw [pid_compute_unfold, (pid_compute_integral _ _ _ _).1,
        (execute_cascaded_control_stages _ _ _ _).2.1, pid_compute_unfold,
        (pid_compute_integral _ _ _ _).1,
        (execute_cascaded_control_outer_held _ _ _ _ hst).2]
      simp only [check_safety_limits_closed]
      simp only [acquire_feedback, input_quarter_turn, demo_quarter_turn_state, system_init,
        init_motor_control_system, system_zero, init_pid_controller, demo_platform,
        wrap_int32, reduceCtorEq, if_false, hdt0]
      norm_num
    have hp : (check_safety_limits (demo_platform Real.cos Real.pi).MAX_MOTOR_TEMPERATURE
        (input_quarter_turn : tick_input ℝ).motor_temperature
        (acquire_feedback input_quarter_turn
          (demo_quarter_turn_state (demo_platform Real.cos Real.pi))).motor).2.position = 90 := by
      rw [check_safety_limits_closed]
      simp only [acquire_feedback, input_quarter_turn, ENCODER_PPR]
      norm_num
    rw [hV, hp]
    rfl
  refine ⟨hpos, hduty, fun heq => ?_⟩
  rw [hduty] at heq
  have hright : (space_vector_modulation Real.cos Real.pi (-1001 / 5000)
      (90 * Real.pi / 180)).1 = 1 / 2 := by
    rw [svm_duty_a_half_real]
    have hang : 90 * Real.pi / 180 = Real.pi / 2 := by ring
    rw [hang, Real.cos_pi_div_two, mul_zero]
  rw [hright, svm_duty_a_half_real] at heq
  rcases mul_eq_zero.mp heq with h | h
  · norm_num at h
  · exact cos_ninety_ne_zero h

end MotorControl
